import Mathlib

/-!
Inspection tool: parsers and issue rule engines.

A shallow embedding of the host parsers (`internal/server/parser.go`), the host rule
engine (`internal/server/inspector.go`) and the cluster rule engine
(`internal/k8s/inspector.go`), followed by theorems about them.

Conventions of the embedding:

* a Go `string` is a list of characters (`List Char`) inside the parsers and a `String`
  in record fields;
* a Go `int`/`int64` is an `Int`; every arithmetic result is reduced into the signed
  64-bit range by `wrapInt64`;
* a Go `float64` is an exact rational (`ℚ`): rounding, NaN and the infinities are not
  represented;
* a Go `map[string]V` is an association list with distinct keys; the order in which a
  `range` statement visits a map is chosen by a `RangeOrder`, and theorems hold for
  every such order;
* `time.Now()` is not represented: an `Issue` carries no timestamp.
-/

set_option autoImplicit false
set_option maxRecDepth 100000

namespace InspectionTool

/-! ## Go runtime -/

/-- Reduction of an integer into the signed 64-bit range (two's complement wrap-around). -/
def wrapInt64 (x : Int) : Int := (x + 2 ^ 63) % 2 ^ 64 - 2 ^ 63

/-- The Go predicate `unicode.IsSpace`. -/
def isSpace (c : Char) : Bool :=
  let n := c.toNat
  n == 0x20 || (0x09 ≤ n && n ≤ 0x0D) || n == 0x85 || n == 0xA0 || n == 0x1680 ||
    (0x2000 ≤ n && n ≤ 0x200A) || n == 0x2028 || n == 0x2029 || n == 0x202F ||
    n == 0x205F || n == 0x3000

/-- The Go function `strings.TrimSpace`. -/
def TrimSpace (s : List Char) : List Char := (s.dropWhile isSpace).rdropWhile isSpace

/-- The Go function `strings.Fields`: the maximal runs of non-space characters. -/
def Fields (s : List Char) : List (List Char) :=
  (s.splitOnP isSpace).filter fun f => !f.isEmpty

/-- The Go function `strings.Split` for a separator of one character (every call site of
the parsers splits on a one-character separator). -/
def Split (s : List Char) (sep : Char) : List (List Char) := s.splitOn sep

/-- The Go function `strings.HasPrefix`. -/
def HasPrefix (s pre : List Char) : Bool := pre.isPrefixOf s

/-- The Go function `strings.TrimSuffix`. -/
def TrimSuffix (s suffix : List Char) : List Char :=
  if suffix.isSuffixOf s then s.take (s.length - suffix.length) else s

/-- The Go function `strings.Contains`. -/
def Contains (s substr : List Char) : Bool := s.tails.any fun t => substr.isPrefixOf t

/-- Outcome of the digit loop of `strconv.ParseUint(s, 10, 64)`. -/
inductive UintResult where
  | ok (n : Nat)
  | rangeErr
  | syntaxErr
  deriving DecidableEq, Repr

/-- The digit loop of `strconv.ParseUint` in base 10: a character that is not a decimal
digit is a syntax error; the loop stops with a range error as soon as the accumulated
value leaves the unsigned 64-bit range. -/
def parseUintLoop : List Char → Nat → UintResult
  | [], n => .ok n
  | c :: cs, n =>
    if c.isDigit then
      if 2 ^ 64 ≤ n * 10 + (c.toNat - 48) then .rangeErr
      else parseUintLoop cs (n * 10 + (c.toNat - 48))
    else .syntaxErr

/-- The value returned by `strconv.ParseInt(s, 10, 64)`, the error being dropped (as every
call site does with `val, _ :=`): `0` on a syntax error, the nearest bound of the signed
64-bit range on a range error. -/
def ParseInt (s : List Char) : Int :=
  match s with
  | [] => 0
  | c :: rest =>
    let neg := c == '-'
    let body := if c == '+' || c == '-' then rest else s
    match body with
    | [] => 0
    | _ :: _ =>
      match parseUintLoop body 0 with
      | .syntaxErr => 0
      | .rangeErr => if neg then -(2 ^ 63) else 2 ^ 63 - 1
      | .ok un =>
        if neg then (if 2 ^ 63 < un then -(2 ^ 63) else -(un : Int))
        else (if 2 ^ 63 ≤ un then 2 ^ 63 - 1 else (un : Int))

/-- A Go map with string keys. -/
abbrev GoMap (V : Type) := List (List Char × V)

/-- Map read `m[k]` with the comma-ok form. -/
def mapGet? {V : Type} (m : GoMap V) (k : List Char) : Option V :=
  match m with
  | [] => none
  | (k', v) :: rest => if k' = k then some v else mapGet? rest k

/-- Map write `m[k] = v`. -/
def mapSet {V : Type} (m : GoMap V) (k : List Char) (v : V) : GoMap V :=
  match m with
  | [] => [(k, v)]
  | (k', v') :: rest => if k' = k then (k, v) :: rest else (k', v') :: mapSet rest k v

/-- The order in which `range` visits the entries of a map: some rearrangement of them,
chosen anew for every map. -/
structure RangeOrder where
  visit : (α : Type) → List α → List α
  visit_perm : ∀ (α : Type) (l : List α), List.Perm (visit α l) l

/-- The order that visits the entries as stored. -/
def RangeOrder.stored : RangeOrder := ⟨fun _ l => l, fun _ l => List.Perm.refl l⟩

/-- The order that visits the entries backwards. -/
def RangeOrder.backwards : RangeOrder := ⟨fun _ l => l.reverse, fun _ l => List.reverse_perm l⟩

/-- A loop `for i, x := range xs` over a slice, as a fold that passes the index. -/
def rangeFold {σ α : Type} (body : σ → Nat → α → σ) : Nat → List α → σ → σ
  | _, [], s => s
  | i, x :: xs, s => rangeFold body (i + 1) xs (body s i x)

/-- The value returned by `strconv.Atoi(s)` on a 64-bit platform, the error being dropped:
its fast path and its fall-back `ParseInt(s, 10, 0)` return the same values. -/
def Atoi (s : List Char) : Int := ParseInt s

/-- The value returned by `strconv.ParseFloat(s, 64)`, the error being dropped. The
function belongs to the Go library; the parsers take it as a parameter. -/
abbrev FloatParser := List Char → ℚ

/-- The Go expression `len(s)`: the number of bytes of the UTF-8 encoding. -/
def byteLen (s : List Char) : Nat := (s.map fun c => c.utf8Size).sum

/-- The Go function `strings.Join`. -/
def Join (elems : List String) (sep : String) : String := sep.intercalate elems

/-- Digits of `n` padded with zeros on the left to at least `width` characters. -/
def padDigits (width n : Nat) : String :=
  let d := Nat.repr n
  String.mk (List.replicate (width - d.length) '0') ++ d

/-- The verb `%.<prec>f` of `fmt.Sprintf` on an exact rational: rounding to `prec`
decimals, ties to even. -/
def fmtFloat (prec : Nat) (q : ℚ) : String :=
  let scaled : ℚ := |q| * (10 : ℚ) ^ prec
  let fl : Nat := scaled.floor.toNat
  let r : ℚ := scaled - fl
  let n : Nat := if 1 / 2 < r ∨ (r = 1 / 2 ∧ fl % 2 = 1) then fl + 1 else fl
  let sign := if q < 0 then "-" else ""
  let frac := if prec = 0 then "" else "." ++ padDigits prec (n % 10 ^ prec)
  sign ++ Nat.repr (n / 10 ^ prec) ++ frac

/-- The verb `%d` of `fmt.Sprintf`. -/
def fmtInt (n : Int) : String := toString n

/-! ## Records (`pkg/models/models.go`) -/

/-- The record `models.Issue` (without its timestamp). -/
structure Issue where
  Level : String := ""
  Category : String := ""
  Message : String := ""
  Details : String := ""
  Suggestion : String := ""
  deriving DecidableEq

/-- The record `models.OSInfo`. -/
structure OSInfo where
  Hostname : String := ""
  Platform : String := ""
  Family : String := ""
  Version : String := ""
  KernelVer : String := ""
  Uptime : Int := 0
  deriving DecidableEq

/-- The record `models.CPUMetrics`. -/
structure CPUMetrics where
  CoreCount : Int := 0
  Load1 : ℚ := 0
  Load5 : ℚ := 0
  Load15 : ℚ := 0
  UsagePercent : ℚ := 0
  UserPercent : ℚ := 0
  SystemPercent : ℚ := 0
  IdlePercent : ℚ := 0
  IowaitPercent : ℚ := 0
  StealPercent : ℚ := 0
  ContextSwitches : Int := 0
  Interrupts : Int := 0
  RunQueue : Int := 0
  BlockedTasks : Int := 0
  deriving DecidableEq

/-- The record `models.MemoryMetrics`. -/
structure MemoryMetrics where
  TotalMB : Int := 0
  UsedMB : Int := 0
  FreeMB : Int := 0
  AvailableMB : Int := 0
  UsagePercent : ℚ := 0
  CachedMB : Int := 0
  BuffersMB : Int := 0
  SwapTotalMB : Int := 0
  SwapUsedMB : Int := 0
  SwapPercent : ℚ := 0
  DirtyMB : Int := 0
  Pressure : String := ""
  deriving DecidableEq

/-- The record `models.DiskMetrics`. -/
structure DiskMetrics where
  Device : String := ""
  MountPoint : String := ""
  FsType : String := ""
  TotalGB : ℚ := 0
  UsedGB : ℚ := 0
  FreeGB : ℚ := 0
  UsagePercent : ℚ := 0
  InodesTotal : Int := 0
  InodesUsed : Int := 0
  InodesFree : Int := 0
  InodesPercent : ℚ := 0
  ReadBytesPS : Int := 0
  WriteBytesPS : Int := 0
  ReadOpsPS : Int := 0
  WriteOpsPS : Int := 0
  IOUtilPercent : ℚ := 0
  AvgQueueSize : ℚ := 0
  AvgAwaitMs : ℚ := 0
  IOErrors : Int := 0
  deriving DecidableEq

/-- The record `models.NetworkInterface`. -/
structure NetworkInterface where
  Name : String := ""
  RxBytesPS : Int := 0
  TxBytesPS : Int := 0
  RxPacketsPS : Int := 0
  TxPacketsPS : Int := 0
  RxErrors : Int := 0
  TxErrors : Int := 0
  RxDropped : Int := 0
  TxDropped : Int := 0
  ErrorRate : ℚ := 0
  deriving DecidableEq

/-- The record `models.TCPStats`. -/
structure TCPStats where
  Established : Int := 0
  SynSent : Int := 0
  SynRecv : Int := 0
  FinWait1 : Int := 0
  FinWait2 : Int := 0
  TimeWait : Int := 0
  CloseWait : Int := 0
  LastAck : Int := 0
  Listen : Int := 0
  Closing : Int := 0
  Retransmits : Int := 0
  RetransmitRate : ℚ := 0
  deriving DecidableEq

/-- The record `models.NetworkMetrics`. -/
structure NetworkMetrics where
  Interfaces : List NetworkInterface := []
  TCPConnections : TCPStats := {}
  PacketErrors : Int := 0
  PacketDrops : Int := 0
  deriving DecidableEq

/-- The record `models.SystemMetrics`. -/
structure SystemMetrics where
  FileHandlesAllocated : Int := 0
  FileHandlesMax : Int := 0
  FileHandlesPercent : ℚ := 0
  ProcessCount : Int := 0
  ThreadCount : Int := 0
  TimeOffset : ℚ := 0
  NTPSynced : Bool := false
  KernelParams : GoMap String := []
  deriving DecidableEq

/-- The record `models.ServerReport` (without its timestamp). -/
structure ServerReport where
  Host : String := ""
  OS : OSInfo := {}
  CPU : CPUMetrics := {}
  Memory : MemoryMetrics := {}
  Disk : List DiskMetrics := []
  Network : NetworkMetrics := {}
  System : SystemMetrics := {}
  Issues : List Issue := []
  deriving DecidableEq

/-! ## Host parsers (`internal/server/parser.go`) -/

/-- The loop of `parseMemoryMetrics` that fills `meminfoMap`. -/
def meminfoMap (meminfo : String) : GoMap Int :=
  (Split (TrimSpace meminfo.data) '\n').foldl
    (fun m line =>
      let parts := Fields line
      if 2 ≤ parts.length then
        mapSet m (TrimSuffix (parts.getD 0 []) [':']) (ParseInt (parts.getD 1 []))
      else m)
    []

/-- Map read `meminfoMap[key]`: the zero value when the key is absent. -/
def memValue (m : GoMap Int) (key : String) : Int := (mapGet? m key.data).getD 0

/-- The function `parseMemoryMetrics`. Integer division by 1024 truncates toward zero. -/
def parseMemoryMetrics (meminfo memPressure : String) : MemoryMetrics :=
  let m := meminfoMap meminfo
  let TotalMB := (memValue m "MemTotal").tdiv 1024
  let FreeMB := (memValue m "MemFree").tdiv 1024
  let AvailableMB := (memValue m "MemAvailable").tdiv 1024
  let CachedMB := (memValue m "Cached").tdiv 1024
  let BuffersMB := (memValue m "Buffers").tdiv 1024
  let SwapTotalMB := (memValue m "SwapTotal").tdiv 1024
  let SwapUsedMB := (wrapInt64 (memValue m "SwapTotal" - memValue m "SwapFree")).tdiv 1024
  let DirtyMB := (memValue m "Dirty").tdiv 1024
  let UsedMB := wrapInt64 (wrapInt64 (wrapInt64 (TotalMB - FreeMB) - BuffersMB) - CachedMB)
  let UsagePercent : ℚ :=
    if 0 < TotalMB then (wrapInt64 (TotalMB - AvailableMB) : ℚ) / (TotalMB : ℚ) * 100 else 0
  let SwapPercent : ℚ :=
    if 0 < SwapTotalMB then (SwapUsedMB : ℚ) / (SwapTotalMB : ℚ) * 100 else 0
  let p := TrimSpace memPressure.data
  let Pressure :=
    if Contains p "full".data then "full" else if Contains p "some".data then "some" else "none"
  { TotalMB := TotalMB, UsedMB := UsedMB, FreeMB := FreeMB, AvailableMB := AvailableMB,
    UsagePercent := UsagePercent, CachedMB := CachedMB, BuffersMB := BuffersMB,
    SwapTotalMB := SwapTotalMB, SwapUsedMB := SwapUsedMB, SwapPercent := SwapPercent,
    DirtyMB := DirtyMB, Pressure := Pressure }

/-- The record `IOStats` of the parser. -/
structure IOStats where
  ReadOps : Int := 0
  WriteOps : Int := 0
  ReadBytes : Int := 0
  WriteBytes : Int := 0
  IOTime : Int := 0
  deriving DecidableEq

/-- The function `parseIOStats`: one entry per `/proc/diskstats` row of at least 14 fields
whose device name has no `loop` in it and at most 10 bytes. -/
def parseIOStats (diskstats : String) : GoMap IOStats :=
  (Split (TrimSpace diskstats.data) '\n').foldl
    (fun stats line =>
      let parts := Fields line
      if 14 ≤ parts.length then
        let device := parts.getD 2 []
        if Contains device "loop".data || 10 < byteLen device then stats
        else
          mapSet stats device
            { ReadOps := ParseInt (parts.getD 3 []),
              ReadBytes := wrapInt64 (ParseInt (parts.getD 5 []) * 512),
              WriteOps := ParseInt (parts.getD 7 []),
              WriteBytes := wrapInt64 (ParseInt (parts.getD 9 []) * 512),
              IOTime := ParseInt (parts.getD 12 []) }
      else stats)
    []

/-- The first loop of `parseDiskMetrics`: the `df` rows after the header, keyed by mount
point. -/
def parseDfRows (pf : FloatParser) (df : String) : GoMap DiskMetrics :=
  rangeFold
    (fun dfMap i line =>
      if i = 0 then dfMap
      else
        let parts := Fields line
        if 6 ≤ parts.length then
          let disk : DiskMetrics :=
            { Device := String.mk (parts.getD 0 []),
              MountPoint := String.mk (parts.getD 5 []),
              FsType := String.mk (parts.getD 1 []) }
          let totalStr := TrimSuffix (parts.getD 1 []) ['G']
          let usedStr := TrimSuffix (parts.getD 2 []) ['G']
          let freeStr := TrimSuffix (parts.getD 3 []) ['G']
          let disk := { disk with TotalGB := pf totalStr, UsedGB := pf usedStr, FreeGB := pf freeStr }
          let usePercentStr := TrimSuffix (parts.getD 4 []) ['%']
          let disk := { disk with UsagePercent := pf usePercentStr }
          mapSet dfMap (parts.getD 5 []) disk
        else dfMap)
    0 (Split (TrimSpace df.data) '\n') []

/-- The second loop of `parseDiskMetrics`: the `df -i` rows after the header, joined to
the `df` rows by mount point. -/
def parseInodeRows (pf : FloatParser) (dfInodes : String) (dfMap : GoMap DiskMetrics) :
    GoMap DiskMetrics :=
  rangeFold
    (fun dfMap i line =>
      if i = 0 then dfMap
      else
        let parts := Fields line
        if 6 ≤ parts.length then
          let mountPoint := parts.getD 5 []
          match mapGet? dfMap mountPoint with
          | some disk =>
            let disk :=
              { disk with
                InodesTotal := ParseInt (parts.getD 1 []),
                InodesUsed := ParseInt (parts.getD 2 []),
                InodesFree := ParseInt (parts.getD 3 []) }
            let inodePercentStr := TrimSuffix (parts.getD 4 []) ['%']
            let disk := { disk with InodesPercent := pf inodePercentStr }
            mapSet dfMap mountPoint disk
          | none => dfMap
        else dfMap)
    0 (Split (TrimSpace dfInodes.data) '\n') dfMap

/-- The statements of `parseDiskMetrics` run on a `df` row joined to a device: the
per-second fields are the second sample minus the first. -/
def applyIOStats (stats1 stats2 : IOStats) (disk : DiskMetrics) : DiskMetrics :=
  let disk :=
    { disk with
      ReadBytesPS := wrapInt64 (stats2.ReadBytes - stats1.ReadBytes),
      WriteBytesPS := wrapInt64 (stats2.WriteBytes - stats1.WriteBytes),
      ReadOpsPS := wrapInt64 (stats2.ReadOps - stats1.ReadOps),
      WriteOpsPS := wrapInt64 (stats2.WriteOps - stats1.WriteOps) }
  let totalTime := wrapInt64 (stats2.IOTime - stats1.IOTime)
  let disk :=
    if 0 < totalTime then
      let util : ℚ := (totalTime : ℚ) / 10
      { disk with IOUtilPercent := if 100 < util then 100 else util }
    else disk
  let totalOps := wrapInt64 (disk.ReadOpsPS + disk.WriteOpsPS)
  if 0 < totalOps then { disk with AvgAwaitMs := (totalTime : ℚ) / (totalOps : ℚ) } else disk

/-- The inner loop of the join in `parseDiskMetrics`: every `df` row whose device path
starts with `/dev/` followed by the device name takes the device's deltas. -/
def joinDevice (ord : RangeOrder) (device : List Char) (stats1 stats2 : IOStats)
    (dfMap : GoMap DiskMetrics) : GoMap DiskMetrics :=
  (ord.visit _ dfMap).foldl
    (fun dfMap entry =>
      if HasPrefix entry.2.Device.data ("/dev/".data ++ device) then
        mapSet dfMap entry.1 (applyIOStats stats1 stats2 entry.2)
      else dfMap)
    dfMap

/-- The outer loop of the join in `parseDiskMetrics`, over the devices of the second
sample that the first sample has too. -/
def joinIOStats (ord : RangeOrder) (iostat1Map iostat2Map : GoMap IOStats)
    (dfMap : GoMap DiskMetrics) : GoMap DiskMetrics :=
  (ord.visit _ iostat2Map).foldl
    (fun dfMap entry =>
      match mapGet? iostat1Map entry.1 with
      | some stats1 => joinDevice ord entry.1 stats1 entry.2 dfMap
      | none => dfMap)
    dfMap

/-- The function `parseDiskMetrics`. The text `ioErrors` is not read. -/
def parseDiskMetrics (pf : FloatParser) (ord : RangeOrder)
    (df dfInodes iostat1 iostat2 _ioErrors : String) : List DiskMetrics :=
  let dfMap := parseDfRows pf df
  let dfMap := parseInodeRows pf dfInodes dfMap
  let iostat1Map := parseIOStats iostat1
  let iostat2Map := parseIOStats iostat2
  let dfMap := joinIOStats ord iostat1Map iostat2Map dfMap
  (ord.visit _ dfMap).map fun entry => entry.2


/-- The record `NetDevStats` of the parser. -/
structure NetDevStats where
  RxBytes : Int := 0
  RxPackets : Int := 0
  RxErrors : Int := 0
  RxDropped : Int := 0
  TxBytes : Int := 0
  TxPackets : Int := 0
  TxErrors : Int := 0
  TxDropped : Int := 0
  deriving DecidableEq

/-- The function `parseNetDev`: one entry per `/proc/net/dev` row of at least 17 fields
after the two header lines. -/
def parseNetDev (netdev : String) : GoMap NetDevStats :=
  rangeFold
    (fun stats i line =>
      if i ≤ 1 then stats
      else
        let parts := Fields line
        if 17 ≤ parts.length then
          mapSet stats (TrimSuffix (parts.getD 0 []) [':'])
            { RxBytes := ParseInt (parts.getD 1 []),
              RxPackets := ParseInt (parts.getD 2 []),
              RxErrors := ParseInt (parts.getD 3 []),
              RxDropped := ParseInt (parts.getD 4 []),
              TxBytes := ParseInt (parts.getD 9 []),
              TxPackets := ParseInt (parts.getD 10 []),
              TxErrors := ParseInt (parts.getD 11 []),
              TxDropped := ParseInt (parts.getD 12 []) }
        else stats)
    0 (Split (TrimSpace netdev.data) '\n') []

/-- The function `parseTCPStats`. -/
def parseTCPStats (tcpStats : String) : TCPStats :=
  (Split (TrimSpace tcpStats.data) '\n').foldl
    (fun stats line =>
      let parts := Fields line
      if 2 ≤ parts.length then
        let count := Atoi (parts.getD 0 [])
        let state := String.mk (parts.getD 1 [])
        if state = "ESTAB" then { stats with Established := count }
        else if state = "SYN-SENT" then { stats with SynSent := count }
        else if state = "SYN-RECV" then { stats with SynRecv := count }
        else if state = "FIN-WAIT-1" then { stats with FinWait1 := count }
        else if state = "FIN-WAIT-2" then { stats with FinWait2 := count }
        else if state = "TIME-WAIT" then { stats with TimeWait := count }
        else if state = "CLOSE-WAIT" then { stats with CloseWait := count }
        else if state = "LAST-ACK" then { stats with LastAck := count }
        else if state = "LISTEN" then { stats with Listen := count }
        else if state = "CLOSING" then { stats with Closing := count }
        else stats
      else stats)
    {}

/-- The interface record that `parseNetworkMetrics` builds from the two samples of one
interface: the per-second fields are the second sample minus the first. -/
def makeInterface (name : List Char) (stats1 stats2 : NetDevStats) : NetworkInterface :=
  let iface : NetworkInterface :=
    { Name := String.mk name,
      RxBytesPS := wrapInt64 (stats2.RxBytes - stats1.RxBytes),
      TxBytesPS := wrapInt64 (stats2.TxBytes - stats1.TxBytes),
      RxPacketsPS := wrapInt64 (stats2.RxPackets - stats1.RxPackets),
      TxPacketsPS := wrapInt64 (stats2.TxPackets - stats1.TxPackets),
      RxErrors := stats2.RxErrors,
      TxErrors := stats2.TxErrors,
      RxDropped := stats2.RxDropped,
      TxDropped := stats2.TxDropped }
  let totalPackets := wrapInt64 (iface.RxPacketsPS + iface.TxPacketsPS)
  if 0 < totalPackets then
    { iface with
      ErrorRate := (wrapInt64 (iface.RxErrors + iface.TxErrors) : ℚ) / (totalPackets : ℚ) }
  else iface

/-- The interface loop of `parseNetworkMetrics`, over the interfaces of the second sample. -/
def joinNetDev (ord : RangeOrder) (netdev1Map netdev2Map : GoMap NetDevStats)
    (metrics : NetworkMetrics) : NetworkMetrics :=
  (ord.visit _ netdev2Map).foldl
    (fun metrics entry =>
      if entry.1 = "lo".data then metrics
      else
        match mapGet? netdev1Map entry.1 with
        | some stats1 =>
          let iface := makeInterface entry.1 stats1 entry.2
          { metrics with
            Interfaces := metrics.Interfaces ++ [iface],
            PacketErrors :=
              wrapInt64 (metrics.PacketErrors + wrapInt64 (iface.RxErrors + iface.TxErrors)),
            PacketDrops :=
              wrapInt64 (metrics.PacketDrops + wrapInt64 (iface.RxDropped + iface.TxDropped)) }
        | none => metrics)
    metrics

/-- The retransmit block of `parseNetworkMetrics`: the value under the key `TCPRetrans`
of the first two lines of the `TcpExt` text. -/
def parseRetransmits (netstat : String) (tcp : TCPStats) : TCPStats :=
  if Contains netstat.data "TcpExt".data then
    let lines := Split netstat.data '\n'
    if 2 ≤ lines.length then
      let keys := Fields (lines.getD 0 [])
      let values := Fields (lines.getD 1 [])
      rangeFold
        (fun tcp i key =>
          if i < values.length then
            if key = "TCPRetrans".data then
              { tcp with Retransmits := ParseInt (values.getD i []) }
            else tcp
          else tcp)
        0 keys tcp
    else tcp
  else tcp

/-- The function `parseNetworkMetrics`. The text `localIP` is not read. -/
def parseNetworkMetrics (ord : RangeOrder)
    (netdev1 netdev2 tcpStats netstat _localIP : String) : NetworkMetrics :=
  let metrics : NetworkMetrics := { Interfaces := [] }
  let netdev1Map := parseNetDev netdev1
  let netdev2Map := parseNetDev netdev2
  let metrics := joinNetDev ord netdev1Map netdev2Map metrics
  let metrics := { metrics with TCPConnections := parseTCPStats tcpStats }
  { metrics with TCPConnections := parseRetransmits netstat metrics.TCPConnections }


/-! ## Host rule engine (`internal/server/inspector.go`) -/

/-- The body of the disk loop of `analyzeIssues`: the four disk rules, in order. -/
def analyzeDisk (issues : List Issue) (disk : DiskMetrics) : List Issue :=
  let issues :=
    if disk.UsagePercent > 85 then
      issues ++ [{
        Level := "critical",
        Category := "disk",
        Message := "磁盘空间不足: " ++ disk.MountPoint ++ " (" ++ fmtFloat 2 disk.UsagePercent ++ "%)",
        Details := "剩余空间: " ++ fmtFloat 2 disk.FreeGB ++ " GB",
        Suggestion := "清理磁盘空间或扩容" }]
    else issues
  let issues :=
    if disk.InodesPercent > 80 then
      issues ++ [{
        Level := "warning",
        Category := "disk",
        Message := "Inode使用率过高: " ++ disk.MountPoint ++ " (" ++ fmtFloat 2 disk.InodesPercent ++ "%)",
        Details := "剩余Inode: " ++ fmtInt disk.InodesFree,
        Suggestion := "删除不需要的小文件" }]
    else issues
  let issues :=
    if disk.IOUtilPercent > 80 then
      issues ++ [{
        Level := "warning",
        Category := "disk",
        Message := "磁盘IO利用率过高: " ++ disk.Device ++ " (" ++ fmtFloat 2 disk.IOUtilPercent ++ "%)",
        Details := "平均等待时间: " ++ fmtFloat 2 disk.AvgAwaitMs ++ " ms",
        Suggestion := "优化IO操作或升级存储" }]
    else issues
  if disk.IOErrors > 0 then
    issues ++ [{
      Level := "critical",
      Category := "disk",
      Message := "检测到磁盘IO错误: " ++ disk.Device,
      Details := "错误计数: " ++ fmtInt disk.IOErrors,
      Suggestion := "检查磁盘健康状态,可能需要更换磁盘" }]
  else issues

/-- The body of the interface loop of `analyzeIssues`: the error-rate rule. -/
def analyzeInterface (issues : List Issue) (iface : NetworkInterface) : List Issue :=
  if iface.ErrorRate > 1 / 100 then
    issues ++ [{
      Level := "warning",
      Category := "network",
      Message := "网络接口错误率过高: " ++ iface.Name ++ " (" ++ fmtFloat 4 (iface.ErrorRate * 100) ++ "%)",
      Details := "接收错误: " ++ fmtInt iface.RxErrors ++ ", 发送错误: " ++ fmtInt iface.TxErrors,
      Suggestion := "检查网络硬件和线缆" }]
  else issues

/-- The CPU and memory rules of `analyzeIssues`, in order. -/
def analyzeCPUMemory (report : ServerReport) (issues : List Issue) : List Issue :=
  let issues :=
    if report.CPU.Load1 > (report.CPU.CoreCount : ℚ) * 2 then
      issues ++ [{
        Level := "critical",
        Category := "cpu",
        Message := "CPU负载过高: " ++ fmtFloat 2 report.CPU.Load1 ++ " (核心数: " ++
          fmtInt report.CPU.CoreCount ++ ")",
        Details := "1分钟平均负载超过核心数的2倍",
        Suggestion := "检查高CPU进程,考虑优化或扩容" }]
    else issues
  let issues :=
    if report.CPU.IowaitPercent > 30 then
      issues ++ [{
        Level := "warning",
        Category := "cpu",
        Message := "IO等待时间过高: " ++ fmtFloat 2 report.CPU.IowaitPercent ++ "%",
        Details := "CPU大量时间在等待IO操作",
        Suggestion := "检查磁盘IO性能,优化IO密集型操作" }]
    else issues
  let issues :=
    if report.CPU.BlockedTasks > 10 then
      issues ++ [{
        Level := "warning",
        Category := "cpu",
        Message := "阻塞任务数量过多: " ++ fmtInt report.CPU.BlockedTasks,
        Details := "有大量任务处于不可中断睡眠状态",
        Suggestion := "检查IO子系统和锁竞争问题" }]
    else issues
  let issues :=
    if report.Memory.UsagePercent > 90 then
      issues ++ [{
        Level := "critical",
        Category := "memory",
        Message := "内存使用率过高: " ++ fmtFloat 2 report.Memory.UsagePercent ++ "%",
        Details := "可用内存: " ++ fmtInt report.Memory.AvailableMB ++ " MB",
        Suggestion := "释放内存或增加物理内存" }]
    else issues
  let issues :=
    if report.Memory.SwapPercent > 50 then
      issues ++ [{
        Level := "warning",
        Category := "memory",
        Message := "Swap使用率过高: " ++ fmtFloat 2 report.Memory.SwapPercent ++ "%",
        Details := "系统在使用交换空间,可能影响性能",
        Suggestion := "检查内存泄漏,考虑增加物理内存" }]
    else issues
  if Contains report.Memory.Pressure.data "some".data ||
      Contains report.Memory.Pressure.data "full".data then
    issues ++ [{
      Level := "critical",
      Category := "memory",
      Message := "检测到内存压力",
      Details := "内存压力状态: " ++ report.Memory.Pressure,
      Suggestion := "系统正在经历内存压力,需要立即处理" }]
  else issues

/-- The TCP and system rules of `analyzeIssues`, in order. -/
def analyzeTCPSystem (report : ServerReport) (issues : List Issue) : List Issue :=
  let issues :=
    if report.Network.TCPConnections.RetransmitRate > 5 / 100 then
      issues ++ [{
        Level := "warning",
        Category := "network",
        Message := "TCP重传率过高: " ++
          fmtFloat 2 (report.Network.TCPConnections.RetransmitRate * 100) ++ "%",
        Details := "重传次数: " ++ fmtInt report.Network.TCPConnections.Retransmits,
        Suggestion := "检查网络质量和TCP参数配置" }]
    else issues
  let issues :=
    if report.Network.TCPConnections.TimeWait > 10000 then
      issues ++ [{
        Level := "info",
        Category := "network",
        Message := "TIME_WAIT连接数过多: " ++ fmtInt report.Network.TCPConnections.TimeWait,
        Details := "可能影响可用端口数",
        Suggestion := "调整net.ipv4.tcp_tw_reuse参数" }]
    else issues
  let issues :=
    if report.System.FileHandlesPercent > 80 then
      issues ++ [{
        Level := "warning",
        Category := "system",
        Message := "文件句柄使用率过高: " ++ fmtFloat 2 report.System.FileHandlesPercent ++ "%",
        Details := "已分配: " ++ fmtInt report.System.FileHandlesAllocated ++ ", 最大值: " ++
          fmtInt report.System.FileHandlesMax,
        Suggestion := "增加fs.file-max参数或排查句柄泄漏" }]
    else issues
  if report.System.TimeOffset > 5 ∨ report.System.TimeOffset < -5 then
    issues ++ [{
      Level := "warning",
      Category := "system",
      Message := "时间偏差过大: " ++ fmtFloat 2 report.System.TimeOffset ++ "秒",
      Details := "系统时间与NTP服务器不同步",
      Suggestion := "配置NTP服务并同步时间" }]
  else issues

/-- The method `Inspector.analyzeIssues` of the host inspector: the CPU and memory rules,
the disk loop, the interface loop, the TCP and system rules, each appending to
`report.Issues`. -/
def analyzeIssues (report : ServerReport) : ServerReport :=
  let issues := analyzeCPUMemory report report.Issues
  let issues := report.Disk.foldl analyzeDisk issues
  let issues := report.Network.Interfaces.foldl analyzeInterface issues
  let issues := analyzeTCPSystem report issues
  { report with Issues := issues }


/-! ## Cluster records (`pkg/models/models.go`) -/

/-- The record `models.ClusterInfo`. -/
structure ClusterInfo where
  Version : String := ""
  NodeCount : Int := 0
  PodCount : Int := 0
  NamespaceCount : Int := 0
  deriving DecidableEq

/-- The record `models.NodeCondition`; its field `Type` is written `Type_`. -/
structure NodeCondition where
  Type_ : String := ""
  Status : String := ""
  Reason : String := ""
  Message : String := ""
  deriving DecidableEq

/-- The record `models.NodeMetrics`. -/
structure NodeMetrics where
  Name : String := ""
  Ready : Bool := false
  Conditions : List NodeCondition := []
  CPUCapacity : String := ""
  MemoryCapacity : String := ""
  PodsCapacity : Int := 0
  CPUUsage : String := ""
  MemoryUsage : String := ""
  CPUPercent : ℚ := 0
  MemoryPercent : ℚ := 0
  PodCount : Int := 0
  PodPercent : ℚ := 0
  Labels : GoMap String := []
  Taints : List String := []
  KernelVersion : String := ""
  OSImage : String := ""
  ContainerRuntime : String := ""
  KubeletVersion : String := ""
  deriving DecidableEq

/-- The record `models.LatencyMetrics`. -/
structure LatencyMetrics where
  P50 : ℚ := 0
  P95 : ℚ := 0
  P99 : ℚ := 0
  deriving DecidableEq

/-- The record `models.APIServerMetrics`. -/
structure APIServerMetrics where
  Healthy : Bool := false
  Version : String := ""
  RequestRate : Int := 0
  ErrorRate : ℚ := 0
  Latency : LatencyMetrics := {}
  deriving DecidableEq

/-- The record `models.EtcdMember`. -/
structure EtcdMember where
  Name : String := ""
  Status : String := ""
  IsLeader : Bool := false
  deriving DecidableEq

/-- The record `models.EtcdMetrics`. -/
structure EtcdMetrics where
  Healthy : Bool := false
  ClusterSize : Int := 0
  Leader : String := ""
  DBSize : Int := 0
  LeaderChanges : Int := 0
  Members : List EtcdMember := []
  deriving DecidableEq

/-- The record `models.ControllerMetrics`. -/
structure ControllerMetrics where
  Healthy : Bool := false
  Leader : String := ""
  deriving DecidableEq

/-- The record `models.SchedulerMetrics`. -/
structure SchedulerMetrics where
  Healthy : Bool := false
  Leader : String := ""
  deriving DecidableEq

/-- The record `models.PodCondition`; its field `Type` is written `Type_`. -/
structure PodCondition where
  Type_ : String := ""
  Status : String := ""
  Reason : String := ""
  Message : String := ""
  deriving DecidableEq

/-- The record `models.PodMetrics`. -/
structure PodMetrics where
  Name : String := ""
  Namespace : String := ""
  Phase : String := ""
  Ready : Bool := false
  RestartCount : Int := 0
  Node : String := ""
  CPURequest : String := ""
  MemoryRequest : String := ""
  CPULimit : String := ""
  MemoryLimit : String := ""
  CPUUsage : String := ""
  MemoryUsage : String := ""
  Conditions : List PodCondition := []
  Labels : GoMap String := []
  Age : Int := 0
  deriving DecidableEq

/-- The record `models.K8sReport` (without its timestamp). -/
structure K8sReport where
  ClusterInfo : ClusterInfo := {}
  Nodes : List NodeMetrics := []
  APIServerStatus : APIServerMetrics := {}
  EtcdStatus : EtcdMetrics := {}
  ControllerStatus : ControllerMetrics := {}
  SchedulerStatus : SchedulerMetrics := {}
  Pods : List PodMetrics := []
  Issues : List Issue := []
  deriving DecidableEq

/-! ## Cluster rule engine (`internal/k8s/inspector.go`) -/

namespace K8s

/-- The function `getNodeConditionDetails`. -/
def getNodeConditionDetails (conditions : List NodeCondition) : String :=
  Join
    ((conditions.filter fun c => c.Status ≠ "True" ∧ c.Type_ = "Ready").map fun c =>
      c.Type_ ++ ": " ++ c.Status ++ " (" ++ c.Reason ++ ")")
    "; "

/-- The function `getPodConditionDetails`. -/
def getPodConditionDetails (conditions : List PodCondition) : String :=
  Join
    ((conditions.filter fun c => c.Status = "False").map fun c =>
      c.Type_ ++ ": " ++ c.Status ++ " (" ++ c.Reason ++ ")")
    "; "

/-- The function `countHealthyEtcdMembers`. -/
def countHealthyEtcdMembers (members : List EtcdMember) : Int :=
  members.foldl (fun count member => if member.Status = "Running" then count + 1 else count) 0

/-- The body of the node loop of `analyzeIssues`: the four node rules, in order. The
counter `notReadyNodes` is written and never read, and is left out. -/
def analyzeNode (issues : List Issue) (node : NodeMetrics) : List Issue :=
  let issues :=
    if !node.Ready then
      issues ++ [{
        Level := "critical",
        Category := "node",
        Message := "Node not ready: " ++ node.Name,
        Details := getNodeConditionDetails node.Conditions,
        Suggestion := "Check node status and kubelet logs" }]
    else issues
  let issues :=
    if node.CPUPercent > 80 then
      issues ++ [{
        Level := "warning",
        Category := "node",
        Message := "High CPU usage on node " ++ node.Name ++ ": " ++ fmtFloat 2 node.CPUPercent ++ "%",
        Details := "CPU: " ++ node.CPUUsage ++ " / " ++ node.CPUCapacity,
        Suggestion := "Consider scaling or optimizing workloads" }]
    else issues
  let issues :=
    if node.MemoryPercent > 85 then
      issues ++ [{
        Level := "warning",
        Category := "node",
        Message := "High memory usage on node " ++ node.Name ++ ": " ++
          fmtFloat 2 node.MemoryPercent ++ "%",
        Details := "Memory: " ++ node.MemoryUsage ++ " / " ++ node.MemoryCapacity,
        Suggestion := "Check memory-intensive pods or add more nodes" }]
    else issues
  if node.PodPercent > 90 then
    issues ++ [{
      Level := "warning",
      Category := "node",
      Message := "Pod capacity near limit on node " ++ node.Name ++ ": " ++
        fmtFloat 2 node.PodPercent ++ "%",
      Details := "Pods: " ++ fmtInt node.PodCount ++ " / " ++ fmtInt node.PodsCapacity,
      Suggestion := "Increase max pods or add more nodes" }]
  else issues

/-- The four control-plane checks of `analyzeIssues`, in order. -/
def analyzeControlPlane (report : K8sReport) (issues : List Issue) : List Issue :=
  let issues :=
    if !report.APIServerStatus.Healthy then
      issues ++ [{
        Level := "critical",
        Category := "apiserver",
        Message := "API Server unhealthy",
        Suggestion := "Check API Server logs and status" }]
    else issues
  let issues :=
    if !report.EtcdStatus.Healthy then
      issues ++ [{
        Level := "critical",
        Category := "etcd",
        Message := "etcd cluster unhealthy",
        Details := "Healthy members: " ++ fmtInt (countHealthyEtcdMembers report.EtcdStatus.Members) ++
          " / " ++ fmtInt report.EtcdStatus.ClusterSize,
        Suggestion := "Check etcd cluster status and logs" }]
    else issues
  let issues :=
    if !report.ControllerStatus.Healthy then
      issues ++ [{
        Level := "critical",
        Category := "controller",
        Message := "Controller Manager unhealthy",
        Suggestion := "Check Controller Manager logs" }]
    else issues
  if !report.SchedulerStatus.Healthy then
    issues ++ [{
      Level := "critical",
      Category := "scheduler",
      Message := "Scheduler unhealthy",
      Suggestion := "Check Scheduler logs" }]
  else issues

/-- The variables the pod loop of `analyzeIssues` carries: the issue list and the counter
`crashLoopPods`. The counters `pendingPods` and `highRestartPods` are written and never
read, and are left out. -/
structure PodLoop where
  issues : List Issue
  crashLoopPods : Int
  deriving DecidableEq

/-- The three pod rules of the pod loop of `analyzeIssues`, in order. -/
def analyzePodRules (issues : List Issue) (pod : PodMetrics) : List Issue :=
  let issues :=
    if pod.Phase = "Pending" ∧ pod.Age > 300 then
      issues ++ [{
        Level := "warning",
        Category := "pod",
        Message := "Pod stuck in Pending: " ++ pod.Namespace ++ "/" ++ pod.Name,
        Details := getPodConditionDetails pod.Conditions,
        Suggestion := "Check resource availability and scheduling constraints" }]
    else issues
  let issues :=
    if pod.RestartCount > 5 then
      issues ++ [{
        Level := "warning",
        Category := "pod",
        Message := "High restart count: " ++ pod.Namespace ++ "/" ++ pod.Name ++ " (" ++
          fmtInt pod.RestartCount ++ " restarts)",
        Suggestion := "Check pod logs for errors" }]
    else issues
  if !pod.Ready ∧ pod.Phase = "Running" then
    issues ++ [{
      Level := "warning",
      Category := "pod",
      Message := "Pod not ready: " ++ pod.Namespace ++ "/" ++ pod.Name,
      Details := getPodConditionDetails pod.Conditions,
      Suggestion := "Check readiness probe and application status" }]
  else issues

/-- The body of the pod loop of `analyzeIssues`: the crash-loop count, then the pod rules. -/
def analyzePod (st : PodLoop) (pod : PodMetrics) : PodLoop :=
  let crashLoopPods :=
    if Contains pod.Phase.data "CrashLoopBackOff".data then wrapInt64 (st.crashLoopPods + 1)
    else st.crashLoopPods
  { issues := analyzePodRules st.issues pod, crashLoopPods := crashLoopPods }

/-- The method `Inspector.analyzeIssues` of the cluster inspector: the node loop, the
control-plane checks, the pod loop and the crash-loop summary, each appending to
`report.Issues`. -/
def analyzeIssues (report : K8sReport) : K8sReport :=
  let issues := report.Nodes.foldl analyzeNode report.Issues
  let issues := analyzeControlPlane report issues
  let st := report.Pods.foldl analyzePod { issues := issues, crashLoopPods := 0 }
  let issues :=
    if st.crashLoopPods > 0 then
      st.issues ++ [{
        Level := "critical",
        Category := "pod",
        Message := fmtInt st.crashLoopPods ++ " pods in CrashLoopBackOff state",
        Suggestion := "Investigate failing pods" }]
    else st.issues
  { report with Issues := issues }

end K8s


/-! ## Vocabulary of the statements -/

/-- The level and the category of an issue. -/
def Issue.tag (i : Issue) : String × String := (i.Level, i.Category)

namespace K8s

/-- The number of pods whose phase contains `CrashLoopBackOff`, as the pod loop of the
cluster `analyzeIssues` counts them, starting from `count`. -/
def countCrashLoop (count : Int) (pods : List PodMetrics) : Int :=
  pods.foldl
    (fun c pod =>
      if Contains pod.Phase.data "CrashLoopBackOff".data then wrapInt64 (c + 1) else c)
    count

/-- The summary issue that closes the cluster `analyzeIssues` when the crash-loop counter
is positive. -/
def crashLoopSummary (count : Int) : List Issue :=
  if count > 0 then
    [{ Level := "critical", Category := "pod",
       Message := fmtInt count ++ " pods in CrashLoopBackOff state",
       Suggestion := "Investigate failing pods" }]
  else []

end K8s

/-! ## Vocabulary of the parser statements -/

/-- The keys of a map are pairwise distinct. -/
def KeysNodup {V : Type} (m : GoMap V) : Prop := (m.map Prod.fst).Nodup

/-- What the join of `parseDiskMetrics` does to one `df` row when it visits one device
of the second sample. -/
def joinStep (iostat1Map : GoMap IOStats) (disk : DiskMetrics)
    (entry : List Char × IOStats) : DiskMetrics :=
  match mapGet? iostat1Map entry.1 with
  | some stats1 =>
    if HasPrefix disk.Device.data ("/dev/".data ++ entry.1) then
      applyIOStats stats1 entry.2 disk
    else disk
  | none => disk

/-- The four per-second fields of `disk` are the differences of the samples `s1`, `s2`. -/
def RatesFrom (s1 s2 : IOStats) (disk : DiskMetrics) : Prop :=
  disk.ReadOpsPS = wrapInt64 (s2.ReadOps - s1.ReadOps) ∧
  disk.WriteOpsPS = wrapInt64 (s2.WriteOps - s1.WriteOps) ∧
  disk.ReadBytesPS = wrapInt64 (s2.ReadBytes - s1.ReadBytes) ∧
  disk.WriteBytesPS = wrapInt64 (s2.WriteBytes - s1.WriteBytes)

/-- Every counter of the sample lies in the signed 64-bit range. -/
def IOStats.InRange (s : IOStats) : Prop :=
  (-(2 ^ 63) ≤ s.ReadOps ∧ s.ReadOps < 2 ^ 63) ∧ (-(2 ^ 63) ≤ s.WriteOps ∧ s.WriteOps < 2 ^ 63) ∧
  (-(2 ^ 63) ≤ s.ReadBytes ∧ s.ReadBytes < 2 ^ 63) ∧
  (-(2 ^ 63) ≤ s.WriteBytes ∧ s.WriteBytes < 2 ^ 63) ∧
  (-(2 ^ 63) ≤ s.IOTime ∧ s.IOTime < 2 ^ 63)

/-- Every counter of the sample lies in the signed 64-bit range. -/
def NetDevStats.InRange (s : NetDevStats) : Prop :=
  (-(2 ^ 63) ≤ s.RxBytes ∧ s.RxBytes < 2 ^ 63) ∧ (-(2 ^ 63) ≤ s.TxBytes ∧ s.TxBytes < 2 ^ 63) ∧
  (-(2 ^ 63) ≤ s.RxPackets ∧ s.RxPackets < 2 ^ 63) ∧
  (-(2 ^ 63) ≤ s.TxPackets ∧ s.TxPackets < 2 ^ 63)

/-- A first `/proc/net/dev` sample: interface `eth0` with 1000 bytes received. -/
def netdevFirst : String :=
  "Inter-|   Receive                                                |  Transmit\n face |bytes    packets errs drop fifo frame compressed multicast|bytes    packets errs drop fifo colls carrier compressed\n  eth0: 1000 10 0 0 0 0 0 0 2000 20 0 0 0 0 0 0"

/-- A second `/proc/net/dev` sample: interface `eth0` with 400 bytes received. -/
def netdevSecond : String :=
  "Inter-|   Receive                                                |  Transmit\n face |bytes    packets errs drop fifo frame compressed multicast|bytes    packets errs drop fifo colls carrier compressed\n  eth0: 400 10 0 0 0 0 0 0 2500 20 0 0 0 0 0 0"

/-- A line `Key:   N kB` of `/proc/meminfo`: the key, the number of spaces beyond the
first one, the value in kB. -/
structure MemLine where
  key : List Char
  pad : Nat
  value : Nat

/-- The text of a line: the key, a colon, the spaces, the decimal digits of the value and
the unit ` kB`. -/
def MemLine.render (l : MemLine) : List Char :=
  l.key ++ ':' :: ' ' :: (List.replicate l.pad ' ' ++ ((Nat.repr l.value).data ++ " kB".data))

/-- The key of the line has no white space. -/
def MemLine.WellFormed (l : MemLine) : Prop := ∀ c ∈ l.key, isSpace c = false

/-- The text of a capture: its lines, separated by newlines. -/
def renderMeminfo (ls : List MemLine) : String :=
  String.mk (['\n'].intercalate (ls.map MemLine.render))

/-- The value of the last line of the capture with the given key, `0` when there is none. -/
def lastValue (ls : List MemLine) (key : String) : Nat :=
  (((ls.filter fun l => l.key = key.data).getLast?).map fun l => l.value).getD 0

instance : DecidablePred MemLine.WellFormed :=
  fun l => inferInstanceAs (Decidable (∀ c ∈ l.key, isSpace c = false))

/-- The capture of `TestParseMemoryMetrics`. -/
def testCapture : List MemLine :=
  [⟨"MemTotal".data, 6, 16384000⟩, ⟨"MemFree".data, 8, 4096000⟩,
   ⟨"MemAvailable".data, 3, 8192000⟩, ⟨"Buffers".data, 9, 512000⟩,
   ⟨"Cached".data, 9, 2048000⟩, ⟨"SwapTotal".data, 6, 4096000⟩,
   ⟨"SwapFree".data, 7, 3072000⟩, ⟨"Dirty".data, 11, 102400⟩]

/-- The pressure text of `TestParseMemoryMetrics`. -/
def testPressure : String := "some avg10=0.50 avg60=0.30 avg300=0.10 total=1000000"

/-- A `df` output with one row, for the device `/dev/sda`. -/
def dfSample : String :=
  "Filesystem Size Used Avail Use% Mounted on\n/dev/sda 100G 50G 50G 50% /"

/-- A first `/proc/diskstats` sample: device `sda` with 100 completed reads. -/
def diskstatsFirst : String := "8 0 sda 100 0 0 0 0 0 0 0 0 0 0"

/-- A second `/proc/diskstats` sample: device `sda` with 70 completed reads. -/
def diskstatsSecond : String := "8 0 sda 70 0 0 0 0 0 0 0 0 0 0"

/-! ## Remaining host parsers (`internal/server/parser.go`) -/

/-- The Go function `strings.SplitN(s, sep, 2)` for a separator of one character: the
text before the first separator and the text after it, or the whole text when there is no
separator. -/
def SplitN2 (s : List Char) (sep : Char) : List (List Char) :=
  match s.span (fun c => c != sep) with
  | (a, []) => [a]
  | (a, _ :: b) => [a, b]

/-- The Go function `strings.Trim`: the characters of `cutset` are removed at both ends. -/
def Trim (s cutset : List Char) : List Char :=
  (s.dropWhile fun c => cutset.contains c).rdropWhile fun c => cutset.contains c

/-- The functions of the Go library that the inspector takes as given:
`strconv.ParseFloat(s, 64)` as its value and whether it returned an error, and
`strings.ToLower`. -/
structure GoLibrary where
  ParseFloat : List Char → ℚ × Bool
  ToLower : List Char → List Char

/-- The value of `strconv.ParseFloat`, the error being dropped. -/
def GoLibrary.floatValue (lib : GoLibrary) : FloatParser := fun s => (lib.ParseFloat s).1

/-- The Go conversion `int64(val)` of a `float64`: truncation toward zero (reduced into
the 64-bit range, where the Go result depends on the platform). -/
def floatToInt64 (q : ℚ) : Int := wrapInt64 (if 0 ≤ q then ⌊q⌋ else ⌈q⌉)

/-- The function `extractOSFamily`. -/
def extractOSFamily (lib : GoLibrary) (osRelease : String) : String :=
  let s := lib.ToLower osRelease.data
  if Contains s "red hat".data || Contains s "redhat".data || Contains s "rhel".data then
    "redhat"
  else if Contains s "centos".data then "centos"
  else if Contains s "ubuntu".data then "ubuntu"
  else if Contains s "debian".data then "debian"
  else if Contains s "linux".data then "linux"
  else "linux"

/-- The loop of `extractOSVersion`: the first line that returns decides. -/
def extractOSVersionLoop : List (List Char) → Option String
  | [] => none
  | line :: lines =>
    if HasPrefix line "VERSION=".data || HasPrefix line "VERSION_ID=".data then
      let parts := SplitN2 line '='
      if parts.length = 2 then some (String.mk (Trim (parts.getD 1 []) ['"']))
      else extractOSVersionLoop lines
    else extractOSVersionLoop lines

/-- The function `extractOSVersion`. -/
def extractOSVersion (osRelease : String) : String :=
  (extractOSVersionLoop (Split osRelease.data '\n')).getD "unknown"

/-- The function `parseUptime`. -/
def parseUptime (lib : GoLibrary) (uptime : String) : Int :=
  let r := lib.ParseFloat (TrimSpace uptime.data)
  if r.2 then 0 else floatToInt64 r.1

/-- The function `extractFloat`. -/
def extractFloat (pf : FloatParser) (s : List Char) : ℚ :=
  let parts := Fields s
  if 0 < parts.length then pf (parts.getD 0 []) else 0

/-- The body of the loop of `parseCPUMetrics` over the comma-separated parts of the `top`
summary line. -/
def parseCPUUsagePart (pf : FloatParser) (metrics : CPUMetrics) (part : List Char) :
    CPUMetrics :=
  let part := TrimSpace part
  if Contains part "us".data then { metrics with UserPercent := extractFloat pf part }
  else if Contains part "sy".data then { metrics with SystemPercent := extractFloat pf part }
  else if Contains part "id".data then { metrics with IdlePercent := extractFloat pf part }
  else if Contains part "wa".data then { metrics with IowaitPercent := extractFloat pf part }
  else if Contains part "st".data then { metrics with StealPercent := extractFloat pf part }
  else metrics

/-- The body of the loop of `parseCPUMetrics` over the lines of the `/proc/stat` excerpt. -/
def parseVmstatLine (metrics : CPUMetrics) (line : List Char) : CPUMetrics :=
  if HasPrefix line "ctxt".data then
    let parts := Fields line
    if 2 ≤ parts.length then { metrics with ContextSwitches := ParseInt (parts.getD 1 []) }
    else metrics
  else if HasPrefix line "intr".data then
    let parts := Fields line
    if 2 ≤ parts.length then { metrics with Interrupts := ParseInt (parts.getD 1 []) }
    else metrics
  else if HasPrefix line "procs_running".data then
    let parts := Fields line
    if 2 ≤ parts.length then { metrics with RunQueue := Atoi (parts.getD 1 []) }
    else metrics
  else if HasPrefix line "procs_blocked".data then
    let parts := Fields line
    if 2 ≤ parts.length then { metrics with BlockedTasks := Atoi (parts.getD 1 []) }
    else metrics
  else metrics

/-- The function `parseCPUMetrics`. -/
def parseCPUMetrics (pf : FloatParser) (coreCountStr loadavg cpuUsage vmstat : String) :
    CPUMetrics :=
  let metrics : CPUMetrics := {}
  let metrics := { metrics with CoreCount := Atoi (TrimSpace coreCountStr.data) }
  let parts := Fields (TrimSpace loadavg.data)
  let metrics :=
    if 3 ≤ parts.length then
      { metrics with
        Load1 := pf (parts.getD 0 []),
        Load5 := pf (parts.getD 1 []),
        Load15 := pf (parts.getD 2 []) }
    else metrics
  let cpuUsage := TrimSpace cpuUsage.data
  let metrics :=
    if Contains cpuUsage "Cpu(s)".data then
      let metrics := (Split cpuUsage ',').foldl (parseCPUUsagePart pf) metrics
      { metrics with UsagePercent := 100 - metrics.IdlePercent }
    else metrics
  (Split (TrimSpace vmstat.data) '\n').foldl parseVmstatLine metrics

/-- The function `parseSystemMetrics`. The test `math.IsNaN` of the time offset has no
counterpart: a rational is never NaN. -/
def parseSystemMetrics (pf : FloatParser)
    (fileHandle procCount threadCount ntpStatus timeOffset kernelParams : String) :
    SystemMetrics :=
  let metrics : SystemMetrics := { KernelParams := [] }
  let parts := Fields (TrimSpace fileHandle.data)
  let metrics :=
    if 3 ≤ parts.length then
      let metrics :=
        { metrics with
          FileHandlesAllocated := ParseInt (parts.getD 0 []),
          FileHandlesMax := ParseInt (parts.getD 2 []) }
      if 0 < metrics.FileHandlesMax then
        { metrics with
          FileHandlesPercent :=
            (metrics.FileHandlesAllocated : ℚ) / (metrics.FileHandlesMax : ℚ) * 100 }
      else metrics
    else metrics
  let count := Atoi (TrimSpace procCount.data)
  let metrics := { metrics with ProcessCount := wrapInt64 (count - 1) }
  let count := Atoi (TrimSpace threadCount.data)
  let metrics := { metrics with ThreadCount := wrapInt64 (count - 1) }
  let metrics :=
    { metrics with
      NTPSynced :=
        Contains ntpStatus.data "synchronized: yes".data ||
          Contains ntpStatus.data "NTP synchronized: yes".data }
  let metrics := { metrics with TimeOffset := pf (TrimSpace timeOffset.data) }
  (Split (TrimSpace kernelParams.data) '\n').foldl
    (fun metrics line =>
      let parts := SplitN2 line '='
      if parts.length = 2 then
        { metrics with
          KernelParams :=
            mapSet metrics.KernelParams (parts.getD 0 []) (String.mk (parts.getD 1 [])) }
      else metrics)
    metrics

/-! ## Host inspector (`internal/server/inspector.go`) -/

/-- The method `Client.Execute` of the SSH client, as seen by one run of the inspector:
the captured text and the error, if any, returned to the `n`-th call of the run for the
given command. -/
abbrev Executor := Nat → String → String × Option String

/-- The method `collectOSInfo`: the only capture whose error is returned. -/
def collectOSInfo (lib : GoLibrary) (exec : Executor) (report : ServerReport) :
    Except String ServerReport :=
  let hostname := exec 0 "hostname"
  match hostname.2 with
  | some err => .error err
  | none =>
    let osRelease :=
      (exec 1 "cat /etc/os-release 2>/dev/null || cat /etc/redhat-release 2>/dev/null").1
    let kernelVer := (exec 2 "uname -r").1
    let uptime := (exec 3 "cat /proc/uptime | awk '\x7bprint $1\x7d'").1
    .ok { report with
      OS :=
        { Hostname := String.mk (TrimSpace hostname.1.data),
          Platform := "linux",
          Family := extractOSFamily lib osRelease,
          Version := extractOSVersion osRelease,
          KernelVer := String.mk (TrimSpace kernelVer.data),
          Uptime := parseUptime lib uptime } }

/-- The method `collectCPUMetrics`: the errors of the captures are dropped. -/
def collectCPUMetrics (lib : GoLibrary) (exec : Executor) (report : ServerReport) :
    Except String ServerReport :=
  let coreCount := (exec 4 "grep -c ^processor /proc/cpuinfo").1
  let loadavg := (exec 5 "cat /proc/loadavg").1
  let cpuUsage := (exec 6 "top -bn2 -d 0.5 | grep 'Cpu(s)' | tail -n 1").1
  let vmstat :=
    (exec 7 "cat /proc/stat | grep -E '^(ctxt|intr|procs_running|procs_blocked)'").1
  .ok { report with CPU := parseCPUMetrics lib.floatValue coreCount loadavg cpuUsage vmstat }

/-- The method `collectMemoryMetrics`: the errors of the captures are dropped. -/
def collectMemoryMetrics (exec : Executor) (report : ServerReport) :
    Except String ServerReport :=
  let meminfo := (exec 8 "cat /proc/meminfo").1
  let memPressure := (exec 9 "cat /proc/pressure/memory 2>/dev/null || echo 'none'").1
  .ok { report with Memory := parseMemoryMetrics meminfo memPressure }

/-- The method `collectDiskMetrics`: the errors of the captures are dropped; the pause
between the two samples of `/proc/diskstats` is not represented. -/
def collectDiskMetrics (lib : GoLibrary) (ord : RangeOrder) (exec : Executor)
    (report : ServerReport) : Except String ServerReport :=
  let df := (exec 10 "df -BG -x tmpfs -x devtmpfs").1
  let dfInodes := (exec 11 "df -i -x tmpfs -x devtmpfs").1
  let iostat1 := (exec 12 "cat /proc/diskstats").1
  let iostat2 := (exec 13 "cat /proc/diskstats").1
  let ioErrors :=
    (exec 14
      "grep -r '' /sys/block/*/stat 2>/dev/null | grep -v '0 0 0 0 0 0 0 0 0 0 0' || echo ''").1
  .ok { report with
    Disk := parseDiskMetrics lib.floatValue ord df dfInodes iostat1 iostat2 ioErrors }

/-- The method `collectNetworkMetrics`: the errors of the captures are dropped; the pause
between the two samples of `/proc/net/dev` is not represented. -/
def collectNetworkMetrics (ord : RangeOrder) (exec : Executor) (localIP : String)
    (report : ServerReport) : Except String ServerReport :=
  let netdev1 := (exec 15 "cat /proc/net/dev").1
  let netdev2 := (exec 16 "cat /proc/net/dev").1
  let tcpStats :=
    (exec 17 "ss -tan state all | tail -n +2 | awk '\x7bprint $1\x7d' | sort | uniq -c").1
  let netstat := (exec 18 "cat /proc/net/netstat | grep TcpExt").1
  .ok { report with
    Network := parseNetworkMetrics ord netdev1 netdev2 tcpStats netstat localIP }

/-- The command of `collectSystemMetrics` that prints the kernel parameters. -/
def kernelParamsCommand : String :=
  "\n\t\techo \"net.core.somaxconn=$(cat /proc/sys/net/core/somaxconn)\"\n\t\techo \"net.ipv4.tcp_max_syn_backlog=$(cat /proc/sys/net/ipv4/tcp_max_syn_backlog)\"\n\t\techo \"fs.file-max=$(cat /proc/sys/fs/file-max)\"\n\t\techo \"vm.swappiness=$(cat /proc/sys/vm/swappiness)\"\n\t"

/-- The method `collectSystemMetrics`: the errors of the captures are dropped. -/
def collectSystemMetrics (lib : GoLibrary) (exec : Executor) (report : ServerReport) :
    Except String ServerReport :=
  let fileHandle := (exec 19 "cat /proc/sys/fs/file-nr").1
  let procCount := (exec 20 "ps aux | wc -l").1
  let threadCount := (exec 21 "ps -eLf | wc -l").1
  let ntpStatus := (exec 22 "timedatectl status 2>/dev/null || echo 'unknown'").1
  let timeOffset :=
    (exec 23 "ntpq -p 2>/dev/null | tail -n 1 | awk '\x7bprint $9\x7d' || echo '0'").1
  let kernelParams := (exec 24 kernelParamsCommand).1
  .ok { report with
    System :=
      parseSystemMetrics lib.floatValue fileHandle procCount threadCount ntpStatus timeOffset
        kernelParams }

/-- The method `Inspector.Inspect`: the six collectors in order, each error wrapped and
returned without a report, then the rule engine. -/
def Inspect (lib : GoLibrary) (ord : RangeOrder) (exec : Executor) (host localIP : String) :
    Except String ServerReport :=
  let report : ServerReport := { Host := host, Issues := [] }
  match collectOSInfo lib exec report with
  | .error err => .error ("failed to collect OS info: " ++ err)
  | .ok report =>
    match collectCPUMetrics lib exec report with
    | .error err => .error ("failed to collect CPU metrics: " ++ err)
    | .ok report =>
      match collectMemoryMetrics exec report with
      | .error err => .error ("failed to collect memory metrics: " ++ err)
      | .ok report =>
        match collectDiskMetrics lib ord exec report with
        | .error err => .error ("failed to collect disk metrics: " ++ err)
        | .ok report =>
          match collectNetworkMetrics ord exec localIP report with
          | .error err => .error ("failed to collect network metrics: " ++ err)
          | .ok report =>
            match collectSystemMetrics lib exec report with
            | .error err => .error ("failed to collect system metrics: " ++ err)
            | .ok report => .ok (analyzeIssues report)

/-! ## Summary (`pkg/models/models.go`, `pkg/utils/helpers.go`) -/

/-- The record `models.InspectionSummary`. -/
structure InspectionSummary where
  TotalIssues : Int := 0
  CriticalIssues : Int := 0
  WarningIssues : Int := 0
  InfoIssues : Int := 0
  Status : String := ""
  Messages : List String := []
  deriving DecidableEq

/-- The record `models.InspectionReport` (without its timestamp); its field `Type` is
written `Type_`, and a nil report pointer is `none`. -/
structure InspectionReport where
  Type_ : String := ""
  ServerReport : Option ServerReport := none
  K8sReport : Option K8sReport := none
  Summary : InspectionSummary := {}
  deriving DecidableEq

/-- The counting statements of both loops of `BuildInspectionSummary`: the total and the
`switch` on the level. -/
def countIssue (summary : InspectionSummary) (issue : Issue) : InspectionSummary :=
  let summary := { summary with TotalIssues := wrapInt64 (summary.TotalIssues + 1) }
  if issue.Level = "critical" then
    { summary with CriticalIssues := wrapInt64 (summary.CriticalIssues + 1) }
  else if issue.Level = "warning" then
    { summary with WarningIssues := wrapInt64 (summary.WarningIssues + 1) }
  else if issue.Level = "info" then
    { summary with InfoIssues := wrapInt64 (summary.InfoIssues + 1) }
  else summary

/-- The body of the loop of `BuildInspectionSummary` over the issues of the server report. -/
def summarizeServerIssue (host : String) (summary : InspectionSummary) (issue : Issue) :
    InspectionSummary :=
  let summary := countIssue summary issue
  if issue.Level = "critical" ∨ issue.Level = "warning" then
    { summary with
      Messages :=
        summary.Messages ++ ["[" ++ host ++ "/" ++ issue.Category ++ "] " ++ issue.Message] }
  else summary

/-- The body of the loop of `BuildInspectionSummary` over the issues of the cluster
report. -/
def summarizeK8sIssue (summary : InspectionSummary) (issue : Issue) : InspectionSummary :=
  let summary := countIssue summary issue
  if issue.Level = "critical" ∨ issue.Level = "warning" then
    { summary with
      Messages := summary.Messages ++ ["[k8s/" ++ issue.Category ++ "] " ++ issue.Message] }
  else summary

/-- The function `BuildInspectionSummary`. -/
def BuildInspectionSummary (report : InspectionReport) : InspectionReport :=
  let summary := report.Summary
  let summary :=
    { summary with
      TotalIssues := 0, CriticalIssues := 0, WarningIssues := 0, InfoIssues := 0,
      Messages := [] }
  let summary :=
    match report.ServerReport with
    | some sr => sr.Issues.foldl (summarizeServerIssue sr.Host) summary
    | none => summary
  let summary :=
    match report.K8sReport with
    | some kr => kr.Issues.foldl summarizeK8sIssue summary
    | none => summary
  let summary :=
    if summary.CriticalIssues > 0 then { summary with Status := "critical" }
    else if summary.WarningIssues > 0 then { summary with Status := "warning" }
    else { summary with Status := "healthy" }
  { report with Summary := summary }

/-! ## Combined run (`cmd/commands/all.go`) -/

/-- How the goroutine of one host in `inspectServersParallel` ends: the SSH client could
not be created, the inspector could not be created, the inspection failed, or the
inspection returned a report. -/
inductive HostOutcome where
  | sshFailed (err : String)
  | inspectorFailed (err : String)
  | inspectFailed (err : String)
  | done (report : ServerReport)

/-- The goroutine of one host in `inspectServersParallel`: on each failure it prints and
returns; on success it appends its report under the mutex. -/
def inspectHost (outcome : HostOutcome) (reports : List ServerReport) : List ServerReport :=
  match outcome with
  | .sshFailed _ => reports
  | .inspectorFailed _ => reports
  | .inspectFailed _ => reports
  | .done report => reports ++ [report]

/-- The function `inspectServersParallel`: one goroutine per host; the appends are
serialised by the mutex, in the order `completion` in which the goroutines reach it. -/
def inspectServersParallel (completion : RangeOrder) (attempt : String → HostOutcome)
    (hosts : List String) : List ServerReport :=
  (completion.visit _ hosts).foldl (fun reports h => inspectHost (attempt h) reports) []

/-- The statements of `runAllInspection` from the cluster inspection to the summary:
`k8sResult` is the report of the cluster inspection (`none` when it failed) and `hosts`
the list returned by `collectHosts`. Only the first server report enters the full report. -/
def runAllInspection (k8sResult : Option K8sReport) (completion : RangeOrder)
    (attempt : String → HostOutcome) (hosts : List String) : InspectionReport :=
  let fullReport : InspectionReport := { Type_ := "all" }
  let fullReport :=
    match k8sResult with
    | some k8sReport => { fullReport with K8sReport := some k8sReport }
    | none => fullReport
  let fullReport :=
    if hosts.length = 0 then fullReport
    else
      let serverReports := inspectServersParallel completion attempt hosts
      if 0 < serverReports.length then { fullReport with ServerReport := serverReports.head? }
      else fullReport
  BuildInspectionSummary fullReport

/-- The number of issues that `runAllInspection` prints for the server inspection: the
sum over all server reports. -/
def printedServerIssues (serverReports : List ServerReport) : Int :=
  serverReports.foldl (fun totalIssues sr => wrapInt64 (totalIssues + sr.Issues.length)) 0

/-! ## Vocabulary of the summary and fan-out statements -/

/-- The issues of an inspection report: those of the server report, then those of the
cluster report, an absent report having none. -/
def allIssues (report : InspectionReport) : List Issue :=
  (match report.ServerReport with | some sr => sr.Issues | none => []) ++
    (match report.K8sReport with | some kr => kr.Issues | none => [])

/-- The number of issues of a list with the given level. -/
def levelCount (level : String) (issues : List Issue) : Nat :=
  (issues.filter fun i => i.Level = level).length

/-- The message lines of the summary for a list of issues: one per critical or warning
issue, in order, built by `line`. -/
def messageLines (line : Issue → String) (issues : List Issue) : List String :=
  (issues.filter fun i => i.Level = "critical" ∨ i.Level = "warning").map line

/-- The message line of an issue of the server report of host `host`. -/
def serverLine (host : String) (issue : Issue) : String :=
  "[" ++ host ++ "/" ++ issue.Category ++ "] " ++ issue.Message

/-- The message line of an issue of the cluster report. -/
def k8sLine (issue : Issue) : String := "[k8s/" ++ issue.Category ++ "] " ++ issue.Message

/-- The message lines of the summary of a report: server issues first. -/
def summaryMessages (report : InspectionReport) : List String :=
  (match report.ServerReport with
    | some sr => messageLines (serverLine sr.Host) sr.Issues
    | none => []) ++
    (match report.K8sReport with | some kr => messageLines k8sLine kr.Issues | none => [])

/-- The counters of a summary are those of a list of fewer than `2 ^ 63` issues counted
so far. -/
def InspectionSummary.Counted (s : InspectionSummary) (issues : List Issue) : Prop :=
  s.TotalIssues = issues.length ∧ s.CriticalIssues = levelCount "critical" issues ∧
    s.WarningIssues = levelCount "warning" issues ∧ s.InfoIssues = levelCount "info" issues

/-- The report of `TestBuildInspectionSummary`. -/
def testSummaryReport : InspectionReport :=
  { Type_ := "server",
    ServerReport := some
      { Host := "test-server",
        Issues :=
          [{ Level := "critical", Category := "cpu", Message := "High CPU" },
           { Level := "warning", Category := "memory", Message := "High memory" },
           { Level := "info", Category := "disk", Message := "Info" }] } }

/-- A report whose only issue has level `info`. -/
def infoOnlyReport : InspectionReport :=
  { Type_ := "server",
    ServerReport := some
      { Host := "test-server",
        Issues := [{ Level := "info", Category := "network", Message := "Info" }] } }

/-- The report of a host whose goroutine returned one, `none` for a host that failed. -/
def HostOutcome.report? : HostOutcome → Option ServerReport
  | .done report => some report
  | _ => none

/-- A run of two hosts: the first is inspected, the SSH connection to the second fails. -/
def oneHostFails (h : String) : HostOutcome :=
  if h = "10.0.0.1" then .done { Host := "10.0.0.1" } else .sshFailed "connection refused"

/-- A run of two hosts, each inspected with one critical issue. -/
def twoHostsOneIssueEach (h : String) : HostOutcome :=
  .done { Host := h, Issues := [{ Level := "critical", Category := "cpu", Message := "load" }] }

/-! ## Vocabulary of the rule-order, inspector and parser statements -/

/-- The position of a category in the rule table of the host rule engine. -/
def categoryRank (category : String) : Nat :=
  if category = "cpu" then 0
  else if category = "memory" then 1
  else if category = "disk" then 2
  else if category = "network" then 3
  else 4

/-- The issues of a list are in the order of the rule table: no issue comes before an
issue of an earlier category. -/
def InTableOrder (issues : List Issue) : Prop :=
  issues.Pairwise fun x y => categoryRank x.Category ≤ categoryRank y.Category

/-- Two reports of different hosts with the same metric records, which raise the load rule
and the disk usage rule. -/
def loadedHostA : ServerReport :=
  { Host := "10.0.0.1", OS := { Hostname := "a" },
    CPU := { Load1 := 9, CoreCount := 1 },
    Disk := [{ Device := "/dev/sda1", UsagePercent := 90 }] }

/-- The report `loadedHostA` under another host name. -/
def loadedHostB : ServerReport :=
  { loadedHostA with Host := "10.0.0.2", OS := { Hostname := "b" } }

/-- An executor that answers the `hostname` command and fails on every later command, with
no output. -/
def onlyHostnameAnswers : Executor :=
  fun n _ => if n = 0 then ("host-1\n", none) else ("", some "Process exited with status 1")

/-- The device of the second sample is joined to a `df` row of the given device path: the
first sample has the device too, and the path starts with `/dev/` followed by its name. -/
def joins (iostat1Map : GoMap IOStats) (device : String) (entry : List Char × IOStats) :
    Bool :=
  (mapGet? iostat1Map entry.1).isSome && HasPrefix device.data ("/dev/".data ++ entry.1)

/-- No `df` row of the input is joined to more than one device of the two samples. -/
def JoinedAtMostOnce (pf : FloatParser) (df dfInodes iostat1 iostat2 : String) : Prop :=
  ∀ row ∈ parseInodeRows pf dfInodes (parseDfRows pf df),
    ((parseIOStats iostat2).filter (joins (parseIOStats iostat1) row.2.Device)).length ≤ 1

/-- A `df` output with two rows. -/
def dfTwoRows : String :=
  "Filesystem Size Used Avail Use% Mounted on\n/dev/sda1 100G 50G 50G 50% /\n/dev/sdb1 100G 50G 50G 50% /data"

/-- A `df` output with one row, for the partition `/dev/sda1`. -/
def dfPartition : String :=
  "Filesystem Size Used Avail Use% Mounted on\n/dev/sda1 100G 50G 50G 50% /"

/-- A first `/proc/diskstats` sample with the disk `sda` and its partition `sda1`, whose
names both start the device path `/dev/sda1`. -/
def diskstatsDiskAndPartitionFirst : String :=
  "8 0 sda 100 0 0 0 0 0 0 0 0 0 0\n8 1 sda1 10 0 0 0 0 0 0 0 0 0 0"

/-- The second sample: 50 more reads on `sda`, 5 more on `sda1`. -/
def diskstatsDiskAndPartitionSecond : String :=
  "8 0 sda 150 0 0 0 0 0 0 0 0 0 0\n8 1 sda1 15 0 0 0 0 0 0 0 0 0 0"

/-- The labels that `parseTCPStats` recognises. -/
def tcpLabels : List String :=
  ["ESTAB", "SYN-SENT", "SYN-RECV", "FIN-WAIT-1", "FIN-WAIT-2", "TIME-WAIT", "CLOSE-WAIT",
    "LAST-ACK", "LISTEN", "CLOSING"]

/-- The bucket of a label in a record of TCP statistics. -/
def TCPStats.bucket (stats : TCPStats) (label : String) : Int :=
  if label = "ESTAB" then stats.Established
  else if label = "SYN-SENT" then stats.SynSent
  else if label = "SYN-RECV" then stats.SynRecv
  else if label = "FIN-WAIT-1" then stats.FinWait1
  else if label = "FIN-WAIT-2" then stats.FinWait2
  else if label = "TIME-WAIT" then stats.TimeWait
  else if label = "CLOSE-WAIT" then stats.CloseWait
  else if label = "LAST-ACK" then stats.LastAck
  else if label = "LISTEN" then stats.Listen
  else if label = "CLOSING" then stats.Closing
  else 0

/-- The lines of a list that have at least two fields and the given label as second
field, each as its list of fields. -/
def labelRows (label : String) (lines : List (List Char)) : List (List (List Char)) :=
  (lines.map Fields).filter fun parts =>
    decide (2 ≤ parts.length) && decide (String.mk (parts.getD 1 []) = label)

/-- The lines of the text that `parseTCPStats` visits. -/
def tcpLines (tcpStats : String) : List (List Char) := Split (TrimSpace tcpStats.data) '\n'

/-- The text of the test `TestParseTCPStats`. -/
def testTCPStats : String :=
  "    100 ESTAB\n     50 TIME-WAIT\n     10 SYN-SENT\n      5 LISTEN\n      2 CLOSE-WAIT"

/-- The body of the loop of `parseTCPStats`. -/
def tcpStep (stats : TCPStats) (line : List Char) : TCPStats :=
  let parts := Fields line
  if 2 ≤ parts.length then
    let count := Atoi (parts.getD 0 [])
    let state := String.mk (parts.getD 1 [])
    if state = "ESTAB" then { stats with Established := count }
    else if state = "SYN-SENT" then { stats with SynSent := count }
    else if state = "SYN-RECV" then { stats with SynRecv := count }
    else if state = "FIN-WAIT-1" then { stats with FinWait1 := count }
    else if state = "FIN-WAIT-2" then { stats with FinWait2 := count }
    else if state = "TIME-WAIT" then { stats with TimeWait := count }
    else if state = "CLOSE-WAIT" then { stats with CloseWait := count }
    else if state = "LAST-ACK" then { stats with LastAck := count }
    else if state = "LISTEN" then { stats with Listen := count }
    else if state = "CLOSING" then { stats with Closing := count }
    else stats
  else stats

/-! ## Helpers (`pkg/utils/helpers.go`) -/

/-- The function `ValidateConfig`: the error, if any. The password is not read. -/
def ValidateConfig (host user _password : String) (port : Int) : Except String Unit :=
  if host = "" then .error "host cannot be empty"
  else if user = "" then .error "user cannot be empty"
  else if port ≤ 0 ∨ port > 65535 then .error ("invalid port: " ++ fmtInt port)
  else .ok ()

/-- A Go string as the sequence of its bytes, which `len` counts and a slice expression
cuts. -/
abbrev GoBytes := List (Fin 256)

/-- The bytes of a text of ASCII characters. -/
def asciiBytes (s : String) : GoBytes := s.data.map fun c => Fin.ofNat c.toNat

/-- The function `TruncateString`. The slice expression `s[:maxLen-3]` panics when its
bound is negative or beyond the length; the panic is returned as an error. -/
def TruncateString (s : GoBytes) (maxLen : Int) : Except String GoBytes :=
  if (s.length : Int) ≤ maxLen then .ok s
  else
    let high := wrapInt64 (maxLen - 3)
    if high < 0 ∨ (s.length : Int) < high then .error "slice bounds out of range"
    else .ok (s.take high.toNat ++ asciiBytes "...")

/-- The table of `TestValidateConfig`: host, user, password, port and whether an error is
expected. -/
def validateConfigTests : List (String × String × String × Int × Bool) :=
  [("192.168.1.100", "root", "pass", 22, false),
    ("", "root", "pass", 22, true),
    ("host", "", "pass", 22, true),
    ("host", "root", "pass", 0, true),
    ("host", "root", "pass", 65536, true),
    ("host", "root", "pass", -1, true),
    ("example.com", "admin", "secret", 2222, false)]

/-- Whether a result is an error. -/
def isError {ε α : Type} : Except ε α → Bool
  | .error _ => true
  | .ok _ => false

/-! ## Cluster objects read by the parsers (`k8s.io/api`, `k8s.io/metrics`) -/

/-- A `resource.Quantity` as the inspector reads it: the results of its methods `String`,
`Value` and `MilliValue`. -/
structure resource.Quantity where
  String_ : String := ""
  Value : Int := 0
  MilliValue : Int := 0
  deriving DecidableEq

/-- The fields of a `corev1.NodeCondition` that the inspector reads. -/
structure corev1.NodeCondition where
  Type_ : String := ""
  Status : String := ""
  Reason : String := ""
  Message : String := ""
  deriving DecidableEq

/-- The object `corev1.Taint`. -/
structure corev1.Taint where
  Key : String := ""
  Value : String := ""
  Effect : String := ""
  deriving DecidableEq

/-- The fields of a `corev1.Node` that `parseNodeMetrics` reads; the three capacities are
the results of `Capacity.Cpu()`, `Capacity.Memory()` and `Capacity.Pods()`. -/
structure corev1.Node where
  Name : String := ""
  Labels : GoMap String := []
  Taints : List corev1.Taint := []
  Conditions : List corev1.NodeCondition := []
  CapacityCpu : resource.Quantity := {}
  CapacityMemory : resource.Quantity := {}
  CapacityPods : resource.Quantity := {}
  KernelVersion : String := ""
  OSImage : String := ""
  ContainerRuntimeVersion : String := ""
  KubeletVersion : String := ""
  deriving DecidableEq

/-- The usage of a `metricsv1beta1.NodeMetrics` or of one container of a
`metricsv1beta1.PodMetrics`: the results of `Usage.Cpu()` and `Usage.Memory()`. -/
structure metricsv1beta1.Usage where
  Cpu : resource.Quantity := {}
  Memory : resource.Quantity := {}
  deriving DecidableEq

/-- The fields of a `corev1.ContainerStatus` that the inspector reads; the restart count
is an `int32`. -/
structure corev1.ContainerStatus where
  RestartCount : Int := 0
  Ready : Bool := false
  deriving DecidableEq

/-- The resources of a `corev1.Container`: the requests and the limits, `none` for a nil
list, each with the results of `Cpu()` and `Memory()`. -/
structure corev1.Container where
  Requests : Option metricsv1beta1.Usage := none
  Limits : Option metricsv1beta1.Usage := none
  deriving DecidableEq

/-- The fields of a `corev1.PodCondition` that the inspector reads. -/
structure corev1.PodCondition where
  Type_ : String := ""
  Status : String := ""
  Reason : String := ""
  Message : String := ""
  deriving DecidableEq

/-- The fields of a `corev1.Pod` that `parsePodMetrics` reads. `SinceCreation` is `none`
for a zero creation timestamp and otherwise the seconds that `time.Since` returns. -/
structure corev1.Pod where
  Name : String := ""
  Namespace : String := ""
  Labels : GoMap String := []
  Phase : String := ""
  NodeName : String := ""
  Containers : List corev1.Container := []
  ContainerStatuses : List corev1.ContainerStatus := []
  Conditions : List corev1.PodCondition := []
  SinceCreation : Option ℚ := none
  deriving DecidableEq

namespace K8s

/-! ## Cluster parsers (`internal/k8s/inspector.go`) -/

/-- The condition loop of `parseNodeMetrics`. -/
def parseNodeCondition (nm : NodeMetrics) (condition : corev1.NodeCondition) : NodeMetrics :=
  let nm :=
    { nm with
      Conditions := nm.Conditions ++ [{
        Type_ := condition.Type_,
        Status := condition.Status,
        Reason := condition.Reason,
        Message := condition.Message }] }
  if condition.Type_ = "Ready" ∧ condition.Status = "True" then { nm with Ready := true }
  else nm

/-- The method `Inspector.parseNodeMetrics`. -/
def parseNodeMetrics (node : corev1.Node) (metrics : Option metricsv1beta1.Usage)
    (podCount : Int) : NodeMetrics :=
  let nm : NodeMetrics :=
    { Name := node.Name,
      Ready := false,
      Conditions := [],
      CPUCapacity := node.CapacityCpu.String_,
      MemoryCapacity := node.CapacityMemory.String_,
      PodsCapacity := node.CapacityPods.Value,
      PodCount := podCount,
      Labels := node.Labels,
      Taints := [],
      KernelVersion := node.KernelVersion,
      OSImage := node.OSImage,
      ContainerRuntime := node.ContainerRuntimeVersion,
      KubeletVersion := node.KubeletVersion }
  let nm : NodeMetrics := node.Conditions.foldl parseNodeCondition nm
  let nm : NodeMetrics :=
    node.Taints.foldl
      (fun nm taint =>
        { nm with Taints := nm.Taints ++ [taint.Key ++ "=" ++ taint.Value ++ ":" ++ taint.Effect] })
      nm
  let nm : NodeMetrics :=
    match metrics with
    | some usage =>
      let nm : NodeMetrics := { nm with CPUUsage := usage.Cpu.String_, MemoryUsage := usage.Memory.String_ }
      let cpuCapacity := node.CapacityCpu.MilliValue
      let cpuUsage := usage.Cpu.MilliValue
      let nm : NodeMetrics :=
        if 0 < cpuCapacity then
          { nm with CPUPercent := (cpuUsage : ℚ) / (cpuCapacity : ℚ) * 100 }
        else nm
      let memCapacity := node.CapacityMemory.Value
      let memUsage := usage.Memory.Value
      if 0 < memCapacity then
        { nm with MemoryPercent := (memUsage : ℚ) / (memCapacity : ℚ) * 100 }
      else nm
    | none => nm
  if 0 < nm.PodsCapacity then
    { nm with PodPercent := (nm.PodCount : ℚ) / (nm.PodsCapacity : ℚ) * 100 }
  else nm

/-- The container-status loop of `parsePodMetrics`: the running restart count and the
record. -/
def parseContainerStatus (st : Int × PodMetrics) (cs : corev1.ContainerStatus) :
    Int × PodMetrics :=
  let restartCount := wrapInt64 (st.1 + cs.RestartCount)
  if cs.Ready then (restartCount, { st.2 with Ready := true }) else (restartCount, st.2)

/-- The resource loop of `parsePodMetrics` over the containers of the pod. -/
def parseContainerResources (pm : PodMetrics) (container : corev1.Container) : PodMetrics :=
  let pm : PodMetrics :=
    match container.Requests with
    | some requests =>
      { pm with CPURequest := requests.Cpu.String_, MemoryRequest := requests.Memory.String_ }
    | none => pm
  match container.Limits with
  | some limits =>
    { pm with CPULimit := limits.Cpu.String_, MemoryLimit := limits.Memory.String_ }
  | none => pm

/-- The method `Inspector.parsePodMetrics`; `metrics` holds the usage of each container of
the pod metrics, `none` for a nil pointer. -/
def parsePodMetrics (pod : corev1.Pod) (metrics : Option (List metricsv1beta1.Usage)) :
    PodMetrics :=
  let pm : PodMetrics :=
    { Name := pod.Name,
      Namespace := pod.Namespace,
      Phase := pod.Phase,
      Ready := false,
      Node := pod.NodeName,
      Labels := pod.Labels,
      Conditions := [] }
  let st := pod.ContainerStatuses.foldl parseContainerStatus (0, pm)
  let pm : PodMetrics := { st.2 with RestartCount := st.1 }
  let pm : PodMetrics := pod.Containers.foldl parseContainerResources pm
  let pm : PodMetrics :=
    match metrics with
    | some containers =>
      containers.foldl
        (fun pm usage =>
          { pm with CPUUsage := usage.Cpu.String_, MemoryUsage := usage.Memory.String_ })
        pm
    | none => pm
  let pm : PodMetrics :=
    pod.Conditions.foldl
      (fun pm condition =>
        { pm with
          Conditions := pm.Conditions ++ [{
            Type_ := condition.Type_,
            Status := condition.Status,
            Reason := condition.Reason,
            Message := condition.Message }] })
      pm
  match pod.SinceCreation with
  | some seconds => { pm with Age := floatToInt64 seconds }
  | none => pm

end K8s

/-! ## Vocabulary of the join, mount point and cluster parser statements -/

/-- The interface names of the well-formed rows of a `/proc/net/dev` text: the rows after
the two header lines that have at least 17 fields, each giving its first field without a
final colon. -/
def netDevNames (netdev : String) : List (List Char) :=
  ((((Split (TrimSpace netdev.data) '\n').drop 2).map Fields).filter
    fun parts => decide (17 ≤ parts.length)).map fun parts => TrimSuffix (parts.getD 0 []) [':']

/-- A first `/proc/net/dev` sample with the interfaces `lo`, `eth0` and `eth1`. -/
def netdevThreeFirst : String :=
  "Inter-|   Receive |  Transmit\n face |bytes packets|bytes packets\n    lo: 500 5 0 0 0 0 0 0 500 5 0 0 0 0 0 0\n  eth0: 1000 10 0 0 0 0 0 0 2000 20 0 0 0 0 0 0\n  eth1: 10 1 0 0 0 0 0 0 20 2 0 0 0 0 0 0"

/-- A second `/proc/net/dev` sample with the interfaces `lo`, `eth0` and `eth2`, and a row
of `eth1` cut short. -/
def netdevThreeSecond : String :=
  "Inter-|   Receive |  Transmit\n face |bytes packets|bytes packets\n    lo: 900 9 0 0 0 0 0 0 900 9 0 0 0 0 0 0\n  eth0: 1500 15 0 0 0 0 0 0 2500 25 0 0 0 0 0 0\n  eth1: 10 1 0\n  eth2: 10 1 0 0 0 0 0 0 20 2 0 0 0 0 0 0"

/-- The fields of the rows of a `df` text after the header line. -/
def dfRows (df : String) : List (List (List Char)) :=
  ((Split (TrimSpace df.data) '\n').drop 1).map Fields

/-- The mount points (6th column) of the rows of a `df` text after the header line that
have at least 6 columns. -/
def dfMounts (df : String) : List (List Char) :=
  ((dfRows df).filter fun parts => decide (6 ≤ parts.length)).map fun parts => parts.getD 5 []

/-- The rows of a `df -i` text after the header line that have at least 6 columns and the
given mount point. -/
def inodeRows (dfInodes : String) (mount : List Char) : List (List (List Char)) :=
  (dfRows dfInodes).filter fun parts =>
    decide (6 ≤ parts.length) && decide (parts.getD 5 [] = mount)

/-- What the inode loop of `parseDiskMetrics` does to the record of the mount point `mount`
when it visits a row with the given fields. -/
def inodeStep (pf : FloatParser) (mount : List Char) (disk : DiskMetrics)
    (parts : List (List Char)) : DiskMetrics :=
  if 6 ≤ parts.length ∧ parts.getD 5 [] = mount then
    { disk with
      InodesTotal := ParseInt (parts.getD 1 []),
      InodesUsed := ParseInt (parts.getD 2 []),
      InodesFree := ParseInt (parts.getD 3 []),
      InodesPercent := pf (TrimSuffix (parts.getD 4 []) ['%']) }
  else disk

/-- The inode fields of a record are those of the given row of `df -i`, or zero when there
is no row. -/
def InodesFrom (pf : FloatParser) (row : Option (List (List Char))) (disk : DiskMetrics) :
    Prop :=
  match row with
  | some parts =>
    disk.InodesTotal = ParseInt (parts.getD 1 []) ∧ disk.InodesUsed = ParseInt (parts.getD 2 []) ∧
      disk.InodesFree = ParseInt (parts.getD 3 []) ∧
      disk.InodesPercent = pf (TrimSuffix (parts.getD 4 []) ['%'])
  | none =>
    disk.InodesTotal = 0 ∧ disk.InodesUsed = 0 ∧ disk.InodesFree = 0 ∧ disk.InodesPercent = 0

/-- A `df` output with two rows of 6 columns, for `/` and `/data`, a second row for `/`
and a row cut short. -/
def dfMountsSample : String :=
  "Filesystem Size Used Avail Use% Mounted on\n/dev/sda1 100G 50G 50G 50% /\n/dev/sdb1 200G 20G 180G 10% /data\n/dev/sdc1 300G\n/dev/sdd1 50G 5G 45G 10% /"

/-- A `df -i` output with a row for `/`, and a row for `/boot`, which `dfMountsSample`
does not have. -/
def dfInodesSample : String :=
  "Filesystem Inodes IUsed IFree IUse% Mounted on\n/dev/sda1 1000 100 900 10% /\n/dev/sde1 500 50 450 10% /boot"

/-- The `top` summary line of the comment in `parseCPUMetrics` and of `TestParseCPUMetrics`. -/
def testCpuUsage : String :=
  "%Cpu(s):  5.0 us,  2.1 sy,  0.0 ni, 92.5 id,  0.3 wa,  0.0 hi,  0.1 si,  0.0 st"

/-- The `/proc/stat` excerpt of `TestParseCPUMetrics`. -/
def testVmstat : String := "ctxt 12345678\nintr 9876543\nprocs_running 3\nprocs_blocked 1"

/-- The six I/O fields of a disk record are zero. -/
def IOZero (disk : DiskMetrics) : Prop :=
  disk.ReadBytesPS = 0 ∧ disk.WriteBytesPS = 0 ∧ disk.ReadOpsPS = 0 ∧ disk.WriteOpsPS = 0 ∧
    disk.IOUtilPercent = 0 ∧ disk.AvgAwaitMs = 0

/-- The device `dev` is present in both diskstats samples, with the counters `s1` and `s2`,
and the device path starts with `/dev/` followed by its name. -/
def Joined (iostat1 iostat2 : String) (path : String) (dev : List Char) (s1 s2 : IOStats) :
    Prop :=
  mapGet? (parseIOStats iostat1) dev = some s1 ∧ mapGet? (parseIOStats iostat2) dev = some s2 ∧
    HasPrefix path.data ("/dev/".data ++ dev) = true

/-- The suggestion that only the issue of the rule `disk I/O error count > 0` carries. -/
def ioErrorSuggestion : String := "检查磁盘健康状态,可能需要更换磁盘"

/-- The suggestion that only the issue of the rule `TCP retransmit rate > 5%` carries. -/
def retransmitSuggestion : String := "检查网络质量和TCP参数配置"

/-- The issue is neither that of the I/O error rule nor that of the retransmit rule. -/
def Issue.NotFromDeadRule (i : Issue) : Prop :=
  i.Suggestion ≠ ioErrorSuggestion ∧ i.Suggestion ≠ retransmitSuggestion

namespace K8s

/-- A node whose only Ready condition has status `Unknown`. -/
def nodeReadyUnknown : corev1.Node :=
  { Name := "node-1",
    Conditions :=
      [{ Type_ := "MemoryPressure", Status := "True" }, { Type_ := "Ready", Status := "Unknown" }] }

/-- A node with a Ready condition of status `True`. -/
def nodeReadyTrue : corev1.Node :=
  { Name := "node-2",
    Conditions :=
      [{ Type_ := "MemoryPressure", Status := "False" }, { Type_ := "Ready", Status := "True" }] }

/-- A running pod whose Ready condition is `False`: one of its two containers is ready,
the other is not and has restarted 7 times. -/
def podOneContainerReady : corev1.Pod :=
  { Name := "web-0", Namespace := "default", Phase := "Running",
    ContainerStatuses := [{ RestartCount := 0, Ready := true }, { RestartCount := 7, Ready := false }],
    Conditions := [{ Type_ := "Ready", Status := "False", Reason := "ContainersNotReady" }] }

/-- A pod whose Ready condition is `True` and whose container statuses are not reported. -/
def podReadyCondition : corev1.Pod :=
  { Name := "web-1", Namespace := "default", Phase := "Running",
    Conditions := [{ Type_ := "Ready", Status := "True" }] }

end K8s

/-! ## Vocabulary of the diskstats rows and of the combined run -/

/-- The counters that `parseIOStats` reads from the fields of a `/proc/diskstats` row. -/
def statsOfRow (parts : List (List Char)) : IOStats :=
  { ReadOps := ParseInt (parts.getD 3 []),
    ReadBytes := wrapInt64 (ParseInt (parts.getD 5 []) * 512),
    WriteOps := ParseInt (parts.getD 7 []),
    WriteBytes := wrapInt64 (ParseInt (parts.getD 9 []) * 512),
    IOTime := ParseInt (parts.getD 12 []) }

/-- The fields are those of a `/proc/diskstats` row that `parseIOStats` keeps for the
device `dev`: at least 14 fields, the third field is `dev`, and the name has no `loop` in
it and at most 10 bytes. -/
def keptRow (dev : List Char) (parts : List (List Char)) : Bool :=
  decide (14 ≤ parts.length) && decide (parts.getD 2 [] = dev) &&
    !(Contains dev "loop".data || decide (10 < byteLen dev))

/-- The rows of a `/proc/diskstats` text that `parseIOStats` keeps for the device `dev`. -/
def keptDeviceRows (diskstats : String) (dev : List Char) : List (List (List Char)) :=
  ((Split (TrimSpace diskstats.data) '\n').map Fields).filter (keptRow dev)

/-- The counters of the device `dev` in a `/proc/diskstats` text, as far as `parseIOStats`
keeps the device: those of its last kept row. -/
def deviceStats (diskstats : String) (dev : List Char) : Option IOStats :=
  (keptDeviceRows diskstats dev).getLast?.map statsOfRow

/-- The device `dev` is kept from both diskstats samples, with the counters `s1` and `s2`,
and the device path starts with `/dev/` followed by its name. -/
def KeptJoined (iostat1 iostat2 : String) (path : String) (dev : List Char)
    (s1 s2 : IOStats) : Prop :=
  deviceStats iostat1 dev = some s1 ∧ deviceStats iostat2 dev = some s2 ∧
    HasPrefix path.data ("/dev/".data ++ dev) = true

/-- A `df` output with one row, for the loop device `/dev/loop0`. -/
def dfLoop : String :=
  "Filesystem Size Used Avail Use% Mounted on\n/dev/loop0 1G 1G 0G 100% /snap/core/1"

/-- A first `/proc/diskstats` sample: device `loop0` with 100 completed reads. -/
def diskstatsLoopFirst : String := "7 0 loop0 100 0 0 0 0 0 0 0 0 0 0"

/-- A second `/proc/diskstats` sample: device `loop0` with 170 completed reads. -/
def diskstatsLoopSecond : String := "7 0 loop0 170 0 0 0 0 0 0 0 0 0 0"

/-- A cluster report with two issues. -/
def clusterTwoIssues : K8sReport :=
  { Issues :=
      [{ Level := "critical", Category := "node", Message := "Node n1 is not ready" },
        { Level := "warning", Category := "pod", Message := "Pod p1 restarts" }] }

/-- The number of issues of the first report of a list of server reports, 0 for an empty
list. -/
def firstReportIssues (serverReports : List ServerReport) : Nat :=
  match serverReports.head? with
  | some sr => sr.Issues.length
  | none => 0

/-- The number of issues of the cluster report, 0 when there is none. -/
def clusterReportIssues (k8sResult : Option K8sReport) : Nat :=
  match k8sResult with
  | some kr => kr.Issues.length
  | none => 0

/-! # Theorems -/

/-! ## Lemmas: integers, maps, parsers -/

theorem wrapInt64_of_range {x : Int} (h1 : -(2 ^ 63) ≤ x) (h2 : x < 2 ^ 63) : wrapInt64 x = x := by
  unfold wrapInt64
  rw [Int.emod_eq_of_lt (by omega) (by omega)]
  omega

theorem wrapInt64_range (x : Int) : -(2 ^ 63) ≤ wrapInt64 x ∧ wrapInt64 x < 2 ^ 63 := by
  unfold wrapInt64
  have h1 := Int.emod_nonneg (x + 2 ^ 63) (show (2 ^ 64 : Int) ≠ 0 by norm_num)
  have h2 := Int.emod_lt_of_pos (x + 2 ^ 63) (show (0 : Int) < 2 ^ 64 by norm_num)
  constructor <;> omega

theorem ParseInt_range (s : List Char) : -(2 ^ 63) ≤ ParseInt s ∧ ParseInt s < 2 ^ 63 := by
  unfold ParseInt
  split
  · norm_num
  · simp only []
    split
    · norm_num
    · split
      · norm_num
      · split_ifs <;> norm_num
      · split_ifs <;> constructor <;> omega

theorem foldl_invariant {σ α : Type} (P : σ → Prop) (f : σ → α → σ)
    (hstep : ∀ s x, P s → P (f s x)) (l : List α) (s : σ) (h0 : P s) : P (l.foldl f s) := by
  induction l generalizing s with
  | nil => exact h0
  | cons x xs ih => exact ih _ (hstep s x h0)

theorem rangeFold_invariant {σ α : Type} (P : σ → Prop) (f : σ → Nat → α → σ)
    (hstep : ∀ s i x, P s → P (f s i x)) (l : List α) (i : Nat) (s : σ) (h0 : P s) :
    P (rangeFold f i l s) := by
  induction l generalizing s i with
  | nil => exact h0
  | cons x xs ih => exact ih _ _ (hstep s i x h0)

theorem mapSet_keys {V : Type} (m : GoMap V) (k : List Char) (v : V) :
    (mapSet m k v).map Prod.fst =
      if k ∈ m.map Prod.fst then m.map Prod.fst else m.map Prod.fst ++ [k] := by
  induction m with
  | nil => rfl
  | cons e rest ih =>
    obtain ⟨k', v'⟩ := e
    unfold mapSet
    by_cases h : k' = k
    · subst h
      have hm : k' ∈ ((k', v') :: rest).map Prod.fst := List.mem_cons_self _ _
      rw [if_pos rfl, if_pos hm]
      rfl
    · have h' : ¬ k = k' := fun h2 => h h2.symm
      rw [if_neg h, List.map_cons, ih]
      by_cases hk : k ∈ rest.map Prod.fst
      · have hm : k ∈ ((k', v') :: rest).map Prod.fst := List.mem_cons_of_mem _ hk
        rw [if_pos hk, if_pos hm]; rfl
      · have hk2 : k ∉ ((k', v') :: rest).map Prod.fst := by
          intro hmem
          rcases List.mem_cons.mp hmem with h3 | h3
          · exact h' h3
          · exact hk h3
        rw [if_neg hk, if_neg hk2]; rfl

theorem KeysNodup_mapSet {V : Type} (m : GoMap V) (k : List Char) (v : V) (h : KeysNodup m) :
    KeysNodup (mapSet m k v) := by
  unfold KeysNodup at *
  rw [mapSet_keys]
  split_ifs with hk
  · exact h
  · refine List.Nodup.append h (List.nodup_singleton k) ?_
    intro a ha hb
    rw [List.mem_singleton] at hb
    exact hk (hb ▸ ha)

theorem mem_mapSet {V : Type} (m : GoMap V) (k : List Char) (v : V) (e : List Char × V)
    (h : e ∈ mapSet m k v) : e = (k, v) ∨ e ∈ m := by
  induction m with
  | nil => simpa [mapSet] using h
  | cons x rest ih =>
    obtain ⟨k', v'⟩ := x
    unfold mapSet at h
    split_ifs at h with hk
    · rcases List.mem_cons.mp h with h | h
      · exact Or.inl h
      · exact Or.inr (List.mem_cons_of_mem _ h)
    · rcases List.mem_cons.mp h with h | h
      · exact Or.inr (h ▸ List.mem_cons_self _ _)
      · rcases ih h with h | h
        · exact Or.inl h
        · exact Or.inr (List.mem_cons_of_mem _ h)

theorem mapGet?_of_mem {V : Type} (m : GoMap V) (h : KeysNodup m) (k : List Char) (v : V)
    (hm : (k, v) ∈ m) : mapGet? m k = some v := by
  induction m with
  | nil => simp at hm
  | cons x rest ih =>
    obtain ⟨k', v'⟩ := x
    unfold KeysNodup at h
    simp only [List.map_cons, List.nodup_cons] at h
    unfold mapGet?
    rcases List.mem_cons.mp hm with hm | hm
    · cases hm; simp
    · have : k' ≠ k := by
        intro hk; subst hk
        exact h.1 (List.mem_map.mpr ⟨(k', v), hm, rfl⟩)
      simp only [this, if_false]
      exact ih h.2 hm

theorem mem_of_mapGet? {V : Type} (m : GoMap V) (k : List Char) (v : V)
    (h : mapGet? m k = some v) : (k, v) ∈ m := by
  induction m with
  | nil => simp [mapGet?] at h
  | cons x rest ih =>
    obtain ⟨k', v'⟩ := x
    unfold mapGet? at h
    split_ifs at h with hk
    · cases h; subst hk; exact List.mem_cons_self _ _
    · exact List.mem_cons_of_mem _ (ih h)

theorem map_eq_self {α : Type} (f : α → α) (l : List α) (h : ∀ x ∈ l, f x = x) : l.map f = l :=
  (List.map_congr_left h).trans (List.map_id l)

theorem entry_unique {V : Type} (m : GoMap V) (h : KeysNodup m) (x e : List Char × V)
    (hx : x ∈ m) (he : e ∈ m) (hk : x.1 = e.1) : x = e := by
  obtain ⟨k, v⟩ := x
  obtain ⟨k', v'⟩ := e
  simp only at hk
  subst hk
  have h1 := mapGet?_of_mem m h k v hx
  have h2 := mapGet?_of_mem m h k v' he
  rw [h1] at h2
  cases h2
  rfl

theorem mapSet_eq_map {V : Type} (m : GoMap V) (k : List Char) (v : V)
    (hk : k ∈ m.map Prod.fst) (h : KeysNodup m) :
    mapSet m k v = m.map (fun x => if x.1 = k then (k, v) else x) := by
  induction m with
  | nil => simp at hk
  | cons x rest ih =>
    obtain ⟨k', v'⟩ := x
    unfold KeysNodup at h
    rw [List.map_cons, List.nodup_cons] at h
    unfold mapSet
    by_cases hkk : k' = k
    · subst hkk
      rw [if_pos rfl, List.map_cons, if_pos rfl]
      congr 1
      symm
      apply map_eq_self
      intro y hy
      have : y.1 ≠ k' := fun hyk => h.1 (hyk ▸ List.mem_map.mpr ⟨y, hy, rfl⟩)
      rw [if_neg this]
    · rw [if_neg hkk, List.map_cons, if_neg hkk]
      congr 1
      apply ih _ h.2
      rcases List.mem_cons.mp hk with h3 | h3
      · exact absurd h3.symm hkk
      · exact h3

theorem map_keys_eq {V : Type} (m : GoMap V) (F : List Char × V → List Char × V)
    (hF : ∀ x, (F x).1 = x.1) : (m.map F).map Prod.fst = m.map Prod.fst := by
  rw [List.map_map]
  apply List.map_congr_left
  intro x _
  exact hF x

theorem foldl_condSet {V : Type} (c : V → Bool) (g : V → V) (l : List (List Char × V))
    (m : GoMap V) (hm : KeysNodup m) (hl : (l.map Prod.fst).Nodup) (hsub : ∀ e ∈ l, e ∈ m) :
    l.foldl (fun acc e => if c e.2 then mapSet acc e.1 (g e.2) else acc) m =
      m.map (fun x =>
        if x.1 ∈ l.map Prod.fst then (x.1, if c x.2 then g x.2 else x.2) else x) := by
  induction l generalizing m with
  | nil => simp
  | cons e l ih =>
    rw [List.map_cons, List.nodup_cons] at hl
    have he : e ∈ m := hsub e (List.mem_cons_self _ _)
    have hstep : (if c e.2 then mapSet m e.1 (g e.2) else m) =
        m.map (fun x => if x.1 = e.1 then (e.1, if c e.2 then g e.2 else e.2) else x) := by
      by_cases hc : c e.2 = true
      · rw [if_pos hc, if_pos hc]
        exact mapSet_eq_map m e.1 (g e.2) (List.mem_map.mpr ⟨e, he, rfl⟩) hm
      · rw [if_neg hc, if_neg hc]
        symm
        apply map_eq_self
        intro x hx
        by_cases hxe : x.1 = e.1
        · rw [if_pos hxe, entry_unique m hm x e hx he hxe]
        · rw [if_neg hxe]
    rw [List.foldl_cons, hstep, ih]
    · rw [List.map_map]
      apply List.map_congr_left
      intro x hx
      simp only [Function.comp]
      by_cases hxe : x.1 = e.1
      · have hx' : x = e := entry_unique m hm x e hx he hxe
        subst hx'
        have hmem : x.1 ∈ (x :: l).map Prod.fst := List.mem_cons_self _ _
        rw [if_pos rfl, if_pos hmem]
        simp only []
        rw [if_neg hl.1]
      · rw [if_neg hxe]
        by_cases hxl : x.1 ∈ l.map Prod.fst
        · have hmem : x.1 ∈ (e :: l).map Prod.fst := List.mem_cons_of_mem _ hxl
          rw [if_pos hxl, if_pos hmem]
        · have hmem : x.1 ∉ (e :: l).map Prod.fst := by
            intro h
            rcases List.mem_cons.mp h with h | h
            · exact hxe h
            · exact hxl h
          rw [if_neg hxl, if_neg hmem]
    · unfold KeysNodup
      rw [map_keys_eq]
      · exact hm
      · intro x
        by_cases h : x.1 = e.1
        · rw [if_pos h]; exact h.symm
        · rw [if_neg h]
    · exact hl.2
    · intro e' he'
      have h1 : e' ∈ m := hsub e' (List.mem_cons_of_mem _ he')
      have h2 : e'.1 ≠ e.1 := fun h => hl.1 (h ▸ List.mem_map.mpr ⟨e', he', rfl⟩)
      refine List.mem_map.mpr ⟨e', h1, ?_⟩
      rw [if_neg h2]

theorem foldl_condSet_perm {V : Type} (c : V → Bool) (g : V → V) (l : List (List Char × V))
    (m : GoMap V) (hm : KeysNodup m) (hl : l.Perm m) :
    l.foldl (fun acc e => if c e.2 then mapSet acc e.1 (g e.2) else acc) m =
      m.map (fun x => (x.1, if c x.2 then g x.2 else x.2)) := by
  rw [foldl_condSet c g l m hm ((hl.map Prod.fst).nodup_iff.mpr hm)
    (fun e he => hl.subset he)]
  apply List.map_congr_left
  intro x hx
  rw [if_pos]
  exact List.mem_map.mpr ⟨x, hl.symm.subset hx, rfl⟩

theorem KeysNodup_map {V : Type} (m : GoMap V) (F : List Char × V → List Char × V)
    (hF : ∀ x, (F x).1 = x.1) (h : KeysNodup m) : KeysNodup (m.map F) := by
  unfold KeysNodup at *
  rw [map_keys_eq m F hF]
  exact h

theorem joinDevice_eq (ord : RangeOrder) (dev : List Char) (s1 s2 : IOStats)
    (m : GoMap DiskMetrics) (hm : KeysNodup m) :
    joinDevice ord dev s1 s2 m =
      m.map (fun x =>
        (x.1, if HasPrefix x.2.Device.data ("/dev/".data ++ dev) then applyIOStats s1 s2 x.2
          else x.2)) := by
  unfold joinDevice
  exact foldl_condSet_perm (fun d : DiskMetrics => HasPrefix d.Device.data ("/dev/".data ++ dev))
    (applyIOStats s1 s2) (ord.visit _ m) m hm (ord.visit_perm _ m)

theorem joinDevices_eq (iostat1Map : GoMap IOStats) (ord : RangeOrder)
    (l : List (List Char × IOStats)) (m : GoMap DiskMetrics) (hm : KeysNodup m) :
    l.foldl
        (fun dfMap entry =>
          match mapGet? iostat1Map entry.1 with
          | some stats1 => joinDevice ord entry.1 stats1 entry.2 dfMap
          | none => dfMap)
        m =
      m.map (fun x => (x.1, l.foldl (joinStep iostat1Map) x.2)) := by
  induction l generalizing m with
  | nil => simp
  | cons e l ih =>
    rw [List.foldl_cons]
    have hstep : (match mapGet? iostat1Map e.1 with
          | some stats1 => joinDevice ord e.1 stats1 e.2 m
          | none => m) = m.map (fun x => (x.1, joinStep iostat1Map x.2 e)) := by
      unfold joinStep
      cases h : mapGet? iostat1Map e.1 with
      | none => simp
      | some s1 => simp only []; exact joinDevice_eq ord e.1 s1 e.2 m hm
    rw [hstep, ih (m.map (fun x => (x.1, joinStep iostat1Map x.2 e)))
      (KeysNodup_map m _ (fun _ => rfl) hm), List.map_map]
    apply List.map_congr_left
    intro x _
    rfl

theorem joinIOStats_eq (ord : RangeOrder) (iostat1Map iostat2Map : GoMap IOStats)
    (m : GoMap DiskMetrics) (hm : KeysNodup m) :
    joinIOStats ord iostat1Map iostat2Map m =
      m.map (fun x => (x.1, (ord.visit _ iostat2Map).foldl (joinStep iostat1Map) x.2)) :=
  joinDevices_eq iostat1Map ord _ m hm

theorem applyIOStats_Device (s1 s2 : IOStats) (d : DiskMetrics) :
    (applyIOStats s1 s2 d).Device = d.Device := by
  unfold applyIOStats
  simp only []
  split_ifs <;> rfl

theorem applyIOStats_rates (s1 s2 : IOStats) (d : DiskMetrics) :
    (applyIOStats s1 s2 d).ReadOpsPS = wrapInt64 (s2.ReadOps - s1.ReadOps) ∧
    (applyIOStats s1 s2 d).WriteOpsPS = wrapInt64 (s2.WriteOps - s1.WriteOps) ∧
    (applyIOStats s1 s2 d).ReadBytesPS = wrapInt64 (s2.ReadBytes - s1.ReadBytes) ∧
    (applyIOStats s1 s2 d).WriteBytesPS = wrapInt64 (s2.WriteBytes - s1.WriteBytes) := by
  unfold applyIOStats
  simp only []
  split_ifs <;> exact ⟨rfl, rfl, rfl, rfl⟩

theorem joinStep_Device (io1 : GoMap IOStats) (d : DiskMetrics) (e : List Char × IOStats) :
    (joinStep io1 d e).Device = d.Device := by
  unfold joinStep
  split
  · split_ifs
    · exact applyIOStats_Device _ _ _
    · rfl
  · rfl

theorem joinStep_joined (io1 : GoMap IOStats) (d : DiskMetrics) (e : List Char × IOStats)
    (s1 : IOStats) (h1 : mapGet? io1 e.1 = some s1)
    (h2 : HasPrefix d.Device.data ("/dev/".data ++ e.1) = true) :
    joinStep io1 d e = applyIOStats s1 e.2 d := by
  unfold joinStep
  rw [h1]
  simp only []
  rw [if_pos h2]

theorem joinStep_not_joined (io1 : GoMap IOStats) (d : DiskMetrics) (e : List Char × IOStats)
    (h : ¬ ∃ s1, mapGet? io1 e.1 = some s1 ∧
      HasPrefix d.Device.data ("/dev/".data ++ e.1) = true) :
    joinStep io1 d e = d := by
  unfold joinStep
  cases h6 : mapGet? io1 e.1 with
  | none => rfl
  | some s =>
    simp only []
    rw [if_neg]
    intro h7
    exact h ⟨s, h6, h7⟩

theorem foldl_joinStep_Device (io1 : GoMap IOStats) (l : List (List Char × IOStats))
    (d : DiskMetrics) : (l.foldl (joinStep io1) d).Device = d.Device := by
  induction l generalizing d with
  | nil => rfl
  | cons e l ih => rw [List.foldl_cons, ih, joinStep_Device]

theorem foldl_joinStep_rates (io1 : GoMap IOStats) (l : List (List Char × IOStats))
    (d : DiskMetrics)
    (h : ∃ e ∈ l, ∃ s1, mapGet? io1 e.1 = some s1 ∧
      HasPrefix d.Device.data ("/dev/".data ++ e.1) = true) :
    ∃ e ∈ l, ∃ s1, mapGet? io1 e.1 = some s1 ∧
      HasPrefix d.Device.data ("/dev/".data ++ e.1) = true ∧
      RatesFrom s1 e.2 (l.foldl (joinStep io1) d) := by
  induction l using List.reverseRecOn with
  | nil => obtain ⟨e, he, _⟩ := h; simp at he
  | append_singleton l e ih =>
    rw [List.foldl_append, List.foldl_cons, List.foldl_nil]
    by_cases hj : ∃ s1, mapGet? io1 e.1 = some s1 ∧
        HasPrefix d.Device.data ("/dev/".data ++ e.1) = true
    · obtain ⟨s1, h1, h2⟩ := hj
      refine ⟨e, by simp, s1, h1, h2, ?_⟩
      rw [joinStep_joined io1 _ e s1 h1 (by rw [foldl_joinStep_Device]; exact h2)]
      exact applyIOStats_rates _ _ _
    · obtain ⟨e', he', s1, h1, h2⟩ := h
      have he'l : e' ∈ l := by
        rcases List.mem_append.mp he' with h3 | h3
        · exact h3
        · rw [List.mem_singleton] at h3
          subst h3
          exact absurd ⟨s1, h1, h2⟩ hj
      obtain ⟨e2, he2, s2, h3, h4, h5⟩ := ih ⟨e', he'l, s1, h1, h2⟩
      refine ⟨e2, List.mem_append_left _ he2, s2, h3, h4, ?_⟩
      rw [joinStep_not_joined io1 _ e (by rw [foldl_joinStep_Device]; exact hj)]
      exact h5

theorem KeysNodup_nil {V : Type} : KeysNodup ([] : GoMap V) := List.nodup_nil

theorem parseIOStats_KeysNodup (diskstats : String) : KeysNodup (parseIOStats diskstats) := by
  unfold parseIOStats
  apply foldl_invariant KeysNodup
  · intro s line hs
    simp only []
    split_ifs
    · exact hs
    · exact KeysNodup_mapSet _ _ _ hs
    · exact hs
  · exact KeysNodup_nil

theorem parseIOStats_InRange (diskstats : String) :
    ∀ e ∈ parseIOStats diskstats, e.2.InRange := by
  unfold parseIOStats
  apply foldl_invariant (fun m : GoMap IOStats => ∀ e ∈ m, e.2.InRange)
  · intro s line hs
    simp only []
    split_ifs
    · exact hs
    · intro e he
      rcases mem_mapSet _ _ _ _ he with h | h
      · rw [h]
        exact ⟨ParseInt_range _, ParseInt_range _, wrapInt64_range _, wrapInt64_range _,
          ParseInt_range _⟩
      · exact hs e h
    · exact hs
  · intro e he; simp at he

theorem parseDfRows_KeysNodup (pf : FloatParser) (df : String) :
    KeysNodup (parseDfRows pf df) := by
  unfold parseDfRows
  apply rangeFold_invariant KeysNodup
  · intro s i line hs
    simp only []
    split_ifs
    · exact hs
    · exact KeysNodup_mapSet _ _ _ hs
    · exact hs
  · exact KeysNodup_nil

theorem parseInodeRows_KeysNodup (pf : FloatParser) (dfInodes : String) (m : GoMap DiskMetrics)
    (hm : KeysNodup m) : KeysNodup (parseInodeRows pf dfInodes m) := by
  unfold parseInodeRows
  apply rangeFold_invariant KeysNodup
  · intro s i line hs
    simp only []
    split_ifs
    · exact hs
    · split
      · exact KeysNodup_mapSet _ _ _ hs
      · exact hs
    · exact hs
  · exact hm

theorem mem_parseDiskMetrics (pf : FloatParser) (ord : RangeOrder)
    (df dfInodes iostat1 iostat2 ioErrors : String) (disk : DiskMetrics)
    (h : disk ∈ parseDiskMetrics pf ord df dfInodes iostat1 iostat2 ioErrors) :
    ∃ e ∈ parseInodeRows pf dfInodes (parseDfRows pf df),
      disk = (ord.visit _ (parseIOStats iostat2)).foldl (joinStep (parseIOStats iostat1)) e.2 := by
  unfold parseDiskMetrics at h
  simp only [] at h
  rw [joinIOStats_eq _ _ _ _ (parseInodeRows_KeysNodup pf dfInodes _ (parseDfRows_KeysNodup pf df))]
    at h
  obtain ⟨x, hx, rfl⟩ := List.mem_map.mp h
  obtain ⟨e, he, rfl⟩ := List.mem_map.mp ((ord.visit_perm _ _).subset hx)
  exact ⟨e, he, rfl⟩

theorem delta_neg {a b : Int} (ha : -(2 ^ 63) ≤ a ∧ a < 2 ^ 63) (hb : -(2 ^ 63) ≤ b ∧ b < 2 ^ 63)
    (h0 : 0 ≤ b) (hlt : b < a) : wrapInt64 (b - a) = b - a ∧ wrapInt64 (b - a) < 0 := by
  have : wrapInt64 (b - a) = b - a := wrapInt64_of_range (by omega) (by omega)
  rw [this]
  exact ⟨rfl, by omega⟩

/-- A record whose device path starts with `/dev/` followed by a key of both maps of
`parseIOStats` has its four per-second fields equal to the 64-bit differences, second map
minus first, of the entries of one such key. -/
theorem rates_of_joined_maps (pf : FloatParser) (ord : RangeOrder)
    (df dfInodes iostat1 iostat2 ioErrors : String) (disk : DiskMetrics)
    (hd : disk ∈ parseDiskMetrics pf ord df dfInodes iostat1 iostat2 ioErrors)
    (hj : ∃ dev s1 s2, mapGet? (parseIOStats iostat1) dev = some s1 ∧
      mapGet? (parseIOStats iostat2) dev = some s2 ∧
      HasPrefix disk.Device.data ("/dev/".data ++ dev) = true) :
    ∃ dev s1 s2, mapGet? (parseIOStats iostat1) dev = some s1 ∧
      mapGet? (parseIOStats iostat2) dev = some s2 ∧
      HasPrefix disk.Device.data ("/dev/".data ++ dev) = true ∧
      disk.ReadOpsPS = wrapInt64 (s2.ReadOps - s1.ReadOps) ∧
      disk.WriteOpsPS = wrapInt64 (s2.WriteOps - s1.WriteOps) ∧
      disk.ReadBytesPS = wrapInt64 (s2.ReadBytes - s1.ReadBytes) ∧
      disk.WriteBytesPS = wrapInt64 (s2.WriteBytes - s1.WriteBytes) ∧
      (0 ≤ s2.ReadOps → s2.ReadOps < s1.ReadOps →
        disk.ReadOpsPS = s2.ReadOps - s1.ReadOps ∧ disk.ReadOpsPS < 0) ∧
      (0 ≤ s2.WriteOps → s2.WriteOps < s1.WriteOps →
        disk.WriteOpsPS = s2.WriteOps - s1.WriteOps ∧ disk.WriteOpsPS < 0) ∧
      (0 ≤ s2.ReadBytes → s2.ReadBytes < s1.ReadBytes →
        disk.ReadBytesPS = s2.ReadBytes - s1.ReadBytes ∧ disk.ReadBytesPS < 0) ∧
      (0 ≤ s2.WriteBytes → s2.WriteBytes < s1.WriteBytes →
        disk.WriteBytesPS = s2.WriteBytes - s1.WriteBytes ∧ disk.WriteBytesPS < 0) := by
  obtain ⟨e, _, hdisk⟩ := mem_parseDiskMetrics pf ord df dfInodes iostat1 iostat2 ioErrors disk hd
  have hdev : disk.Device = e.2.Device := by rw [hdisk, foldl_joinStep_Device]
  obtain ⟨dev, s1, s2, h1, h2, h3⟩ := hj
  have hmem : (dev, s2) ∈ ord.visit _ (parseIOStats iostat2) :=
    (ord.visit_perm _ _).symm.subset (mem_of_mapGet? _ _ _ h2)
  obtain ⟨e2, he2, t1, h4, h5, h6, h7, h8, h9⟩ :=
    foldl_joinStep_rates (parseIOStats iostat1) (ord.visit _ (parseIOStats iostat2)) e.2
      ⟨(dev, s2), hmem, s1, h1, by rw [← hdev]; exact h3⟩
  rw [← hdisk] at h6 h7 h8 h9
  have he2' : e2 ∈ parseIOStats iostat2 := (ord.visit_perm _ _).subset he2
  have hg2 : mapGet? (parseIOStats iostat2) e2.1 = some e2.2 :=
    mapGet?_of_mem _ (parseIOStats_KeysNodup iostat2) e2.1 e2.2 he2'
  have hr2 := parseIOStats_InRange iostat2 e2 he2'
  have hr1 := parseIOStats_InRange iostat1 (e2.1, t1) (mem_of_mapGet? _ _ _ h4)
  refine ⟨e2.1, t1, e2.2, h4, hg2, by rw [hdev]; exact h5, h6, h7, h8, h9, ?_, ?_, ?_, ?_⟩
  · intro ha hb; rw [h6]; exact delta_neg hr1.1 hr2.1 ha hb
  · intro ha hb; rw [h7]; exact delta_neg hr1.2.1 hr2.2.1 ha hb
  · intro ha hb; rw [h8]; exact delta_neg hr1.2.2.1 hr2.2.2.1 ha hb
  · intro ha hb; rw [h9]; exact delta_neg hr1.2.2.2.1 hr2.2.2.2.1 ha hb

/-- Claim C1 as stated fails: device `sda` is joined to the `df` row `/dev/sda`, its
read-ops counter goes from 100 to 70, and `parseDiskMetrics` reports `ReadOpsPS = -30`,
not 0. -/
theorem disk_counter_reset_gives_negative_rate :
    mapGet? (parseIOStats diskstatsFirst) "sda".data = some { ReadOps := 100 } ∧
      mapGet? (parseIOStats diskstatsSecond) "sda".data = some { ReadOps := 70 } ∧
      (parseDiskMetrics (fun _ => 0) RangeOrder.stored dfSample "" diskstatsFirst
          diskstatsSecond "").map (fun d => (d.Device, d.ReadOpsPS)) = [("/dev/sda", -30)] := by
  decide

theorem parseNetDev_KeysNodup (netdev : String) : KeysNodup (parseNetDev netdev) := by
  unfold parseNetDev
  apply rangeFold_invariant KeysNodup
  · intro s i line hs
    simp only []
    split_ifs
    · exact hs
    · exact KeysNodup_mapSet _ _ _ hs
    · exact hs
  · exact List.nodup_nil

theorem parseNetDev_InRange (netdev : String) :
    ∀ e ∈ parseNetDev netdev, e.2.InRange := by
  unfold parseNetDev
  apply rangeFold_invariant (fun m : GoMap NetDevStats => ∀ e ∈ m, e.2.InRange)
  · intro s i line hs
    simp only []
    split_ifs
    · exact hs
    · intro e he
      rcases mem_mapSet _ _ _ _ he with h | h
      · rw [h]
        exact ⟨ParseInt_range _, ParseInt_range _, ParseInt_range _, ParseInt_range _⟩
      · exact hs e h
    · exact hs
  · intro e he; simp at he

theorem makeInterface_fields (name : List Char) (s1 s2 : NetDevStats) :
    (makeInterface name s1 s2).Name = String.mk name ∧
    (makeInterface name s1 s2).RxBytesPS = wrapInt64 (s2.RxBytes - s1.RxBytes) ∧
    (makeInterface name s1 s2).TxBytesPS = wrapInt64 (s2.TxBytes - s1.TxBytes) ∧
    (makeInterface name s1 s2).RxPacketsPS = wrapInt64 (s2.RxPackets - s1.RxPackets) ∧
    (makeInterface name s1 s2).TxPacketsPS = wrapInt64 (s2.TxPackets - s1.TxPackets) := by
  unfold makeInterface
  simp only []
  split_ifs <;> exact ⟨rfl, rfl, rfl, rfl, rfl⟩

theorem mem_joinNetDev (netdev1Map : GoMap NetDevStats) (l : List (List Char × NetDevStats))
    (metrics : NetworkMetrics) (iface : NetworkInterface)
    (h : iface ∈ (l.foldl
        (fun metrics entry =>
          if entry.1 = "lo".data then metrics
          else
            match mapGet? netdev1Map entry.1 with
            | some stats1 =>
              let iface := makeInterface entry.1 stats1 entry.2
              { metrics with
                Interfaces := metrics.Interfaces ++ [iface],
                PacketErrors :=
                  wrapInt64 (metrics.PacketErrors + wrapInt64 (iface.RxErrors + iface.TxErrors)),
                PacketDrops :=
                  wrapInt64 (metrics.PacketDrops + wrapInt64 (iface.RxDropped + iface.TxDropped)) }
            | none => metrics)
        metrics).Interfaces) :
    iface ∈ metrics.Interfaces ∨
      ∃ e ∈ l, ∃ s1, e.1 ≠ "lo".data ∧ mapGet? netdev1Map e.1 = some s1 ∧
        iface = makeInterface e.1 s1 e.2 := by
  induction l generalizing metrics with
  | nil => exact Or.inl h
  | cons e l ih =>
    rw [List.foldl_cons] at h
    rcases ih _ h with h1 | ⟨e', he', s1, h2, h3, h4⟩
    · by_cases hlo : e.1 = "lo".data
      · rw [if_pos hlo] at h1; exact Or.inl h1
      · rw [if_neg hlo] at h1
        cases hg : mapGet? netdev1Map e.1 with
        | none => rw [hg] at h1; exact Or.inl h1
        | some s1 =>
          rw [hg] at h1
          simp only [List.mem_append, List.mem_singleton] at h1
          rcases h1 with h1 | h1
          · exact Or.inl h1
          · exact Or.inr ⟨e, List.mem_cons_self _ _, s1, hlo, hg, h1⟩
    · exact Or.inr ⟨e', List.mem_cons_of_mem _ he', s1, h2, h3, h4⟩

theorem mem_parseNetworkMetrics (ord : RangeOrder)
    (netdev1 netdev2 tcpStats netstat localIP : String) (iface : NetworkInterface)
    (h : iface ∈ (parseNetworkMetrics ord netdev1 netdev2 tcpStats netstat localIP).Interfaces) :
    ∃ name s1 s2, name ≠ "lo".data ∧ mapGet? (parseNetDev netdev1) name = some s1 ∧
      mapGet? (parseNetDev netdev2) name = some s2 ∧ iface = makeInterface name s1 s2 := by
  unfold parseNetworkMetrics joinNetDev at h
  simp only [] at h
  rcases mem_joinNetDev _ _ _ _ h with h1 | ⟨e, he, s1, h2, h3, h4⟩
  · simp at h1
  · have he' : e ∈ parseNetDev netdev2 := (ord.visit_perm _ _).subset he
    exact ⟨e.1, s1, e.2, h2, h3,
      mapGet?_of_mem _ (parseNetDev_KeysNodup netdev2) e.1 e.2 he', h4⟩

theorem delta_nonneg {a b : Int} (ha : -(2 ^ 63) ≤ a ∧ a < 2 ^ 63)
    (hb : -(2 ^ 63) ≤ b ∧ b < 2 ^ 63) (h0 : 0 ≤ a) (hle : a ≤ b) : 0 ≤ wrapInt64 (b - a) := by
  have : wrapInt64 (b - a) = b - a := wrapInt64_of_range (by omega) (by omega)
  rw [this]
  omega

theorem delta_lt_zero {a b : Int} (ha : -(2 ^ 63) ≤ a ∧ a < 2 ^ 63) (hb : -(2 ^ 63) ≤ b ∧ b < 2 ^ 63)
    (h0 : 0 ≤ b) (hlt : b < a) : wrapInt64 (b - a) < 0 := by
  have : wrapInt64 (b - a) = b - a := wrapInt64_of_range (by omega) (by omega)
  rw [this]
  omega

/-- Claim C2, amended. For every pair of `/proc/net/dev` samples, every interface record
returned by `parseNetworkMetrics` has `RxBytesPS`, `TxBytesPS`, `RxPacketsPS` and
`TxPacketsPS` equal to the 64-bit differences, second sample minus first, of the counters
of its interface. A field is at least 0 when its non-negative counter did not decrease,
and it is negative (not clamped) when the counter of the second sample is lower. -/
theorem network_rates_are_sample_differences (ord : RangeOrder)
    (netdev1 netdev2 tcpStats netstat localIP : String) (iface : NetworkInterface)
    (h : iface ∈ (parseNetworkMetrics ord netdev1 netdev2 tcpStats netstat localIP).Interfaces) :
    ∃ s1 s2, mapGet? (parseNetDev netdev1) iface.Name.data = some s1 ∧
      mapGet? (parseNetDev netdev2) iface.Name.data = some s2 ∧
      iface.RxBytesPS = wrapInt64 (s2.RxBytes - s1.RxBytes) ∧
      iface.TxBytesPS = wrapInt64 (s2.TxBytes - s1.TxBytes) ∧
      iface.RxPacketsPS = wrapInt64 (s2.RxPackets - s1.RxPackets) ∧
      iface.TxPacketsPS = wrapInt64 (s2.TxPackets - s1.TxPackets) ∧
      (0 ≤ s1.RxBytes → s1.RxBytes ≤ s2.RxBytes → 0 ≤ iface.RxBytesPS) ∧
      (0 ≤ s1.TxBytes → s1.TxBytes ≤ s2.TxBytes → 0 ≤ iface.TxBytesPS) ∧
      (0 ≤ s1.RxPackets → s1.RxPackets ≤ s2.RxPackets → 0 ≤ iface.RxPacketsPS) ∧
      (0 ≤ s1.TxPackets → s1.TxPackets ≤ s2.TxPackets → 0 ≤ iface.TxPacketsPS) ∧
      (0 ≤ s2.RxBytes → s2.RxBytes < s1.RxBytes → iface.RxBytesPS < 0) ∧
      (0 ≤ s2.TxBytes → s2.TxBytes < s1.TxBytes → iface.TxBytesPS < 0) ∧
      (0 ≤ s2.RxPackets → s2.RxPackets < s1.RxPackets → iface.RxPacketsPS < 0) ∧
      (0 ≤ s2.TxPackets → s2.TxPackets < s1.TxPackets → iface.TxPacketsPS < 0) := by
  obtain ⟨name, s1, s2, _, h1, h2, rfl⟩ :=
    mem_parseNetworkMetrics ord netdev1 netdev2 tcpStats netstat localIP iface h
  obtain ⟨f0, f1, f2, f3, f4⟩ := makeInterface_fields name s1 s2
  have hr1 := parseNetDev_InRange netdev1 (name, s1) (mem_of_mapGet? _ _ _ h1)
  have hr2 := parseNetDev_InRange netdev2 (name, s2) (mem_of_mapGet? _ _ _ h2)
  rw [f0, f1, f2, f3, f4]
  exact ⟨s1, s2, h1, h2, rfl, rfl, rfl, rfl,
    delta_nonneg hr1.1 hr2.1, delta_nonneg hr1.2.1 hr2.2.1, delta_nonneg hr1.2.2.1 hr2.2.2.1,
    delta_nonneg hr1.2.2.2 hr2.2.2.2,
    delta_lt_zero hr1.1 hr2.1, delta_lt_zero hr1.2.1 hr2.2.1, delta_lt_zero hr1.2.2.1 hr2.2.2.1,
    delta_lt_zero hr1.2.2.2 hr2.2.2.2⟩

/-- Claim C2 as stated fails: the received-bytes counter of `eth0` goes from 1000 to 400
(the other counters do not decrease) and `parseNetworkMetrics` reports `RxBytesPS = -600`, a
negative rate. -/
theorem network_counter_reset_gives_negative_rate :
    (parseNetworkMetrics RangeOrder.stored netdevFirst netdevSecond "" "" "").Interfaces.map
        (fun i => (i.Name, i.RxBytesPS, i.TxBytesPS)) = [("eth0", -600, 500)] := by
  decide

/-- The amended claim C2 at the samples of the counterexample: the record of `eth0` has
the differences of the two samples. -/
theorem network_rates_are_sample_differences_witness :
    ∃ s1 s2, mapGet? (parseNetDev netdevFirst) "eth0".data = some s1 ∧
      mapGet? (parseNetDev netdevSecond) "eth0".data = some s2 ∧
      (-600 : Int) = wrapInt64 (s2.RxBytes - s1.RxBytes) ∧
      (500 : Int) = wrapInt64 (s2.TxBytes - s1.TxBytes) := by
  obtain ⟨s1, s2, h1, h2, h3, h4, _⟩ :=
    network_rates_are_sample_differences RangeOrder.stored netdevFirst netdevSecond "" "" ""
      { Name := "eth0", RxBytesPS := -600, TxBytesPS := 500 }
      (by decide)
  exact ⟨s1, s2, h1, h2, h3, h4⟩

theorem parseUintLoop_append (l : List Char) (c : Char) (n : Nat) :
    parseUintLoop (l ++ [c]) n =
      match parseUintLoop l n with
      | .ok m =>
        if c.isDigit then
          if 2 ^ 64 ≤ m * 10 + (c.toNat - 48) then .rangeErr else .ok (m * 10 + (c.toNat - 48))
        else .syntaxErr
      | .rangeErr => .rangeErr
      | .syntaxErr => .syntaxErr := by
  induction l generalizing n with
  | nil => rfl
  | cons d l ih =>
    rw [List.cons_append]
    unfold parseUintLoop
    by_cases hd : d.isDigit = true
    · rw [if_pos hd, if_pos hd]
      by_cases hr : 2 ^ 64 ≤ n * 10 + (d.toNat - 48)
      · rw [if_pos hr, if_pos hr]
      · rw [if_neg hr, if_neg hr]
        exact ih _
    · rw [if_neg hd, if_neg hd]

theorem digitChar_isDigit (d : Nat) (h : d < 10) :
    (Nat.digitChar d).isDigit = true ∧ (Nat.digitChar d).toNat - 48 = d := by
  interval_cases d <;> decide

theorem toDigitsCore_append (fuel n : Nat) (ds : List Char) :
    Nat.toDigitsCore 10 fuel n ds = Nat.toDigitsCore 10 fuel n [] ++ ds := by
  induction fuel generalizing n ds with
  | zero => simp [Nat.toDigitsCore]
  | succ f ih =>
    unfold Nat.toDigitsCore
    simp only []
    split_ifs
    · simp
    · rw [ih (n / 10) (_ :: ds), ih (n / 10) [_]]
      simp

theorem toDigitsCore_step (fuel n : Nat) (h10 : 10 ≤ n) :
    Nat.toDigitsCore 10 (fuel + 1) n [] =
      Nat.toDigitsCore 10 fuel (n / 10) [] ++ [Nat.digitChar (n % 10)] := by
  conv_lhs => unfold Nat.toDigitsCore
  simp only []
  have : n / 10 ≠ 0 := by omega
  rw [if_neg this, toDigitsCore_append]

theorem toDigitsCore_fuel (fuel n : Nat) (h : n < fuel) :
    Nat.toDigitsCore 10 fuel n [] = Nat.toDigits 10 n := by
  induction n using Nat.strong_induction_on generalizing fuel with
  | _ n ih =>
    unfold Nat.toDigits
    cases fuel with
    | zero => omega
    | succ f =>
      by_cases h10 : 10 ≤ n
      · have h1 : n / 10 < n := by omega
        have h2 : n / 10 < f := by omega
        rw [toDigitsCore_step f n h10, toDigitsCore_step n n h10]
        rw [ih (n / 10) h1 f h2, ih (n / 10) h1 n h1]
      · unfold Nat.toDigitsCore
        simp only []
        have : n / 10 = 0 := by omega
        rw [if_pos this, if_pos this]

theorem toDigits_small (n : Nat) (h : n < 10) : Nat.toDigits 10 n = [Nat.digitChar n] := by
  unfold Nat.toDigits Nat.toDigitsCore
  simp only []
  have h1 : n / 10 = 0 := by omega
  have h2 : n % 10 = n := by omega
  rw [if_pos h1, h2]

theorem toDigits_step (n : Nat) (h10 : 10 ≤ n) :
    Nat.toDigits 10 n = Nat.toDigits 10 (n / 10) ++ [Nat.digitChar (n % 10)] := by
  have h1 : n / 10 < n := by omega
  conv_lhs => unfold Nat.toDigits
  rw [toDigitsCore_step n n h10, toDigitsCore_fuel n (n / 10) h1]

theorem parseUintLoop_toDigits (n : Nat) :
    parseUintLoop (Nat.toDigits 10 n) 0 = if n < 2 ^ 64 then .ok n else .rangeErr := by
  induction n using Nat.strong_induction_on with
  | _ n ih =>
    by_cases h10 : 10 ≤ n
    · rw [toDigits_step n h10, parseUintLoop_append, ih (n / 10) (by omega)]
      obtain ⟨hd1, hd2⟩ := digitChar_isDigit (n % 10) (by omega)
      by_cases hn : n / 10 < 2 ^ 64
      · rw [if_pos hn]
        simp only [hd1, hd2, if_true]
        have : n / 10 * 10 + n % 10 = n := by omega
        rw [this]
        by_cases hn2 : n < 2 ^ 64
        · rw [if_pos hn2, if_neg (by omega)]
        · rw [if_neg hn2, if_pos (by omega)]
      · rw [if_neg hn, if_neg (by omega)]
    · rw [toDigits_small n (by omega)]
      obtain ⟨hd1, hd2⟩ := digitChar_isDigit n (by omega)
      simp only [parseUintLoop, hd1, hd2, if_true]
      rw [if_neg (by omega), if_pos (by omega)]
      simp

theorem toDigits_ne_nil (n : Nat) : Nat.toDigits 10 n ≠ [] := by
  by_cases h10 : 10 ≤ n
  · rw [toDigits_step n h10]; simp
  · rw [toDigits_small n (by omega)]; simp

theorem toDigits_all_digits (n : Nat) : ∀ c ∈ Nat.toDigits 10 n, c.isDigit = true := by
  induction n using Nat.strong_induction_on with
  | _ n ih =>
    intro c hc
    by_cases h10 : 10 ≤ n
    · rw [toDigits_step n h10] at hc
      rcases List.mem_append.mp hc with h | h
      · exact ih (n / 10) (by omega) c h
      · rw [List.mem_singleton] at h
        rw [h]; exact (digitChar_isDigit (n % 10) (by omega)).1
    · rw [toDigits_small n (by omega), List.mem_singleton] at hc
      rw [hc]; exact (digitChar_isDigit n (by omega)).1

theorem ParseInt_repr (n : Nat) :
    ParseInt (Nat.repr n).data = min (n : Int) (2 ^ 63 - 1) := by
  have hdata : (Nat.repr n).data = Nat.toDigits 10 n := rfl
  rw [hdata]
  have hne := toDigits_ne_nil n
  have hall := toDigits_all_digits n
  have hp := parseUintLoop_toDigits n
  cases hd : Nat.toDigits 10 n with
  | nil => exact absurd hd hne
  | cons c rest =>
    rw [hd] at hp hall
    have hc : c.isDigit = true := hall c (List.mem_cons_self _ _)
    have hplus : (c == '+') = false := by
      rw [beq_eq_false_iff_ne]; rintro rfl; revert hc; decide
    have hminus : (c == '-') = false := by
      rw [beq_eq_false_iff_ne]; rintro rfl; revert hc; decide
    unfold ParseInt
    simp only [hplus, hminus, Bool.or_self, Bool.false_eq_true, if_false]
    rw [hp]
    by_cases hn : n < 2 ^ 64
    · rw [if_pos hn]
      simp only []
      split_ifs <;> omega
    · rw [if_neg hn]
      simp only []
      omega

theorem isDigit_not_space (c : Char) (h : c.isDigit = true) : isSpace c = false := by
  unfold Char.isDigit at h
  simp only [Bool.and_eq_true, decide_eq_true_eq] at h
  have h1 : 48 ≤ c.toNat := h.1
  have h2 : c.toNat ≤ 57 := h.2
  unfold isSpace
  simp only []
  generalize c.toNat = n at h1 h2
  interval_cases n <;> decide

theorem splitOnP_spaces (pad : Nat) (rest : List Char) :
    ((List.replicate pad ' ' ++ rest).splitOnP isSpace).filter (fun f => !f.isEmpty) =
      (rest.splitOnP isSpace).filter (fun f => !f.isEmpty) := by
  induction pad with
  | zero => rfl
  | succ k ih =>
    rw [List.replicate_succ, List.cons_append]
    have := List.splitOnP_first isSpace [] (by simp) ' ' (by decide)
      (List.replicate k ' ' ++ rest)
    rw [List.nil_append] at this
    rw [this, List.filter_cons_of_neg (by simp), ih]

theorem Fields_render (l : MemLine) (h : l.WellFormed) :
    Fields l.render = [l.key ++ [':'], (Nat.repr l.value).data, "kB".data] := by
  unfold Fields MemLine.render
  have h1 : ∀ c ∈ l.key ++ [':'], ¬ isSpace c = true := by
    intro c hc
    rcases List.mem_append.mp hc with hc | hc
    · rw [h c hc]; simp
    · rw [List.mem_singleton] at hc; rw [hc]; decide
  have e1 : l.key ++ ':' :: ' ' :: (List.replicate l.pad ' ' ++
      ((Nat.repr l.value).data ++ " kB".data)) =
      (l.key ++ [':']) ++ ' ' :: (List.replicate l.pad ' ' ++
        ((Nat.repr l.value).data ++ " kB".data)) := by
    rw [List.append_assoc, List.singleton_append]
  rw [e1, List.splitOnP_first isSpace _ h1 ' ' (by decide)]
  rw [List.filter_cons_of_pos (by simp), splitOnP_spaces]
  have h2 : ∀ c ∈ (Nat.repr l.value).data, ¬ isSpace c = true := by
    intro c hc
    rw [isDigit_not_space c (toDigits_all_digits l.value c hc)]; simp
  have e2 : (Nat.repr l.value).data ++ " kB".data = (Nat.repr l.value).data ++ ' ' :: "kB".data :=
    rfl
  rw [e2, List.splitOnP_first isSpace _ h2 ' ' (by decide)]
  have hne : (Nat.repr l.value).data ≠ [] := toDigits_ne_nil l.value
  rw [List.filter_cons_of_pos (by simpa using hne)]
  congr 2

theorem TrimSuffix_colon (key : List Char) : TrimSuffix (key ++ [':']) [':'] = key := by
  unfold TrimSuffix
  have : [':'].isSuffixOf (key ++ [':']) = true := by
    simp [List.isSuffixOf]
  rw [if_pos this]
  simp

theorem TrimSpace_eq_self (s rest init : List Char) (c d : Char) (h1 : s = c :: rest)
    (h2 : s = init ++ [d]) (hc : isSpace c = false) (hd : isSpace d = false) :
    TrimSpace s = s := by
  unfold TrimSpace
  have e1 : s.dropWhile isSpace = s := by
    rw [h1, List.dropWhile_cons, hc]; simp
  rw [e1, h2, List.rdropWhile_concat, hd]
  simp

theorem intercalate_cons_cons (c : Char) (x y : List Char) (ys : List (List Char)) :
    [c].intercalate (x :: y :: ys) = x ++ c :: [c].intercalate (y :: ys) := by
  simp [List.intercalate, List.intersperse]

theorem intercalate_single (c : Char) (x : List Char) : [c].intercalate [x] = x := by
  simp [List.intercalate, List.intersperse]

theorem render_head (l : MemLine) (h : l.WellFormed) :
    ∃ c rest, l.render = c :: rest ∧ isSpace c = false := by
  unfold MemLine.render
  cases hk : l.key with
  | nil => exact ⟨':', _, rfl, by decide⟩
  | cons c k => exact ⟨c, _, rfl, h c (by rw [hk]; exact List.mem_cons_self _ _)⟩

theorem render_last (l : MemLine) : ∃ init, l.render = init ++ ['B'] := by
  unfold MemLine.render
  refine ⟨l.key ++ ':' :: ' ' :: (List.replicate l.pad ' ' ++ ((Nat.repr l.value).data ++ " k".data)), ?_⟩
  have : " kB".data = " k".data ++ ['B'] := rfl
  rw [this]
  simp [List.append_assoc]

theorem text_head (x : MemLine) (xs : List MemLine) (h : x.WellFormed) :
    ∃ c rest, ['\n'].intercalate ((x :: xs).map MemLine.render) = c :: rest ∧
      isSpace c = false := by
  obtain ⟨c, rest, h1, h2⟩ := render_head x h
  cases xs with
  | nil => exact ⟨c, rest, by rw [List.map_singleton, intercalate_single, h1], h2⟩
  | cons y ys =>
    refine ⟨c, rest ++ '\n' :: ['\n'].intercalate ((y :: ys).map MemLine.render), ?_, h2⟩
    rw [List.map_cons, List.map_cons, intercalate_cons_cons, h1]
    rfl

theorem text_last (x : MemLine) (xs : List MemLine) :
    ∃ init, ['\n'].intercalate ((x :: xs).map MemLine.render) = init ++ ['B'] := by
  induction xs generalizing x with
  | nil =>
    obtain ⟨init, h⟩ := render_last x
    exact ⟨init, by rw [List.map_singleton, intercalate_single, h]⟩
  | cons y ys ih =>
    obtain ⟨init, h⟩ := ih y
    refine ⟨x.render ++ '\n' :: init, ?_⟩
    rw [List.map_cons, List.map_cons, intercalate_cons_cons, ← List.map_cons, h]
    simp [List.append_assoc]

theorem TrimSpace_render (ls : List MemLine) (h : ∀ l ∈ ls, l.WellFormed) :
    TrimSpace (renderMeminfo ls).data = (renderMeminfo ls).data := by
  unfold renderMeminfo
  cases ls with
  | nil => rfl
  | cons x xs =>
    obtain ⟨c, rest, h1, h2⟩ := text_head x xs (h x (List.mem_cons_self _ _))
    obtain ⟨init, h3⟩ := text_last x xs
    exact TrimSpace_eq_self _ rest init c 'B' h1 h3 h2 (by decide)

theorem render_no_newline (l : MemLine) (h : l.WellFormed) : '\n' ∉ l.render := by
  unfold MemLine.render
  intro hm
  simp only [List.mem_append, List.mem_cons, List.mem_replicate] at hm
  rcases hm with hm | hm | hm | hm | hm | hm
  · have := h _ hm; revert this; decide
  · revert hm; decide
  · revert hm; decide
  · exact absurd hm.2 (by decide)
  · have := isDigit_not_space _ (toDigits_all_digits l.value _ hm); revert this; decide
  · revert hm; decide

theorem Split_render (ls : List MemLine) (h : ∀ l ∈ ls, l.WellFormed) (hne : ls ≠ []) :
    Split (renderMeminfo ls).data '\n' = ls.map MemLine.render := by
  unfold Split renderMeminfo
  apply List.splitOn_intercalate
  · intro l hl
    obtain ⟨x, hx, rfl⟩ := List.mem_map.mp hl
    exact render_no_newline x (h x hx)
  · simpa using hne

/-- The map that `parseMemoryMetrics` builds from a capture, line by line. -/
theorem meminfoMap_render (ls : List MemLine) (h : ∀ l ∈ ls, l.WellFormed) :
    meminfoMap (renderMeminfo ls) =
      ls.foldl (fun m l => mapSet m l.key (min (l.value : Int) (2 ^ 63 - 1))) [] := by
  unfold meminfoMap
  rw [TrimSpace_render ls h]
  by_cases hne : ls = []
  · subst hne; rfl
  · rw [Split_render ls h hne, List.foldl_map]
    generalize ([] : GoMap Int) = m
    induction ls generalizing m with
    | nil => rfl
    | cons x xs ih =>
      rw [List.foldl_cons, List.foldl_cons]
      have hx := h x (List.mem_cons_self _ _)
      have hstep : (if 2 ≤ (Fields x.render).length then
            mapSet m (TrimSuffix ((Fields x.render).getD 0 []) [':'])
              (ParseInt ((Fields x.render).getD 1 []))
          else m) = mapSet m x.key (min (x.value : Int) (2 ^ 63 - 1)) := by
        rw [Fields_render x hx]
        simp only [List.length_cons, List.length_nil, List.getD_cons_zero, List.getD_cons_succ]
        rw [if_pos (by omega), TrimSuffix_colon, ParseInt_repr]
      by_cases hxs : xs = []
      · subst hxs
        simp only [List.foldl_nil]
        exact hstep
      · have := ih (fun l hl => h l (List.mem_cons_of_mem _ hl)) hxs
        simp only [] at this ⊢
        rw [hstep]
        exact this _

theorem mapGet?_mapSet {V : Type} (m : GoMap V) (k k' : List Char) (v : V) :
    mapGet? (mapSet m k v) k' = if k = k' then some v else mapGet? m k' := by
  induction m with
  | nil => simp [mapSet, mapGet?]
  | cons e rest ih =>
    obtain ⟨a, b⟩ := e
    unfold mapSet
    by_cases h : a = k
    · subst h
      rw [if_pos rfl]
      unfold mapGet?
      by_cases h2 : a = k'
      · rw [if_pos h2, if_pos h2]
      · rw [if_neg h2, if_neg h2, if_neg h2]
    · rw [if_neg h]
      unfold mapGet?
      by_cases h2 : a = k'
      · rw [if_pos h2, if_pos h2, if_neg (by rw [← h2]; exact fun h3 => h h3.symm)]
      · rw [if_neg h2, if_neg h2, ih]

theorem mapGet?_foldl_lines (ls : List MemLine) (k : List Char) :
    mapGet? (ls.foldl (fun m l => mapSet m l.key (min (l.value : Int) (2 ^ 63 - 1))) []) k =
      ((ls.filter fun l => l.key = k).getLast?).map
        fun l => min (l.value : Int) (2 ^ 63 - 1) := by
  induction ls using List.reverseRecOn with
  | nil => rfl
  | append_singleton ls l ih =>
    rw [List.foldl_append, List.foldl_cons, List.foldl_nil, mapGet?_mapSet, List.filter_append]
    by_cases h : l.key = k
    · rw [if_pos h, List.filter_cons_of_pos (by simpa using h), List.filter_nil,
        List.getLast?_append, List.getLast?_singleton]
      rfl
    · rw [if_neg h, List.filter_cons_of_neg (by simpa using h), List.filter_nil,
        List.append_nil, ih]

theorem memValue_render (ls : List MemLine) (h : ∀ l ∈ ls, l.WellFormed) (key : String) :
    memValue (meminfoMap (renderMeminfo ls)) key = min (lastValue ls key : Int) (2 ^ 63 - 1) := by
  unfold memValue lastValue
  rw [meminfoMap_render ls h, mapGet?_foldl_lines]
  cases ((ls.filter fun l => l.key = key.data).getLast?) with
  | none => simp
  | some l => simp

theorem lastValue_lt (ls : List MemLine) (key : String) (b : Nat) (hb : 0 < b)
    (h : ∀ l ∈ ls, l.value < b) : lastValue ls key < b := by
  unfold lastValue
  cases hl : ((ls.filter fun l => l.key = key.data).getLast?) with
  | none => simpa using hb
  | some l =>
    have h1 : l ∈ ls.filter fun l => l.key = key.data := List.mem_of_getLast?_eq_some hl
    simpa using h l (List.mem_of_mem_filter h1)

theorem tdiv1024_range (x : Int) (h : -(2 ^ 63) ≤ x ∧ x < 2 ^ 63) :
    -(2 ^ 53) ≤ x.tdiv 1024 ∧ x.tdiv 1024 ≤ 2 ^ 53 := by
  by_cases hx : 0 ≤ x
  · rw [Int.tdiv_eq_ediv hx (by norm_num)]
    constructor <;> omega
  · have e : x.tdiv 1024 = -((-x) / 1024) := by
      rw [← Int.tdiv_eq_ediv (by omega) (by norm_num), Int.neg_tdiv, neg_neg]
    rw [e]
    constructor <;> omega

theorem meminfoMap_range (meminfo : String) :
    ∀ e ∈ meminfoMap meminfo, -(2 ^ 63) ≤ e.2 ∧ e.2 < 2 ^ 63 := by
  unfold meminfoMap
  apply foldl_invariant (fun m : GoMap Int => ∀ e ∈ m, -(2 ^ 63) ≤ e.2 ∧ e.2 < 2 ^ 63)
  · intro s line hs
    simp only []
    split_ifs
    · intro e he
      rcases mem_mapSet _ _ _ _ he with h | h
      · rw [h]; exact ParseInt_range _
      · exact hs e h
    · exact hs
  · intro e he; simp at he

theorem memValue_range (meminfo key : String) :
    -(2 ^ 63) ≤ memValue (meminfoMap meminfo) key ∧ memValue (meminfoMap meminfo) key < 2 ^ 63 := by
  unfold memValue
  cases h : mapGet? (meminfoMap meminfo) key.data with
  | none => simp
  | some v => exact meminfoMap_range meminfo (key.data, v) (mem_of_mapGet? _ _ _ h)

/-- The used, free, buffer and cache megabytes add up to the total, for every text. -/
theorem parseMemoryMetrics_sum (meminfo memPressure : String) :
    (parseMemoryMetrics meminfo memPressure).UsedMB +
        (parseMemoryMetrics meminfo memPressure).FreeMB +
        (parseMemoryMetrics meminfo memPressure).BuffersMB +
        (parseMemoryMetrics meminfo memPressure).CachedMB =
      (parseMemoryMetrics meminfo memPressure).TotalMB := by
  unfold parseMemoryMetrics
  simp only []
  have hT := tdiv1024_range _ (memValue_range meminfo "MemTotal")
  have hF := tdiv1024_range _ (memValue_range meminfo "MemFree")
  have hB := tdiv1024_range _ (memValue_range meminfo "Buffers")
  have hC := tdiv1024_range _ (memValue_range meminfo "Cached")
  generalize (memValue (meminfoMap meminfo) "MemTotal").tdiv 1024 = T at hT ⊢
  generalize (memValue (meminfoMap meminfo) "MemFree").tdiv 1024 = F at hF ⊢
  generalize (memValue (meminfoMap meminfo) "Buffers").tdiv 1024 = B at hB ⊢
  generalize (memValue (meminfoMap meminfo) "Cached").tdiv 1024 = C at hC ⊢
  rw [wrapInt64_of_range (x := T - F) (by omega) (by omega),
    wrapInt64_of_range (x := T - F - B) (by omega) (by omega),
    wrapInt64_of_range (x := T - F - B - C) (by omega) (by omega)]
  omega

/-- The usage percentage lies between 0 and 100 whenever the text gives
`0 ≤ MemAvailable ≤ MemTotal`. -/
theorem parseMemoryMetrics_usage_bounds (meminfo memPressure : String)
    (h0 : 0 ≤ memValue (meminfoMap meminfo) "MemAvailable")
    (h1 : memValue (meminfoMap meminfo) "MemAvailable" ≤ memValue (meminfoMap meminfo) "MemTotal") :
    0 ≤ (parseMemoryMetrics meminfo memPressure).UsagePercent ∧
      (parseMemoryMetrics meminfo memPressure).UsagePercent ≤ 100 := by
  unfold parseMemoryMetrics
  simp only []
  have hT := memValue_range meminfo "MemTotal"
  have hA := memValue_range meminfo "MemAvailable"
  generalize memValue (meminfoMap meminfo) "MemTotal" = vT at h1 hT ⊢
  generalize memValue (meminfoMap meminfo) "MemAvailable" = vA at h0 h1 hA ⊢
  rw [Int.tdiv_eq_ediv (by omega : 0 ≤ vT) (by norm_num), Int.tdiv_eq_ediv h0 (by norm_num)]
  have hA0 : 0 ≤ vA / 1024 := by omega
  have hAT : vA / 1024 ≤ vT / 1024 := by omega
  have hTb : vT / 1024 < 2 ^ 53 := by omega
  generalize vT / 1024 = T at hAT hTb ⊢
  generalize vA / 1024 = A at hA0 hAT ⊢
  rw [wrapInt64_of_range (x := T - A) (by omega) (by omega)]
  split_ifs with hpos
  · have hTq : (0 : ℚ) < (T : ℚ) := by exact_mod_cast hpos
    have h2 : (0 : ℚ) ≤ ((T - A : Int) : ℚ) := by exact_mod_cast (by omega : 0 ≤ T - A)
    have h3 : ((T - A : Int) : ℚ) ≤ (T : ℚ) := by exact_mod_cast (by omega : T - A ≤ T)
    constructor
    · positivity
    · rw [div_mul_eq_mul_div, div_le_iff₀ hTq]
      linarith
  · norm_num

/-- Claim C3. For every capture of `/proc/meminfo` made of lines `Key:  N kB` with
natural numbers `N` and white-space-free keys, in which the value of `MemAvailable` is at
most the value of `MemTotal`, the record of `parseMemoryMetrics` has
`0 ≤ UsagePercent ≤ 100` and `UsedMB + FreeMB + BuffersMB + CachedMB = TotalMB`. -/
theorem memory_valid_capture_bounds (ls : List MemLine) (memPressure : String)
    (hwf : ∀ l ∈ ls, l.WellFormed)
    (hav : lastValue ls "MemAvailable" ≤ lastValue ls "MemTotal") :
    0 ≤ (parseMemoryMetrics (renderMeminfo ls) memPressure).UsagePercent ∧
      (parseMemoryMetrics (renderMeminfo ls) memPressure).UsagePercent ≤ 100 ∧
      (parseMemoryMetrics (renderMeminfo ls) memPressure).UsedMB +
          (parseMemoryMetrics (renderMeminfo ls) memPressure).FreeMB +
          (parseMemoryMetrics (renderMeminfo ls) memPressure).BuffersMB +
          (parseMemoryMetrics (renderMeminfo ls) memPressure).CachedMB =
        (parseMemoryMetrics (renderMeminfo ls) memPressure).TotalMB := by
  have hb := parseMemoryMetrics_usage_bounds (renderMeminfo ls) memPressure
    (by rw [memValue_render ls hwf]; omega)
    (by rw [memValue_render ls hwf, memValue_render ls hwf]; omega)
  exact ⟨hb.1, hb.2, parseMemoryMetrics_sum _ _⟩

theorem renderMeminfo_testCapture :
    renderMeminfo testCapture =
      "MemTotal:       16384000 kB\nMemFree:         4096000 kB\nMemAvailable:    8192000 kB\nBuffers:          512000 kB\nCached:          2048000 kB\nSwapTotal:       4096000 kB\nSwapFree:        3072000 kB\nDirty:            102400 kB" := by
  decide

theorem key_field (ls : List MemLine) (hwf : ∀ l ∈ ls, l.WellFormed)
    (hfit : ∀ l ∈ ls, l.value < 2 ^ 63) (key : String) :
    (memValue (meminfoMap (renderMeminfo ls)) key).tdiv 1024 =
      ((lastValue ls key / 1024 : Nat) : Int) := by
  have h := lastValue_lt ls key (2 ^ 63) (by norm_num) hfit
  rw [memValue_render ls hwf, Int.ofNat_tdiv]
  congr 1
  omega

theorem parseMemoryMetrics_usage_formula (meminfo memPressure : String) :
    (parseMemoryMetrics meminfo memPressure).UsagePercent =
      if 0 < (parseMemoryMetrics meminfo memPressure).TotalMB then
        (((parseMemoryMetrics meminfo memPressure).TotalMB -
            (parseMemoryMetrics meminfo memPressure).AvailableMB : Int) : ℚ) /
          ((parseMemoryMetrics meminfo memPressure).TotalMB : ℚ) * 100
      else 0 := by
  unfold parseMemoryMetrics
  simp only []
  have hT := tdiv1024_range _ (memValue_range meminfo "MemTotal")
  have hA := tdiv1024_range _ (memValue_range meminfo "MemAvailable")
  generalize (memValue (meminfoMap meminfo) "MemTotal").tdiv 1024 = T at hT ⊢
  generalize (memValue (meminfoMap meminfo) "MemAvailable").tdiv 1024 = A at hA ⊢
  rw [wrapInt64_of_range (x := T - A) (by omega) (by omega)]

/-- Claim C4. For every capture of `/proc/meminfo` made of lines `Key:  N kB` with
white-space-free keys and values `N` below `2 ^ 63`, `parseMemoryMetrics` sets `TotalMB`,
`FreeMB`, `AvailableMB`, `CachedMB`, `BuffersMB`, `SwapTotalMB` and `DirtyMB` to the floor
of the value of the key (of its last line; 0 when the key is missing) divided by 1024,
`UsagePercent` to `(TotalMB - AvailableMB) / TotalMB * 100` when `TotalMB > 0` and to 0
otherwise, `SwapPercent` to `SwapUsedMB / SwapTotalMB * 100` when `SwapTotalMB > 0` and to
0 otherwise; the capture of `TestParseMemoryMetrics` (MemTotal 16384000, MemFree 4096000,
MemAvailable 8192000, SwapTotal 4096000) gives `TotalMB = 16000`, `AvailableMB = 8000`,
`SwapTotalMB = 4000` and `UsagePercent = 50`. -/
theorem memory_fields_of_capture (ls : List MemLine) (memPressure : String)
    (hwf : ∀ l ∈ ls, l.WellFormed) (hfit : ∀ l ∈ ls, l.value < 2 ^ 63) :
    (parseMemoryMetrics (renderMeminfo ls) memPressure).TotalMB =
        ((lastValue ls "MemTotal" / 1024 : Nat) : Int) ∧
      (parseMemoryMetrics (renderMeminfo ls) memPressure).FreeMB =
        ((lastValue ls "MemFree" / 1024 : Nat) : Int) ∧
      (parseMemoryMetrics (renderMeminfo ls) memPressure).AvailableMB =
        ((lastValue ls "MemAvailable" / 1024 : Nat) : Int) ∧
      (parseMemoryMetrics (renderMeminfo ls) memPressure).CachedMB =
        ((lastValue ls "Cached" / 1024 : Nat) : Int) ∧
      (parseMemoryMetrics (renderMeminfo ls) memPressure).BuffersMB =
        ((lastValue ls "Buffers" / 1024 : Nat) : Int) ∧
      (parseMemoryMetrics (renderMeminfo ls) memPressure).SwapTotalMB =
        ((lastValue ls "SwapTotal" / 1024 : Nat) : Int) ∧
      (parseMemoryMetrics (renderMeminfo ls) memPressure).DirtyMB =
        ((lastValue ls "Dirty" / 1024 : Nat) : Int) ∧
      (parseMemoryMetrics (renderMeminfo ls) memPressure).UsagePercent =
        (if 0 < (parseMemoryMetrics (renderMeminfo ls) memPressure).TotalMB then
          (((parseMemoryMetrics (renderMeminfo ls) memPressure).TotalMB -
              (parseMemoryMetrics (renderMeminfo ls) memPressure).AvailableMB : Int) : ℚ) /
            ((parseMemoryMetrics (renderMeminfo ls) memPressure).TotalMB : ℚ) * 100
        else 0) ∧
      (parseMemoryMetrics (renderMeminfo ls) memPressure).SwapPercent =
        (if 0 < (parseMemoryMetrics (renderMeminfo ls) memPressure).SwapTotalMB then
          ((parseMemoryMetrics (renderMeminfo ls) memPressure).SwapUsedMB : ℚ) /
            ((parseMemoryMetrics (renderMeminfo ls) memPressure).SwapTotalMB : ℚ) * 100
        else 0) ∧
      (parseMemoryMetrics (renderMeminfo testCapture) testPressure).TotalMB = 16000 ∧
      (parseMemoryMetrics (renderMeminfo testCapture) testPressure).AvailableMB = 8000 ∧
      (parseMemoryMetrics (renderMeminfo testCapture) testPressure).SwapTotalMB = 4000 ∧
      (parseMemoryMetrics (renderMeminfo testCapture) testPressure).UsagePercent = 50 := by
  have hT : (parseMemoryMetrics (renderMeminfo testCapture) testPressure).TotalMB = 16000 := by
    decide
  have hA : (parseMemoryMetrics (renderMeminfo testCapture) testPressure).AvailableMB = 8000 := by
    decide
  have hS : (parseMemoryMetrics (renderMeminfo testCapture) testPressure).SwapTotalMB = 4000 := by
    decide
  refine ⟨key_field ls hwf hfit _, key_field ls hwf hfit _, key_field ls hwf hfit _,
    key_field ls hwf hfit _, key_field ls hwf hfit _, key_field ls hwf hfit _,
    key_field ls hwf hfit _, parseMemoryMetrics_usage_formula _ _, rfl, hT, hA, hS, ?_⟩
  rw [parseMemoryMetrics_usage_formula, hT, hA]
  norm_num

/-- Claim C4 at the capture of `TestParseMemoryMetrics`: the hypotheses hold and `FreeMB`
is the floor of 4096000 / 1024. -/
theorem memory_fields_of_capture_witness :
    (∀ l ∈ testCapture, l.WellFormed) ∧ (∀ l ∈ testCapture, l.value < 2 ^ 63) ∧
      (parseMemoryMetrics (renderMeminfo testCapture) testPressure).FreeMB =
        ((lastValue testCapture "MemFree" / 1024 : Nat) : Int) ∧
      ((lastValue testCapture "MemFree" / 1024 : Nat) : Int) = 4000 :=
  ⟨by decide, by decide,
    (memory_fields_of_capture testCapture testPressure (by decide) (by decide)).2.1,
    by decide⟩

/-- Claim C3 at the capture of `TestParseMemoryMetrics`. -/
theorem memory_valid_capture_bounds_witness :
    0 ≤ (parseMemoryMetrics (renderMeminfo testCapture) testPressure).UsagePercent ∧
      (parseMemoryMetrics (renderMeminfo testCapture) testPressure).UsagePercent ≤ 100 ∧
      (parseMemoryMetrics (renderMeminfo testCapture) testPressure).UsedMB +
          (parseMemoryMetrics (renderMeminfo testCapture) testPressure).FreeMB +
          (parseMemoryMetrics (renderMeminfo testCapture) testPressure).BuffersMB +
          (parseMemoryMetrics (renderMeminfo testCapture) testPressure).CachedMB =
        (parseMemoryMetrics (renderMeminfo testCapture) testPressure).TotalMB :=
  memory_valid_capture_bounds testCapture testPressure (by decide) (by decide)


/-! ## Lemmas: loops that append -/

theorem foldl_append_body {α β : Type} (body : List β → α → List β)
    (h : ∀ acc x, body acc x = acc ++ body [] x) (xs : List α) (acc : List β) :
    xs.foldl body acc = acc ++ xs.flatMap (body []) := by
  induction xs generalizing acc with
  | nil => simp
  | cons x xs ih =>
    rw [List.foldl_cons, ih, h acc x]
    simp [List.flatMap_cons, List.append_assoc]

theorem analyzeDisk_append (issues : List Issue) (disk : DiskMetrics) :
    analyzeDisk issues disk = issues ++ analyzeDisk [] disk := by
  unfold analyzeDisk
  split_ifs <;> simp

theorem analyzeInterface_append (issues : List Issue) (iface : NetworkInterface) :
    analyzeInterface issues iface = issues ++ analyzeInterface [] iface := by
  unfold analyzeInterface
  split_ifs <;> simp

theorem analyzeCPUMemory_append (report : ServerReport) (issues : List Issue) :
    analyzeCPUMemory report issues = issues ++ analyzeCPUMemory report [] := by
  unfold analyzeCPUMemory
  split_ifs <;> simp

theorem analyzeTCPSystem_append (report : ServerReport) (issues : List Issue) :
    analyzeTCPSystem report issues = issues ++ analyzeTCPSystem report [] := by
  unfold analyzeTCPSystem
  split_ifs <;> simp

/-- The issue list of the host rule engine, block by block. -/
theorem analyzeIssues_blocks (report : ServerReport) :
    (analyzeIssues report).Issues =
      report.Issues ++ analyzeCPUMemory report [] ++ report.Disk.flatMap (analyzeDisk []) ++
        report.Network.Interfaces.flatMap (analyzeInterface []) ++ analyzeTCPSystem report [] := by
  unfold analyzeIssues
  simp only []
  rw [analyzeTCPSystem_append, foldl_append_body _ analyzeInterface_append,
    foldl_append_body _ analyzeDisk_append, analyzeCPUMemory_append]

theorem analyzeCPUMemory_category (report : ServerReport) :
    ∀ i ∈ analyzeCPUMemory report [], i.Category = "cpu" ∨ i.Category = "memory" := by
  unfold analyzeCPUMemory
  split_ifs <;> simp

theorem analyzeTCPSystem_category (report : ServerReport) :
    ∀ i ∈ analyzeTCPSystem report [], i.Category = "network" ∨ i.Category = "system" := by
  unfold analyzeTCPSystem
  split_ifs <;> simp

theorem analyzeInterface_category (iface : NetworkInterface) :
    ∀ i ∈ analyzeInterface [] iface, i.Category = "network" := by
  unfold analyzeInterface
  split_ifs <;> simp

theorem analyzeDisk_category (disk : DiskMetrics) :
    ∀ i ∈ analyzeDisk [] disk, i.Category = "disk" := by
  unfold analyzeDisk
  split_ifs <;> simp

/-! ## Host rule engine -/

theorem analyzeDisk_tags (disk : DiskMetrics) :
    (analyzeDisk [] disk).map Issue.tag =
      (if disk.UsagePercent > 85 then [("critical", "disk")] else []) ++
        (if disk.InodesPercent > 80 then [("warning", "disk")] else []) ++
        (if disk.IOUtilPercent > 80 then [("warning", "disk")] else []) ++
        (if disk.IOErrors > 0 then [("critical", "disk")] else []) := by
  unfold analyzeDisk
  split_ifs <;> simp [Issue.tag]

/-- Claim C5. For every server report, the issues that `analyzeIssues` appends are those
of other categories, then for each record of `report.Disk`, in order, the issues of that
record, then issues of other categories again. The issues of a record are one per disk
rule the record satisfies, in rule order, all of category `disk`: critical iff
`UsagePercent > 85`, warning iff `InodesPercent > 80`, warning iff `IOUtilPercent > 80`,
critical iff `IOErrors > 0`. A record with `UsagePercent = 90` that satisfies no other
rule yields exactly one issue, critical and of category `disk`; a record with
`UsagePercent = 85` yields no issue for the usage rule. -/
theorem host_disk_rules (report : ServerReport) :
    ∃ before after : List Issue,
      (analyzeIssues report).Issues =
        report.Issues ++ before ++ report.Disk.flatMap (analyzeDisk []) ++ after ∧
      (∀ i ∈ before ++ after, i.Category ≠ "disk") ∧
      ∀ disk : DiskMetrics,
        (∀ issues, analyzeDisk issues disk = issues ++ analyzeDisk [] disk) ∧
        (analyzeDisk [] disk).map Issue.tag =
          (if disk.UsagePercent > 85 then [("critical", "disk")] else []) ++
            (if disk.InodesPercent > 80 then [("warning", "disk")] else []) ++
            (if disk.IOUtilPercent > 80 then [("warning", "disk")] else []) ++
            (if disk.IOErrors > 0 then [("critical", "disk")] else []) ∧
        (disk.UsagePercent = 90 → ¬ disk.InodesPercent > 80 → ¬ disk.IOUtilPercent > 80 →
          ¬ disk.IOErrors > 0 →
          ∃ i, analyzeDisk [] disk = [i] ∧ i.Level = "critical" ∧ i.Category = "disk") ∧
        (disk.UsagePercent = 85 →
          (analyzeDisk [] disk).map Issue.tag =
            (if disk.InodesPercent > 80 then [("warning", "disk")] else []) ++
              (if disk.IOUtilPercent > 80 then [("warning", "disk")] else []) ++
              (if disk.IOErrors > 0 then [("critical", "disk")] else [])) := by
  refine ⟨analyzeCPUMemory report [],
    report.Network.Interfaces.flatMap (analyzeInterface []) ++ analyzeTCPSystem report [],
    ?_, ?_, ?_⟩
  · rw [analyzeIssues_blocks]; simp [List.append_assoc]
  · intro i hi
    simp only [List.mem_append, List.mem_flatMap] at hi
    rcases hi with h | ⟨a, _, h⟩ | h
    · rcases analyzeCPUMemory_category report i h with h | h <;> rw [h] <;> decide
    · rw [analyzeInterface_category a i h]; decide
    · rcases analyzeTCPSystem_category report i h with h | h <;> rw [h] <;> decide
  · intro disk
    refine ⟨fun issues => analyzeDisk_append issues disk, analyzeDisk_tags disk, ?_, ?_⟩
    · intro h1 h2 h3 h4
      have h5 : disk.UsagePercent > 85 := by rw [h1]; norm_num
      unfold analyzeDisk
      simp [h2, h3, h4, h5]
    · intro h1
      have h5 : ¬ disk.UsagePercent > 85 := by rw [h1]; norm_num
      rw [analyzeDisk_tags]
      simp [h5]


theorem analyzeCPUMemory_tags (report : ServerReport) :
    (analyzeCPUMemory report []).map Issue.tag =
      (if report.CPU.Load1 > 2 * (report.CPU.CoreCount : ℚ) then [("critical", "cpu")] else []) ++
        (if report.CPU.IowaitPercent > 30 then [("warning", "cpu")] else []) ++
        (if report.CPU.BlockedTasks > 10 then [("warning", "cpu")] else []) ++
        (if report.Memory.UsagePercent > 90 then [("critical", "memory")] else []) ++
        (if report.Memory.SwapPercent > 50 then [("warning", "memory")] else []) ++
        (if Contains report.Memory.Pressure.data "some".data ∨
            Contains report.Memory.Pressure.data "full".data
          then [("critical", "memory")] else []) := by
  unfold analyzeCPUMemory
  rw [mul_comm]
  simp only [Bool.or_eq_true]
  split_ifs <;> simp [Issue.tag]

theorem parseMemoryMetrics_pressure (meminfo memPressure : String) :
    (parseMemoryMetrics meminfo memPressure).Pressure = "none" ∨
      (parseMemoryMetrics meminfo memPressure).Pressure = "some" ∨
      (parseMemoryMetrics meminfo memPressure).Pressure = "full" := by
  unfold parseMemoryMetrics
  simp only []
  split_ifs
  · exact Or.inr (Or.inr rfl)
  · exact Or.inr (Or.inl rfl)
  · exact Or.inl rfl

theorem pressure_states (p : String) (h : p = "none" ∨ p = "some" ∨ p = "full") :
    (Contains p.data "some".data ∨ Contains p.data "full".data) ↔ (p = "some" ∨ p = "full") := by
  rcases h with h | h | h <;> subst h <;> decide

/-- Claim C6. For every server report, `analyzeIssues` appends first the issues of the CPU
and memory rules, one per satisfied rule and in rule order, and after them only issues of
other categories: critical `cpu` iff `Load1 > 2 * CoreCount`, warning `cpu` iff
`IowaitPercent > 30`, warning `cpu` iff `BlockedTasks > 10`, critical `memory` iff
`Memory.UsagePercent > 90`, warning `memory` iff `SwapPercent > 50`, critical `memory` iff
the pressure text contains `some` or `full`, which for each of the pressure states `none`,
`some`, `full` (the values `parseMemoryMetrics` gives the field) means that the state is
`some` or `full`. Every comparison is strict: a report with each value at its threshold
and pressure `none` yields no issue. -/
theorem host_cpu_memory_rules (report : ServerReport) :
    ∃ rest : List Issue,
      (analyzeIssues report).Issues = report.Issues ++ analyzeCPUMemory report [] ++ rest ∧
      (∀ i ∈ rest, i.Category ≠ "cpu" ∧ i.Category ≠ "memory") ∧
      (analyzeCPUMemory report []).map Issue.tag =
        (if report.CPU.Load1 > 2 * (report.CPU.CoreCount : ℚ) then [("critical", "cpu")] else []) ++
          (if report.CPU.IowaitPercent > 30 then [("warning", "cpu")] else []) ++
          (if report.CPU.BlockedTasks > 10 then [("warning", "cpu")] else []) ++
          (if report.Memory.UsagePercent > 90 then [("critical", "memory")] else []) ++
          (if report.Memory.SwapPercent > 50 then [("warning", "memory")] else []) ++
          (if Contains report.Memory.Pressure.data "some".data ∨
              Contains report.Memory.Pressure.data "full".data
            then [("critical", "memory")] else []) ∧
      ((report.Memory.Pressure = "none" ∨ report.Memory.Pressure = "some" ∨
          report.Memory.Pressure = "full") →
        ((Contains report.Memory.Pressure.data "some".data ∨
            Contains report.Memory.Pressure.data "full".data) ↔
          (report.Memory.Pressure = "some" ∨ report.Memory.Pressure = "full"))) ∧
      (∀ meminfo memPressure : String,
        (parseMemoryMetrics meminfo memPressure).Pressure = "none" ∨
          (parseMemoryMetrics meminfo memPressure).Pressure = "some" ∨
          (parseMemoryMetrics meminfo memPressure).Pressure = "full") ∧
      (report.CPU.Load1 = 2 * (report.CPU.CoreCount : ℚ) → report.CPU.IowaitPercent = 30 →
        report.CPU.BlockedTasks = 10 → report.Memory.UsagePercent = 90 →
        report.Memory.SwapPercent = 50 → report.Memory.Pressure = "none" →
        analyzeCPUMemory report [] = []) := by
  refine ⟨report.Disk.flatMap (analyzeDisk []) ++
      report.Network.Interfaces.flatMap (analyzeInterface []) ++ analyzeTCPSystem report [],
    ?_, ?_, analyzeCPUMemory_tags report, pressure_states _, parseMemoryMetrics_pressure, ?_⟩
  · rw [analyzeIssues_blocks]; simp [List.append_assoc]
  · intro i hi
    simp only [List.mem_append, List.mem_flatMap] at hi
    rcases hi with (⟨a, _, h⟩ | ⟨a, _, h⟩) | h
    · rw [analyzeDisk_category a i h]; decide
    · rw [analyzeInterface_category a i h]; decide
    · rcases analyzeTCPSystem_category report i h with h | h <;> rw [h] <;> decide
  · intro h1 h2 h3 h4 h5 h6
    have := analyzeCPUMemory_tags report
    rw [h1, h2, h3, h4, h5, h6] at this
    have hp : ¬ (Contains "none".data "some".data = true ∨ Contains "none".data "full".data = true) := by
      decide
    simpa [hp] using this

theorem analyzeInterface_tags (iface : NetworkInterface) :
    (analyzeInterface [] iface).map Issue.tag =
      if iface.ErrorRate > 1 / 100 then [("warning", "network")] else [] := by
  unfold analyzeInterface
  split_ifs <;> simp [Issue.tag]

theorem analyzeTCPSystem_tags (report : ServerReport) :
    (analyzeTCPSystem report []).map Issue.tag =
      (if report.Network.TCPConnections.RetransmitRate > 5 / 100
          then [("warning", "network")] else []) ++
        (if report.Network.TCPConnections.TimeWait > 10000 then [("info", "network")] else []) ++
        (if report.System.FileHandlesPercent > 80 then [("warning", "system")] else []) ++
        (if report.System.TimeOffset > 5 ∨ report.System.TimeOffset < -5
          then [("warning", "system")] else []) := by
  unfold analyzeTCPSystem
  split_ifs <;> simp [Issue.tag]

/-- Claim C7. For every server report, `analyzeIssues` appends, after issues of other
categories, for each interface in order one warning `network` issue iff its
`ErrorRate > 0.01`, and then one warning `network` issue iff `RetransmitRate > 0.05`, one
info `network` issue iff `TimeWait > 10000`, one warning `system` issue iff
`FileHandlesPercent > 80` and one warning `system` issue iff `TimeOffset > 5` or
`TimeOffset < -5`; an offset of exactly 5 or -5 raises no offset issue. -/
theorem host_network_system_rules (report : ServerReport) :
    ∃ before : List Issue,
      (analyzeIssues report).Issues =
        report.Issues ++ before ++ report.Network.Interfaces.flatMap (analyzeInterface []) ++
          analyzeTCPSystem report [] ∧
      (∀ i ∈ before, i.Category ≠ "network" ∧ i.Category ≠ "system") ∧
      (∀ iface : NetworkInterface,
        (∀ issues, analyzeInterface issues iface = issues ++ analyzeInterface [] iface) ∧
        (analyzeInterface [] iface).map Issue.tag =
          if iface.ErrorRate > 1 / 100 then [("warning", "network")] else []) ∧
      (analyzeTCPSystem report []).map Issue.tag =
        (if report.Network.TCPConnections.RetransmitRate > 5 / 100
            then [("warning", "network")] else []) ++
          (if report.Network.TCPConnections.TimeWait > 10000 then [("info", "network")] else []) ++
          (if report.System.FileHandlesPercent > 80 then [("warning", "system")] else []) ++
          (if report.System.TimeOffset > 5 ∨ report.System.TimeOffset < -5
            then [("warning", "system")] else []) ∧
      ((report.System.TimeOffset = 5 ∨ report.System.TimeOffset = -5) →
        (analyzeTCPSystem report []).map Issue.tag =
          (if report.Network.TCPConnections.RetransmitRate > 5 / 100
              then [("warning", "network")] else []) ++
            (if report.Network.TCPConnections.TimeWait > 10000 then [("info", "network")] else []) ++
            (if report.System.FileHandlesPercent > 80 then [("warning", "system")] else [])) := by
  refine ⟨analyzeCPUMemory report [] ++ report.Disk.flatMap (analyzeDisk []), ?_, ?_,
    fun iface => ⟨fun issues => analyzeInterface_append issues iface, analyzeInterface_tags iface⟩,
    analyzeTCPSystem_tags report, ?_⟩
  · rw [analyzeIssues_blocks]; simp [List.append_assoc]
  · intro i hi
    simp only [List.mem_append, List.mem_flatMap] at hi
    rcases hi with h | ⟨a, _, h⟩
    · rcases analyzeCPUMemory_category report i h with h | h <;> rw [h] <;> decide
    · rw [analyzeDisk_category a i h]; decide
  · intro h
    have hn : ¬ (report.System.TimeOffset > 5 ∨ report.System.TimeOffset < -5) := by
      rcases h with h | h <;> rw [h] <;> norm_num
    rw [analyzeTCPSystem_tags, if_neg hn, List.append_nil]

namespace K8s

theorem analyzeNode_append (issues : List Issue) (node : NodeMetrics) :
    analyzeNode issues node = issues ++ analyzeNode [] node := by
  unfold analyzeNode
  split_ifs <;> simp

theorem analyzeControlPlane_append (report : K8sReport) (issues : List Issue) :
    analyzeControlPlane report issues = issues ++ analyzeControlPlane report [] := by
  unfold analyzeControlPlane
  split_ifs <;> simp

theorem analyzePodRules_append (issues : List Issue) (pod : PodMetrics) :
    analyzePodRules issues pod = issues ++ analyzePodRules [] pod := by
  unfold analyzePodRules
  split_ifs <;> simp

theorem foldl_analyzePod (pods : List PodMetrics) (st : PodLoop) :
    pods.foldl analyzePod st =
      { issues := st.issues ++ pods.flatMap (analyzePodRules []),
        crashLoopPods := countCrashLoop st.crashLoopPods pods } := by
  induction pods generalizing st with
  | nil => simp [countCrashLoop]
  | cons p ps ih =>
    rw [List.foldl_cons, ih]
    simp only [analyzePod, countCrashLoop, List.foldl_cons, List.flatMap_cons]
    rw [analyzePodRules_append]
    simp [List.append_assoc]

theorem cluster_analyzeIssues_blocks (report : K8sReport) :
    (analyzeIssues report).Issues =
      report.Issues ++ report.Nodes.flatMap (analyzeNode []) ++ analyzeControlPlane report [] ++
        report.Pods.flatMap (analyzePodRules []) ++
        crashLoopSummary (countCrashLoop 0 report.Pods) := by
  unfold analyzeIssues
  simp only [foldl_analyzePod]
  rw [analyzeControlPlane_append, foldl_append_body _ analyzeNode_append]
  unfold crashLoopSummary
  split_ifs <;> simp [List.append_assoc]

theorem analyzeNode_tags (node : NodeMetrics) :
    (analyzeNode [] node).map Issue.tag =
      (if node.Ready = false then [("critical", "node")] else []) ++
        (if node.CPUPercent > 80 then [("warning", "node")] else []) ++
        (if node.MemoryPercent > 85 then [("warning", "node")] else []) ++
        (if node.PodPercent > 90 then [("warning", "node")] else []) := by
  unfold analyzeNode
  cases node.Ready <;> simp only [Bool.not_false, Bool.not_true] <;> split_ifs <;> simp [Issue.tag]

theorem analyzeControlPlane_tags (report : K8sReport) :
    (analyzeControlPlane report []).map Issue.tag =
      (if report.APIServerStatus.Healthy = false then [("critical", "apiserver")] else []) ++
        (if report.EtcdStatus.Healthy = false then [("critical", "etcd")] else []) ++
        (if report.ControllerStatus.Healthy = false then [("critical", "controller")] else []) ++
        (if report.SchedulerStatus.Healthy = false then [("critical", "scheduler")] else []) := by
  unfold analyzeControlPlane
  cases report.APIServerStatus.Healthy <;> cases report.EtcdStatus.Healthy <;>
    cases report.ControllerStatus.Healthy <;> cases report.SchedulerStatus.Healthy <;>
    simp [Issue.tag]

theorem analyzePodRules_tags (pod : PodMetrics) :
    (analyzePodRules [] pod).map Issue.tag =
      (if pod.Phase = "Pending" ∧ pod.Age > 300 then [("warning", "pod")] else []) ++
        (if pod.RestartCount > 5 then [("warning", "pod")] else []) ++
        (if pod.Phase = "Running" ∧ pod.Ready = false then [("warning", "pod")] else []) := by
  unfold analyzePodRules
  cases pod.Ready <;> simp only [Bool.not_false, Bool.not_true] <;> split_ifs <;>
    simp_all [Issue.tag]

theorem tags_category {l : List Issue} {ts : List (String × String)} (h : l.map Issue.tag = ts) :
    ∀ i ∈ l, (i.Level, i.Category) ∈ ts := by
  intro i hi
  rw [← h]
  exact List.mem_map.mpr ⟨i, hi, rfl⟩


theorem analyzeNode_category (node : NodeMetrics) :
    ∀ i ∈ analyzeNode [] node, i.Category = "node" := by
  unfold analyzeNode
  split_ifs <;> simp

theorem analyzeControlPlane_category (report : K8sReport) :
    ∀ i ∈ analyzeControlPlane report [],
      i.Category = "apiserver" ∨ i.Category = "etcd" ∨ i.Category = "controller" ∨
        i.Category = "scheduler" := by
  unfold analyzeControlPlane
  split_ifs <;> simp

theorem analyzePodRules_category (pod : PodMetrics) :
    ∀ i ∈ analyzePodRules [] pod, i.Category = "pod" := by
  unfold analyzePodRules
  split_ifs <;> simp

theorem crashLoopSummary_tag (count : Int) :
    ∀ i ∈ crashLoopSummary count, i.Level = "critical" ∧ i.Category = "pod" := by
  unfold crashLoopSummary
  split_ifs <;> simp

/-- Claim C8. For every cluster report, the cluster `analyzeIssues` appends first, for
each node of `report.Nodes` in order, the issues of that node, and after them no issue of
category `node`. The issues of a node are one per satisfied node rule, in rule order, all
of category `node`: critical iff the node is not ready, warning iff `CPUPercent > 80`,
warning iff `MemoryPercent > 85`, warning iff `PodPercent > 90`. A node that is not ready
and satisfies no other rule yields exactly one critical issue; with `CPUPercent = 85` in
addition it yields that critical issue and one warning. -/
theorem cluster_node_rules (report : K8sReport) :
    ∃ rest : List Issue,
      (analyzeIssues report).Issues =
        report.Issues ++ report.Nodes.flatMap (analyzeNode []) ++ rest ∧
      (∀ i ∈ rest, i.Category ≠ "node") ∧
      ∀ node : NodeMetrics,
        (∀ issues, analyzeNode issues node = issues ++ analyzeNode [] node) ∧
        (analyzeNode [] node).map Issue.tag =
          (if node.Ready = false then [("critical", "node")] else []) ++
            (if node.CPUPercent > 80 then [("warning", "node")] else []) ++
            (if node.MemoryPercent > 85 then [("warning", "node")] else []) ++
            (if node.PodPercent > 90 then [("warning", "node")] else []) ∧
        (node.Ready = false → ¬ node.CPUPercent > 80 → ¬ node.MemoryPercent > 85 →
          ¬ node.PodPercent > 90 →
          (analyzeNode [] node).map Issue.tag = [("critical", "node")]) ∧
        (node.Ready = false → node.CPUPercent = 85 → ¬ node.MemoryPercent > 85 →
          ¬ node.PodPercent > 90 →
          (analyzeNode [] node).map Issue.tag = [("critical", "node"), ("warning", "node")]) := by
  refine ⟨analyzeControlPlane report [] ++ report.Pods.flatMap (analyzePodRules []) ++
      crashLoopSummary (countCrashLoop 0 report.Pods), ?_, ?_, ?_⟩
  · rw [cluster_analyzeIssues_blocks]; simp [List.append_assoc]
  · intro i hi
    simp only [List.mem_append, List.mem_flatMap] at hi
    rcases hi with (h | ⟨a, _, h⟩) | h
    · rcases analyzeControlPlane_category report i h with h | h | h | h <;> rw [h] <;> decide
    · rw [analyzePodRules_category a i h]; decide
    · rw [(crashLoopSummary_tag _ i h).2]; decide
  · intro node
    refine ⟨fun issues => analyzeNode_append issues node, analyzeNode_tags node, ?_, ?_⟩
    · intro h1 h2 h3 h4
      rw [analyzeNode_tags]; simp [h1, h2, h3, h4]
    · intro h1 h2 h3 h4
      have h5 : node.CPUPercent > 80 := by rw [h2]; norm_num
      rw [analyzeNode_tags]; simp [h1, h5, h3, h4]

/-- Claim C9. For every cluster report, the issues of categories `apiserver`, `etcd`,
`controller` and `scheduler` that the cluster `analyzeIssues` appends are exactly one
critical issue of the category for each of the four components whose `Healthy` flag is
false, in this order, and none for a component whose flag is true. -/
theorem cluster_control_plane_rules (report : K8sReport) :
    ∃ before after : List Issue,
      (analyzeIssues report).Issues =
        report.Issues ++ before ++ analyzeControlPlane report [] ++ after ∧
      (∀ i ∈ before ++ after,
        i.Category ≠ "apiserver" ∧ i.Category ≠ "etcd" ∧ i.Category ≠ "controller" ∧
          i.Category ≠ "scheduler") ∧
      (analyzeControlPlane report []).map Issue.tag =
        (if report.APIServerStatus.Healthy = false then [("critical", "apiserver")] else []) ++
          (if report.EtcdStatus.Healthy = false then [("critical", "etcd")] else []) ++
          (if report.ControllerStatus.Healthy = false then [("critical", "controller")] else []) ++
          (if report.SchedulerStatus.Healthy = false then [("critical", "scheduler")] else []) := by
  refine ⟨report.Nodes.flatMap (analyzeNode []),
    report.Pods.flatMap (analyzePodRules []) ++ crashLoopSummary (countCrashLoop 0 report.Pods),
    ?_, ?_, analyzeControlPlane_tags report⟩
  · rw [cluster_analyzeIssues_blocks]; simp [List.append_assoc]
  · intro i hi
    simp only [List.mem_append, List.mem_flatMap] at hi
    rcases hi with ⟨a, _, h⟩ | ⟨a, _, h⟩ | h
    · rw [analyzeNode_category a i h]; decide
    · rw [analyzePodRules_category a i h]; decide
    · rw [(crashLoopSummary_tag _ i h).2]; decide

/-- Claim C10. For every cluster report, the cluster `analyzeIssues` appends, for each
pod of `report.Pods` in order, one warning `pod` issue iff `Phase` is `Pending` and
`Age > 300`, one iff `RestartCount > 5`, and one iff `Phase` is `Running` and the pod is
not ready; it appends no other warning of category `pod`. A pod with `Age = 300` raises
nothing for the pending rule, a pod with `RestartCount = 5` nothing for the restart
rule. -/
theorem cluster_pod_rules (report : K8sReport) :
    ∃ before after : List Issue,
      (analyzeIssues report).Issues =
        report.Issues ++ before ++ report.Pods.flatMap (analyzePodRules []) ++ after ∧
      (∀ i ∈ before ++ after, ¬ (i.Level = "warning" ∧ i.Category = "pod")) ∧
      ∀ pod : PodMetrics,
        (∀ issues, analyzePodRules issues pod = issues ++ analyzePodRules [] pod) ∧
        (analyzePodRules [] pod).map Issue.tag =
          (if pod.Phase = "Pending" ∧ pod.Age > 300 then [("warning", "pod")] else []) ++
            (if pod.RestartCount > 5 then [("warning", "pod")] else []) ++
            (if pod.Phase = "Running" ∧ pod.Ready = false then [("warning", "pod")] else []) ∧
        (pod.Age = 300 →
          (analyzePodRules [] pod).map Issue.tag =
            (if pod.RestartCount > 5 then [("warning", "pod")] else []) ++
              (if pod.Phase = "Running" ∧ pod.Ready = false then [("warning", "pod")] else [])) ∧
        (pod.RestartCount = 5 →
          (analyzePodRules [] pod).map Issue.tag =
            (if pod.Phase = "Pending" ∧ pod.Age > 300 then [("warning", "pod")] else []) ++
              (if pod.Phase = "Running" ∧ pod.Ready = false then [("warning", "pod")] else [])) := by
  refine ⟨report.Nodes.flatMap (analyzeNode []) ++ analyzeControlPlane report [],
    crashLoopSummary (countCrashLoop 0 report.Pods), ?_, ?_, ?_⟩
  · rw [cluster_analyzeIssues_blocks]; simp [List.append_assoc]
  · intro i hi
    simp only [List.mem_append, List.mem_flatMap] at hi
    rintro ⟨hl, hc⟩
    rcases hi with (⟨a, _, h⟩ | h) | h
    · rw [analyzeNode_category a i h] at hc; revert hc; decide
    · rcases analyzeControlPlane_category report i h with h | h | h | h <;> rw [h] at hc <;>
        revert hc <;> decide
    · rw [(crashLoopSummary_tag _ i h).1] at hl; revert hl; decide
  · intro pod
    refine ⟨fun issues => analyzePodRules_append issues pod, analyzePodRules_tags pod, ?_, ?_⟩
    · intro h
      rw [analyzePodRules_tags, h]; simp
    · intro h
      rw [analyzePodRules_tags, h]; simp

end K8s

/-! ## Host rule engine: determinism and order -/

theorem InTableOrder_append (a b : List Issue) (k : Nat)
    (ha : InTableOrder a) (hb : InTableOrder b)
    (hak : ∀ x ∈ a, categoryRank x.Category ≤ k) (hbk : ∀ y ∈ b, k ≤ categoryRank y.Category) :
    InTableOrder (a ++ b) :=
  List.pairwise_append.mpr ⟨ha, hb, fun x hx y hy => (hak x hx).trans (hbk y hy)⟩

theorem InTableOrder_const (l : List Issue) (k : Nat)
    (h : ∀ x ∈ l, categoryRank x.Category = k) : InTableOrder l := by
  unfold InTableOrder
  rw [List.pairwise_iff_forall_sublist]
  intro a b hab
  have ha := h a (hab.subset (List.mem_cons_self _ _))
  have hb := h b (hab.subset (List.mem_cons_of_mem _ (List.mem_singleton_self _)))
  omega

theorem InTableOrder_of_tags (l : List Issue) (k : Nat → Prop)
    (h : (l.map Issue.tag).Pairwise (fun t u => categoryRank t.2 ≤ categoryRank u.2) ∧
      ∀ t ∈ l.map Issue.tag, k (categoryRank t.2)) :
    InTableOrder l ∧ ∀ x ∈ l, k (categoryRank x.Category) := by
  refine ⟨?_, ?_⟩
  · have := h.1
    rw [List.pairwise_map] at this
    exact this
  · intro x hx
    exact h.2 x.tag (List.mem_map_of_mem _ hx)

theorem analyzeCPUMemory_ranked (report : ServerReport) :
    InTableOrder (analyzeCPUMemory report []) ∧
      ∀ x ∈ analyzeCPUMemory report [], categoryRank x.Category ≤ 1 := by
  apply InTableOrder_of_tags _ (fun n => n ≤ 1)
  rw [analyzeCPUMemory_tags]
  split_ifs <;> decide

theorem analyzeTCPSystem_ranked (report : ServerReport) :
    InTableOrder (analyzeTCPSystem report []) ∧
      ∀ x ∈ analyzeTCPSystem report [], 3 ≤ categoryRank x.Category := by
  apply InTableOrder_of_tags _ (fun n => 3 ≤ n)
  rw [analyzeTCPSystem_tags]
  split_ifs <;> decide

theorem analyzeIssues_congr (r1 r2 : ServerReport) (hcpu : r1.CPU = r2.CPU)
    (hmem : r1.Memory = r2.Memory) (hdisk : r1.Disk = r2.Disk)
    (hnet : r1.Network = r2.Network) (hsys : r1.System = r2.System)
    (hissues : r1.Issues = r2.Issues) :
    (analyzeIssues r1).Issues = (analyzeIssues r2).Issues := by
  cases r1
  cases r2
  simp only at hcpu hmem hdisk hnet hsys hissues
  subst hcpu hmem hdisk hnet hsys hissues
  rfl

theorem analyzeDisk_block_ranked (disks : List DiskMetrics) :
    ∀ x ∈ disks.flatMap (analyzeDisk []), x.Category = "disk" := by
  intro x hx
  obtain ⟨d, _, hd⟩ := List.mem_flatMap.mp hx
  exact analyzeDisk_category d x hd

theorem analyzeInterface_block_ranked (ifaces : List NetworkInterface) :
    ∀ x ∈ ifaces.flatMap (analyzeInterface []), x.Category = "network" := by
  intro x hx
  obtain ⟨d, _, hd⟩ := List.mem_flatMap.mp hx
  exact analyzeInterface_category d x hd

theorem analyzeIssues_InTableOrder (report : ServerReport) (h : report.Issues = []) :
    InTableOrder (analyzeIssues report).Issues := by
  rw [analyzeIssues_blocks, h, List.nil_append]
  have hD := analyzeDisk_block_ranked report.Disk
  have hI := analyzeInterface_block_ranked report.Network.Interfaces
  have hCM := analyzeCPUMemory_ranked report
  have hTS := analyzeTCPSystem_ranked report
  have hDr : ∀ x ∈ report.Disk.flatMap (analyzeDisk []), categoryRank x.Category = 2 := by
    intro x hx
    rw [hD x hx]
    rfl
  have hIr : ∀ x ∈ report.Network.Interfaces.flatMap (analyzeInterface []),
      categoryRank x.Category = 3 := by
    intro x hx
    rw [hI x hx]
    rfl
  have h1 : ∀ x ∈ analyzeCPUMemory report [] ++ report.Disk.flatMap (analyzeDisk []),
      categoryRank x.Category ≤ 2 := by
    intro x hx
    rcases List.mem_append.mp hx with hx | hx
    · exact (hCM.2 x hx).trans (by decide)
    · exact (hDr x hx).le
  have h2 : ∀ x ∈ analyzeCPUMemory report [] ++ report.Disk.flatMap (analyzeDisk []) ++
      report.Network.Interfaces.flatMap (analyzeInterface []), categoryRank x.Category ≤ 3 := by
    intro x hx
    rcases List.mem_append.mp hx with hx | hx
    · exact (h1 x hx).trans (by decide)
    · exact (hIr x hx).le
  refine InTableOrder_append _ _ 3 (InTableOrder_append _ _ 3
    (InTableOrder_append _ _ 2 hCM.1 (InTableOrder_const _ 2 hDr) ?_ ?_)
    (InTableOrder_const _ 3 hIr) ?_ ?_) hTS.1 h2 hTS.2
  · exact fun x hx => (hCM.2 x hx).trans (by decide)
  · exact fun x hx => (hDr x hx).ge
  · exact fun x hx => (h1 x hx).trans (by decide)
  · exact fun x hx => (hIr x hx).ge

theorem analyzeIssues_disk_block (report : ServerReport) (h : report.Issues = []) :
    (analyzeIssues report).Issues.filter (fun i => decide (i.Category = "disk")) =
      report.Disk.flatMap (analyzeDisk []) := by
  rw [analyzeIssues_blocks, h, List.nil_append]
  simp only [List.filter_append]
  have e1 : (analyzeCPUMemory report []).filter (fun i => decide (i.Category = "disk")) = [] := by
    rw [List.filter_eq_nil_iff]
    intro x hx
    rcases analyzeCPUMemory_category report x hx with hc | hc <;> rw [hc] <;> decide
  have e2 : (report.Disk.flatMap (analyzeDisk [])).filter
      (fun i => decide (i.Category = "disk")) = report.Disk.flatMap (analyzeDisk []) := by
    rw [List.filter_eq_self]
    intro x hx
    rw [analyzeDisk_block_ranked _ x hx]
    decide
  have e3 : (report.Network.Interfaces.flatMap (analyzeInterface [])).filter
      (fun i => decide (i.Category = "disk")) = [] := by
    rw [List.filter_eq_nil_iff]
    intro x hx
    rw [analyzeInterface_block_ranked _ x hx]
    decide
  have e4 : (analyzeTCPSystem report []).filter (fun i => decide (i.Category = "disk")) = [] := by
    rw [List.filter_eq_nil_iff]
    intro x hx
    rcases analyzeTCPSystem_category report x hx with hc | hc <;> rw [hc] <;> decide
  rw [e1, e2, e3, e4, List.nil_append, List.append_nil, List.append_nil]

theorem analyzeIssues_categories (report : ServerReport) (h : report.Issues = []) :
    ∀ i ∈ (analyzeIssues report).Issues,
      i.Category ∈ ["cpu", "memory", "disk", "network", "system"] := by
  intro i hi
  rw [analyzeIssues_blocks, h, List.nil_append] at hi
  simp only [List.mem_append] at hi
  rcases hi with ((hi | hi) | hi) | hi
  · rcases analyzeCPUMemory_category report i hi with hc | hc <;> rw [hc] <;> decide
  · rw [analyzeDisk_block_ranked _ i hi]; decide
  · rw [analyzeInterface_block_ranked _ i hi]; decide
  · rcases analyzeTCPSystem_category report i hi with hc | hc <;> rw [hc] <;> decide

/-- Claim C11. For every two server reports with equal CPU, memory, disk, network and
system records and empty issue lists (host and OS information may differ), `analyzeIssues`
produces the same issue list: the same length and, position by position, the same level,
category, message, details and suggestion. The issues are in rule-table order: every issue
has category `cpu`, `memory`, `disk`, `network` or `system`, none comes before an issue of
an earlier category, the `disk` issues are those of the records of `report.Disk` in the
order of the records, and the issues of one record are in the order of the disk rules. -/
theorem host_rule_engine_deterministic (r1 r2 : ServerReport) (hcpu : r1.CPU = r2.CPU)
    (hmem : r1.Memory = r2.Memory) (hdisk : r1.Disk = r2.Disk)
    (hnet : r1.Network = r2.Network) (hsys : r1.System = r2.System)
    (h1 : r1.Issues = []) (h2 : r2.Issues = []) :
    (analyzeIssues r1).Issues = (analyzeIssues r2).Issues ∧
      InTableOrder (analyzeIssues r1).Issues ∧
      (∀ i ∈ (analyzeIssues r1).Issues,
        i.Category ∈ ["cpu", "memory", "disk", "network", "system"]) ∧
      (analyzeIssues r1).Issues.filter (fun i => decide (i.Category = "disk")) =
        r1.Disk.flatMap (analyzeDisk []) ∧
      ∀ disk : DiskMetrics,
        (analyzeDisk [] disk).map Issue.tag =
          (if disk.UsagePercent > 85 then [("critical", "disk")] else []) ++
            (if disk.InodesPercent > 80 then [("warning", "disk")] else []) ++
            (if disk.IOUtilPercent > 80 then [("warning", "disk")] else []) ++
            (if disk.IOErrors > 0 then [("critical", "disk")] else []) :=
  ⟨analyzeIssues_congr r1 r2 hcpu hmem hdisk hnet hsys (h1.trans h2.symm),
    analyzeIssues_InTableOrder r1 h1, analyzeIssues_categories r1 h1,
    analyzeIssues_disk_block r1 h1, analyzeDisk_tags⟩

/-- Claim C11 at two reports of different hosts with the same metric records. -/
theorem host_rule_engine_deterministic_witness :
    (analyzeIssues loadedHostA).Issues = (analyzeIssues loadedHostB).Issues ∧
      loadedHostA.Host ≠ loadedHostB.Host :=
  ⟨(host_rule_engine_deterministic loadedHostA loadedHostB rfl rfl rfl rfl rfl rfl rfl).1,
    by decide⟩

/-! ## Summary and combined run -/

theorem levelCount_le (level : String) (issues : List Issue) :
    levelCount level issues ≤ issues.length := List.length_filter_le _ _

theorem levelCount_append (level : String) (a b : List Issue) :
    levelCount level (a ++ b) = levelCount level a + levelCount level b := by
  unfold levelCount
  rw [List.filter_append, List.length_append]

theorem levelCount_single (level : String) (i : Issue) :
    levelCount level [i] = if i.Level = level then 1 else 0 := by
  unfold levelCount
  by_cases h : i.Level = level
  · rw [List.filter_cons_of_pos (by simpa using h), if_pos h]; rfl
  · rw [List.filter_cons_of_neg (by simpa using h), if_neg h]; rfl

theorem countIssue_Counted (s : InspectionSummary) (pre : List Issue) (issue : Issue)
    (h : s.Counted pre) (hlen : pre.length + 1 < 2 ^ 63) :
    (countIssue s issue).Counted (pre ++ [issue]) ∧ (countIssue s issue).Status = s.Status ∧
      (countIssue s issue).Messages = s.Messages := by
  obtain ⟨hT, hC, hW, hI⟩ := h
  have hc := levelCount_le "critical" pre
  have hw := levelCount_le "warning" pre
  have hi := levelCount_le "info" pre
  have e1 : wrapInt64 (s.TotalIssues + 1) = s.TotalIssues + 1 :=
    wrapInt64_of_range (by omega) (by omega)
  have e2 : wrapInt64 (s.CriticalIssues + 1) = s.CriticalIssues + 1 :=
    wrapInt64_of_range (by omega) (by omega)
  have e3 : wrapInt64 (s.WarningIssues + 1) = s.WarningIssues + 1 :=
    wrapInt64_of_range (by omega) (by omega)
  have e4 : wrapInt64 (s.InfoIssues + 1) = s.InfoIssues + 1 :=
    wrapInt64_of_range (by omega) (by omega)
  unfold InspectionSummary.Counted countIssue
  simp only [levelCount_append, levelCount_single, List.length_append, List.length_singleton,
    e1, e2, e3, e4]
  by_cases h1 : issue.Level = "critical"
  · have h2 : ¬ issue.Level = "warning" := by rw [h1]; decide
    have h3 : ¬ issue.Level = "info" := by rw [h1]; decide
    simp only [h1, h2, h3, if_true, if_false]
    refine ⟨⟨?_, ?_, ?_, ?_⟩, ?_, ?_⟩ <;> first | rfl | trivial | omega | (simp; omega) | simp
  · by_cases h2 : issue.Level = "warning"
    · have h3 : ¬ issue.Level = "info" := by rw [h2]; decide
      simp only [h1, h2, h3, if_true, if_false]
      refine ⟨⟨?_, ?_, ?_, ?_⟩, ?_, ?_⟩ <;> first | rfl | trivial | omega | (simp; omega) | simp
    · by_cases h3 : issue.Level = "info"
      · simp only [h1, h2, h3, if_true, if_false]
        refine ⟨⟨?_, ?_, ?_, ?_⟩, ?_, ?_⟩ <;> first | rfl | trivial | omega | (simp; omega) | simp
      · simp only [h1, h2, h3, if_false]
        refine ⟨⟨?_, ?_, ?_, ?_⟩, ?_, ?_⟩ <;> first | rfl | trivial | omega | (simp; omega) | simp

theorem messageLines_append (line : Issue → String) (a b : List Issue) :
    messageLines line (a ++ b) = messageLines line a ++ messageLines line b := by
  unfold messageLines
  rw [List.filter_append, List.map_append]

theorem messageLines_single (line : Issue → String) (i : Issue) :
    messageLines line [i] =
      if i.Level = "critical" ∨ i.Level = "warning" then [line i] else [] := by
  unfold messageLines
  by_cases h : i.Level = "critical" ∨ i.Level = "warning"
  · rw [List.filter_cons_of_pos (by simpa using h), if_pos h]; rfl
  · rw [List.filter_cons_of_neg (by simpa using h), if_neg h]; rfl

/-- The loop of `BuildInspectionSummary` over a list of issues, for either message
format: the counters count, the messages grow by one line per critical or warning issue,
the status is untouched. -/
theorem foldl_summarize (line : Issue → String) (issues pre : List Issue)
    (s : InspectionSummary) (h : s.Counted pre)
    (hlen : pre.length + issues.length < 2 ^ 63) :
    (issues.foldl
        (fun summary issue =>
          let summary := countIssue summary issue
          if issue.Level = "critical" ∨ issue.Level = "warning" then
            { summary with Messages := summary.Messages ++ [line issue] }
          else summary)
        s).Counted (pre ++ issues) ∧
      (issues.foldl
        (fun summary issue =>
          let summary := countIssue summary issue
          if issue.Level = "critical" ∨ issue.Level = "warning" then
            { summary with Messages := summary.Messages ++ [line issue] }
          else summary)
        s).Messages = s.Messages ++ messageLines line issues := by
  induction issues generalizing s pre with
  | nil => simpa [messageLines] using h
  | cons i rest ih =>
    rw [List.foldl_cons]
    rw [List.length_cons] at hlen
    obtain ⟨hc, _, hm⟩ := countIssue_Counted s pre i h (by omega)
    have hstep : (if i.Level = "critical" ∨ i.Level = "warning" then
          { countIssue s i with Messages := (countIssue s i).Messages ++ [line i] }
        else countIssue s i).Counted (pre ++ [i]) ∧
        (if i.Level = "critical" ∨ i.Level = "warning" then
          { countIssue s i with Messages := (countIssue s i).Messages ++ [line i] }
        else countIssue s i).Messages = s.Messages ++ messageLines line [i] := by
      rw [messageLines_single]
      split_ifs
      · exact ⟨hc, by rw [hm]⟩
      · exact ⟨hc, by rw [hm, List.append_nil]⟩
    have := ih (pre ++ [i]) _ hstep.1 (by rw [List.length_append, List.length_singleton]; omega)
    rw [List.append_assoc, List.singleton_append] at this
    refine ⟨this.1, ?_⟩
    rw [this.2, hstep.2, List.append_assoc, ← messageLines_append, List.singleton_append]

/-- The summary that `BuildInspectionSummary` writes, field by field. -/
theorem BuildInspectionSummary_fields (report : InspectionReport)
    (hlen : (allIssues report).length < 2 ^ 63) :
    (BuildInspectionSummary report).Summary.Counted (allIssues report) ∧
      (BuildInspectionSummary report).Summary.Messages = summaryMessages report ∧
      (BuildInspectionSummary report).Summary.Status =
        (if 0 < levelCount "critical" (allIssues report) then "critical"
          else if 0 < levelCount "warning" (allIssues report) then "warning" else "healthy") := by
  have key : ∀ s : InspectionSummary, s.Counted (allIssues report) →
      ((if s.CriticalIssues > 0 then { s with Status := "critical" }
        else if s.WarningIssues > 0 then { s with Status := "warning" }
        else { s with Status := "healthy" }).Counted (allIssues report) ∧
      (if s.CriticalIssues > 0 then { s with Status := "critical" }
        else if s.WarningIssues > 0 then { s with Status := "warning" }
        else { s with Status := "healthy" }).Messages = s.Messages ∧
      (if s.CriticalIssues > 0 then { s with Status := "critical" }
        else if s.WarningIssues > 0 then { s with Status := "warning" }
        else { s with Status := "healthy" }).Status =
        (if 0 < levelCount "critical" (allIssues report) then "critical"
          else if 0 < levelCount "warning" (allIssues report) then "warning"
          else "healthy")) := by
    intro s hs
    obtain ⟨_, hC, hW, _⟩ := id hs
    have c1 : s.CriticalIssues > 0 ↔ 0 < levelCount "critical" (allIssues report) := by
      rw [hC]; exact Int.natCast_pos
    have c2 : s.WarningIssues > 0 ↔ 0 < levelCount "warning" (allIssues report) := by
      rw [hW]; exact Int.natCast_pos
    by_cases h1 : 0 < levelCount "critical" (allIssues report)
    · rw [if_pos (c1.mpr h1), if_pos h1]; exact ⟨hs, rfl, rfl⟩
    · rw [if_neg (fun h => h1 (c1.mp h)), if_neg h1]
      by_cases h2 : 0 < levelCount "warning" (allIssues report)
      · rw [if_pos (c2.mpr h2), if_pos h2]; exact ⟨hs, rfl, rfl⟩
      · rw [if_neg (fun h => h2 (c2.mp h)), if_neg h2]; exact ⟨hs, rfl, rfl⟩
  have h0 : InspectionSummary.Counted { report.Summary with TotalIssues := 0, CriticalIssues := 0, WarningIssues := 0, InfoIssues := 0, Messages := [] } [] :=
    ⟨rfl, rfl, rfl, rfl⟩
  unfold allIssues at hlen
  unfold BuildInspectionSummary summaryMessages
  simp only []
  cases hs : report.ServerReport with
  | none =>
    cases hk : report.K8sReport with
    | none =>
      have hall : allIssues report = [] := by unfold allIssues; rw [hs, hk]; rfl
      have := key _ (hall ▸ h0)
      exact ⟨this.1, this.2.1, this.2.2⟩
    | some kr =>
      rw [hs, hk] at hlen
      have hall : allIssues report = [] ++ kr.Issues := by unfold allIssues; rw [hs, hk]
      have hf := foldl_summarize k8sLine kr.Issues [] _ h0 (by simpa using hlen)
      have := key _ (hall ▸ hf.1)
      refine ⟨this.1, ?_, this.2.2⟩
      exact this.2.1.trans hf.2
  | some sr =>
    cases hk : report.K8sReport with
    | none =>
      rw [hs, hk] at hlen
      have hall : allIssues report = [] ++ sr.Issues := by
        unfold allIssues; rw [hs, hk]; simp
      have hf := foldl_summarize (serverLine sr.Host) sr.Issues [] _ h0 (by simpa using hlen)
      have := key _ (hall ▸ hf.1)
      refine ⟨this.1, ?_, this.2.2⟩
      rw [List.append_nil]
      exact this.2.1.trans hf.2
    | some kr =>
      rw [hs, hk] at hlen
      have hall : allIssues report = ([] ++ sr.Issues) ++ kr.Issues := by
        unfold allIssues; rw [hs, hk]; simp
      have hf := foldl_summarize (serverLine sr.Host) sr.Issues [] _ h0
        (by simp only [List.length_append, List.length_nil] at hlen ⊢; omega)
      have hg := foldl_summarize k8sLine kr.Issues ([] ++ sr.Issues) _ hf.1
        (by simp only [List.length_append, List.length_nil] at hlen ⊢; omega)
      have := key _ (hall ▸ hg.1)
      refine ⟨this.1, ?_, this.2.2⟩
      refine this.2.1.trans (hg.2.trans ?_)
      rw [hf.2]
      rfl

theorem levelCount_pos_iff (level : String) (issues : List Issue) :
    0 < levelCount level issues ↔ ∃ i ∈ issues, i.Level = level := by
  unfold levelCount
  rw [List.length_pos_iff_exists_mem]
  constructor
  · rintro ⟨i, hi⟩
    have := List.mem_filter.mp hi
    exact ⟨i, this.1, by simpa using this.2⟩
  · rintro ⟨i, hi, hl⟩
    exact ⟨i, List.mem_filter.mpr ⟨hi, by simpa using hl⟩⟩

theorem InspectionSummary.ext_fields (a b : InspectionSummary)
    (h1 : a.TotalIssues = b.TotalIssues) (h2 : a.CriticalIssues = b.CriticalIssues)
    (h3 : a.WarningIssues = b.WarningIssues) (h4 : a.InfoIssues = b.InfoIssues)
    (h5 : a.Status = b.Status) (h6 : a.Messages = b.Messages) : a = b := by
  cases a; cases b; simp_all

/-- Claim C12. For every inspection report (with fewer than `2 ^ 63` issues, as every Go
slice has), after `BuildInspectionSummary` the status is `critical` if some issue of the
server or cluster report has level `critical`, otherwise `warning` if some issue has level
`warning`, otherwise `healthy`; and the whole summary is the same whatever the summary
held before. -/
theorem summary_status_rollup (report : InspectionReport)
    (hlen : (allIssues report).length < 2 ^ 63) :
    ((∃ i ∈ allIssues report, i.Level = "critical") →
        (BuildInspectionSummary report).Summary.Status = "critical") ∧
      ((¬ ∃ i ∈ allIssues report, i.Level = "critical") →
        (∃ i ∈ allIssues report, i.Level = "warning") →
        (BuildInspectionSummary report).Summary.Status = "warning") ∧
      ((¬ ∃ i ∈ allIssues report, i.Level = "critical") →
        (¬ ∃ i ∈ allIssues report, i.Level = "warning") →
        (BuildInspectionSummary report).Summary.Status = "healthy") ∧
      ∀ previous : InspectionSummary,
        (BuildInspectionSummary { report with Summary := previous }).Summary =
          (BuildInspectionSummary report).Summary := by
  obtain ⟨hc, hm, hs⟩ := BuildInspectionSummary_fields report hlen
  refine ⟨?_, ?_, ?_, ?_⟩
  · intro h
    rw [hs, if_pos ((levelCount_pos_iff _ _).mpr h)]
  · intro h1 h2
    rw [hs, if_neg (fun h => h1 ((levelCount_pos_iff _ _).mp h)),
      if_pos ((levelCount_pos_iff _ _).mpr h2)]
  · intro h1 h2
    rw [hs, if_neg (fun h => h1 ((levelCount_pos_iff _ _).mp h)),
      if_neg (fun h => h2 ((levelCount_pos_iff _ _).mp h))]
  · intro previous
    obtain ⟨hc', hm', hs'⟩ :=
      BuildInspectionSummary_fields { report with Summary := previous } hlen
    exact InspectionSummary.ext_fields _ _ (hc'.1.trans hc.1.symm)
      (hc'.2.1.trans hc.2.1.symm) (hc'.2.2.1.trans hc.2.2.1.symm)
      (hc'.2.2.2.trans hc.2.2.2.symm) (hs'.trans hs.symm) (hm'.trans hm.symm)

/-- Claim C12 at the report of `TestBuildInspectionSummary`, which has a critical issue. -/
theorem summary_status_rollup_witness :
    (BuildInspectionSummary testSummaryReport).Summary.Status = "critical" :=
  (summary_status_rollup testSummaryReport (by decide)).1
    ⟨{ Level := "critical", Category := "cpu", Message := "High CPU" }, by decide, rfl⟩

/-- Claim C13. For every inspection report (with fewer than `2 ^ 63` issues), after
`BuildInspectionSummary`: `TotalIssues` is the number of issues of the server report plus
the number of issues of the cluster report, an absent report counting as 0;
`CriticalIssues`, `WarningIssues` and `InfoIssues` are the numbers of those issues with
level `critical`, `warning` and `info`; `Messages` holds one line per critical or warning
issue, in issue order with the server issues first, and none for other issues. The report
of `TestBuildInspectionSummary` gives total 3, counts 1, 1, 1 and 2 messages. -/
theorem summary_counts_and_messages (report : InspectionReport)
    (hlen : (allIssues report).length < 2 ^ 63) :
    (BuildInspectionSummary report).Summary.TotalIssues =
        ((match report.ServerReport with | some sr => sr.Issues.length | none => 0) +
          (match report.K8sReport with | some kr => kr.Issues.length | none => 0) : Nat) ∧
      (BuildInspectionSummary report).Summary.CriticalIssues =
        levelCount "critical" (allIssues report) ∧
      (BuildInspectionSummary report).Summary.WarningIssues =
        levelCount "warning" (allIssues report) ∧
      (BuildInspectionSummary report).Summary.InfoIssues =
        levelCount "info" (allIssues report) ∧
      (BuildInspectionSummary report).Summary.Messages =
        (match report.ServerReport with
          | some sr =>
            (sr.Issues.filter fun i => i.Level = "critical" ∨ i.Level = "warning").map
              fun i => "[" ++ sr.Host ++ "/" ++ i.Category ++ "] " ++ i.Message
          | none => []) ++
        (match report.K8sReport with
          | some kr =>
            (kr.Issues.filter fun i => i.Level = "critical" ∨ i.Level = "warning").map
              fun i => "[k8s/" ++ i.Category ++ "] " ++ i.Message
          | none => []) ∧
      (BuildInspectionSummary testSummaryReport).Summary.TotalIssues = 3 ∧
      (BuildInspectionSummary testSummaryReport).Summary.CriticalIssues = 1 ∧
      (BuildInspectionSummary testSummaryReport).Summary.WarningIssues = 1 ∧
      (BuildInspectionSummary testSummaryReport).Summary.InfoIssues = 1 ∧
      (BuildInspectionSummary testSummaryReport).Summary.Messages =
        ["[test-server/cpu] High CPU", "[test-server/memory] High memory"] := by
  obtain ⟨hc, hm, _⟩ := BuildInspectionSummary_fields report hlen
  refine ⟨?_, hc.2.1, hc.2.2.1, hc.2.2.2, ?_, by decide, by decide, by decide, by decide,
    by decide⟩
  · rw [hc.1]
    unfold allIssues
    cases report.ServerReport <;> cases report.K8sReport <;> simp
  · rw [hm]
    rfl

/-- Claim C13 at the report of `TestBuildInspectionSummary`. -/
theorem summary_counts_and_messages_witness :
    (BuildInspectionSummary testSummaryReport).Summary.CriticalIssues =
        levelCount "critical" (allIssues testSummaryReport) ∧
      levelCount "critical" (allIssues testSummaryReport) = 1 :=
  ⟨(summary_counts_and_messages testSummaryReport (by decide)).2.1, by decide⟩

/-- Claim C14 as stated fails: a report whose only issue has level `info` contains an
issue, the worst level observed is `info`, and the status is `healthy`. -/
theorem info_only_report_is_healthy :
    allIssues infoOnlyReport = [{ Level := "info", Category := "network", Message := "Info" }] ∧
      (BuildInspectionSummary infoOnlyReport).Summary.Status = "healthy" ∧
      (BuildInspectionSummary infoOnlyReport).Summary.InfoIssues = 1 := by
  decide

/-- Claim C14, amended. For every inspection report (with fewer than `2 ^ 63` issues),
after `BuildInspectionSummary` the status is the worst of the levels `critical` and
`warning` observed among the issues, and it is `healthy` exactly when the report contains
no issue of level `critical` or `warning`; issues of level `info`, or of any other level,
do not count. -/
theorem summary_status_worst_of_critical_warning (report : InspectionReport)
    (hlen : (allIssues report).length < 2 ^ 63) :
    ((BuildInspectionSummary report).Summary.Status = "critical" ↔
        ∃ i ∈ allIssues report, i.Level = "critical") ∧
      ((BuildInspectionSummary report).Summary.Status = "warning" ↔
        (¬ ∃ i ∈ allIssues report, i.Level = "critical") ∧
          ∃ i ∈ allIssues report, i.Level = "warning") ∧
      ((BuildInspectionSummary report).Summary.Status = "healthy" ↔
        ∀ i ∈ allIssues report, i.Level ≠ "critical" ∧ i.Level ≠ "warning") := by
  obtain ⟨_, _, hs⟩ := BuildInspectionSummary_fields report hlen
  rw [hs]
  by_cases h1 : 0 < levelCount "critical" (allIssues report)
  · have e1 := (levelCount_pos_iff _ _).mp h1
    rw [if_pos h1]
    refine ⟨⟨fun _ => e1, fun _ => rfl⟩, ⟨fun h => absurd h (by decide), fun h => absurd e1 h.1⟩,
      ⟨fun h => absurd h (by decide), ?_⟩⟩
    intro h
    obtain ⟨i, hi, hl⟩ := e1
    exact absurd hl (h i hi).1
  · have n1 : ¬ ∃ i ∈ allIssues report, i.Level = "critical" :=
      fun h => h1 ((levelCount_pos_iff _ _).mpr h)
    rw [if_neg h1]
    by_cases h2 : 0 < levelCount "warning" (allIssues report)
    · have e2 := (levelCount_pos_iff _ _).mp h2
      rw [if_pos h2]
      refine ⟨⟨fun h => absurd h (by decide), fun h => absurd h n1⟩,
        ⟨fun _ => ⟨n1, e2⟩, fun _ => rfl⟩, ⟨fun h => absurd h (by decide), ?_⟩⟩
      intro h
      obtain ⟨i, hi, hl⟩ := e2
      exact absurd hl (h i hi).2
    · have n2 : ¬ ∃ i ∈ allIssues report, i.Level = "warning" :=
        fun h => h2 ((levelCount_pos_iff _ _).mpr h)
      rw [if_neg h2]
      refine ⟨⟨fun h => absurd h (by decide), fun h => absurd h n1⟩,
        ⟨fun h => absurd h (by decide), fun h => absurd h.2 n2⟩, ⟨fun _ => ?_, fun _ => rfl⟩⟩
      intro i hi
      exact ⟨fun hl => n1 ⟨i, hi, hl⟩, fun hl => n2 ⟨i, hi, hl⟩⟩

/-- The amended claim C14 at the report whose only issue has level `info`. -/
theorem summary_status_worst_of_critical_warning_witness :
    (BuildInspectionSummary infoOnlyReport).Summary.Status = "healthy" :=
  (summary_status_worst_of_critical_warning infoOnlyReport (by decide)).2.2.mpr (by decide)

theorem length_filterMap_isSome {α β : Type} (f : α → Option β) (l : List α) :
    (l.filterMap f).length = (l.filter fun a => (f a).isSome).length := by
  induction l with
  | nil => rfl
  | cons a l ih =>
    cases h : f a <;> simp [List.filterMap_cons, List.filter_cons, h, ih]

theorem foldl_inspectHost (attempt : String → HostOutcome) (hosts : List String)
    (reports : List ServerReport) :
    hosts.foldl (fun reports h => inspectHost (attempt h) reports) reports =
      reports ++ hosts.filterMap fun h => (attempt h).report? := by
  induction hosts generalizing reports with
  | nil => simp
  | cons h hs ih =>
    rw [List.foldl_cons, ih]
    cases hh : attempt h <;> simp [inspectHost, HostOutcome.report?, hh, List.filterMap_cons]

theorem inspectServersParallel_perm (completion : RangeOrder)
    (attempt : String → HostOutcome) (hosts : List String) :
    List.Perm (inspectServersParallel completion attempt hosts)
      (hosts.filterMap fun h => (attempt h).report?) := by
  unfold inspectServersParallel
  rw [foldl_inspectHost, List.nil_append]
  exact (completion.visit_perm _ hosts).filterMap _

/-- Claim C15 as stated fails: of two hosts, one of which cannot be reached, the collection
returned by `inspectServersParallel` has one entry, that of the host that was inspected. -/
theorem failed_host_is_left_out :
    (inspectServersParallel RangeOrder.stored oneHostFails ["10.0.0.1", "10.0.0.2"]).map
        (fun r => r.Host) = ["10.0.0.1"] ∧
      (["10.0.0.1", "10.0.0.2"] : List String).length = 2 := by
  decide

/-- Claim C15, amended. For every list of hosts and every mix of per-host outcomes, the
collection returned by `inspectServersParallel` holds exactly the reports of the hosts
whose inspection succeeded, in the order in which they completed: it is a rearrangement of
the reports of the successful hosts, a failed host has no entry, and the collection has as
many entries as there are hosts exactly when no host failed. -/
theorem fan_out_keeps_successful_hosts (completion : RangeOrder)
    (attempt : String → HostOutcome) (hosts : List String) :
    List.Perm (inspectServersParallel completion attempt hosts)
        (hosts.filterMap fun h => (attempt h).report?) ∧
      (inspectServersParallel completion attempt hosts).length =
        (hosts.filter fun h => (attempt h).report?.isSome).length ∧
      ((inspectServersParallel completion attempt hosts).length = hosts.length ↔
        ∀ h ∈ hosts, (attempt h).report?.isSome = true) := by
  have hperm := inspectServersParallel_perm completion attempt hosts
  have hlen : (inspectServersParallel completion attempt hosts).length =
      (hosts.filter fun h => (attempt h).report?.isSome).length := by
    rw [hperm.length_eq, length_filterMap_isSome]
  refine ⟨hperm, hlen, ?_⟩
  rw [hlen]
  exact List.filter_length_eq_length

/-- The summary of the combined run counts the issues of the first server report only,
plus those of the cluster report. -/
theorem runAllInspection_allIssues (k8sResult : Option K8sReport) (completion : RangeOrder)
    (attempt : String → HostOutcome) (hosts : List String) :
    ∃ full : InspectionReport,
      runAllInspection k8sResult completion attempt hosts = BuildInspectionSummary full ∧
      full.K8sReport = k8sResult ∧
      full.ServerReport = (inspectServersParallel completion attempt hosts).head? := by
  unfold runAllInspection
  simp only []
  have hnil : hosts.length = 0 → (inspectServersParallel completion attempt hosts).head? = none := by
    intro h
    have : hosts = [] := List.length_eq_zero.mp h
    subst this
    have hp := (inspectServersParallel_perm completion attempt [])
    rw [List.filterMap_nil] at hp
    rw [hp.eq_nil]
    rfl
  cases k8sResult with
  | none =>
    by_cases h0 : hosts.length = 0
    · rw [if_pos h0]
      exact ⟨_, rfl, rfl, (hnil h0).symm⟩
    · rw [if_neg h0]
      by_cases h1 : 0 < (inspectServersParallel completion attempt hosts).length
      · rw [if_pos h1]
        exact ⟨_, rfl, rfl, rfl⟩
      · rw [if_neg h1]
        refine ⟨_, rfl, rfl, ?_⟩
        have : inspectServersParallel completion attempt hosts = [] :=
          List.length_eq_zero.mp (by omega)
        rw [this]
        rfl
  | some kr =>
    by_cases h0 : hosts.length = 0
    · rw [if_pos h0]
      exact ⟨_, rfl, rfl, (hnil h0).symm⟩
    · rw [if_neg h0]
      by_cases h1 : 0 < (inspectServersParallel completion attempt hosts).length
      · rw [if_pos h1]
        exact ⟨_, rfl, rfl, rfl⟩
      · rw [if_neg h1]
        refine ⟨_, rfl, rfl, ?_⟩
        have : inspectServersParallel completion attempt hosts = [] :=
          List.length_eq_zero.mp (by omega)
        rw [this]
        rfl

/-- Claim C16 as stated fails: with two hosts inspected, one issue each, and no cluster
report, the server inspection prints a total of 2 issues, and the summary built from the
full report, which holds the first server report only, has `TotalIssues = 1`. -/
theorem combined_summary_counts_first_server_report_only :
    (inspectServersParallel RangeOrder.stored twoHostsOneIssueEach
        ["10.0.0.1", "10.0.0.2"]).map (fun r => r.Issues.length) = [1, 1] ∧
      printedServerIssues
        (inspectServersParallel RangeOrder.stored twoHostsOneIssueEach
          ["10.0.0.1", "10.0.0.2"]) = 2 ∧
      (runAllInspection none RangeOrder.stored twoHostsOneIssueEach
        ["10.0.0.1", "10.0.0.2"]).Summary.TotalIssues = 1 := by
  decide

/-! ## Host inspector -/

theorem analyzeIssues_metrics (report : ServerReport) :
    (analyzeIssues report).CPU = report.CPU ∧ (analyzeIssues report).Memory = report.Memory ∧
      (analyzeIssues report).Disk = report.Disk ∧
      (analyzeIssues report).Network = report.Network ∧
      (analyzeIssues report).System = report.System ∧
      (analyzeIssues report).Host = report.Host ∧ (analyzeIssues report).OS = report.OS :=
  ⟨rfl, rfl, rfl, rfl, rfl, rfl, rfl⟩

/-- Claim C17 fails on the code: with an executor on which every capture of the CPU,
memory, disk, network and system categories fails (only `hostname` answers), `Inspect`
returns a report and no error, whatever the library and the map order; the metric records
of that report are what the parsers make of the empty outputs of the failed captures. -/
theorem inspect_returns_report_when_captures_fail (lib : GoLibrary) (ord : RangeOrder) :
    (∀ n cmd, 4 ≤ n → (onlyHostnameAnswers n cmd).2 = some "Process exited with status 1") ∧
      ∃ report, Inspect lib ord onlyHostnameAnswers "10.0.0.1" "10.0.0.9" = .ok report ∧
        report.Host = "10.0.0.1" ∧
        report.CPU = parseCPUMetrics lib.floatValue "" "" "" "" ∧
        report.Memory = parseMemoryMetrics "" "" ∧
        report.Disk = parseDiskMetrics lib.floatValue ord "" "" "" "" "" ∧
        report.Network = parseNetworkMetrics ord "" "" "" "" "10.0.0.9" ∧
        report.System = parseSystemMetrics lib.floatValue "" "" "" "" "" "" := by
  refine ⟨?_, ?_⟩
  · intro n cmd hn
    unfold onlyHostnameAnswers
    rw [if_neg (by omega)]
  · exact ⟨_, rfl, rfl, rfl, rfl, rfl, rfl, rfl⟩

/-! ## Parsers: purity, empty input, TCP states -/

theorem foldl_joinStep_filter (io1 : GoMap IOStats) (device : String)
    (l : List (List Char × IOStats)) (d : DiskMetrics) (hd : d.Device = device) :
    l.foldl (joinStep io1) d = (l.filter (joins io1 device)).foldl (joinStep io1) d := by
  induction l generalizing d with
  | nil => rfl
  | cons e l ih =>
    rw [List.foldl_cons]
    by_cases hj : joins io1 device e = true
    · rw [List.filter_cons_of_pos hj, List.foldl_cons]
      exact ih _ ((joinStep_Device io1 d e).trans hd)
    · rw [List.filter_cons_of_neg hj]
      have : joinStep io1 d e = d := by
        apply joinStep_not_joined
        rintro ⟨s1, h1, h2⟩
        apply hj
        unfold joins
        rw [h1, ← hd, h2]
        rfl
      rw [this]
      exact ih d hd

theorem perm_length_le_one {α : Type} (a b : List α) (h : List.Perm a b)
    (hb : b.length ≤ 1) : a = b := by
  match b, hb with
  | [], _ => exact h.eq_nil
  | [x], _ => exact List.perm_singleton.mp h

theorem foldl_joinStep_order (io1 io2 : GoMap IOStats) (ord1 ord2 : RangeOrder)
    (d : DiskMetrics) (h : (io2.filter (joins io1 d.Device)).length ≤ 1) :
    (ord1.visit _ io2).foldl (joinStep io1) d = (ord2.visit _ io2).foldl (joinStep io1) d := by
  have e1 := foldl_joinStep_filter io1 d.Device (ord1.visit _ io2) d rfl
  have e2 := foldl_joinStep_filter io1 d.Device (ord2.visit _ io2) d rfl
  rw [perm_length_le_one _ _ ((ord1.visit_perm _ io2).filter _) h] at e1
  rw [perm_length_le_one _ _ ((ord2.visit_perm _ io2).filter _) h] at e2
  exact e1.trans e2.symm

/-- Claim C18 as stated fails: two evaluations of `parseDiskMetrics` on the same five
texts, one visiting the maps as stored and one backwards, differ. On a `df` output with
two rows and empty samples the two records come in different orders. On a `df` output
with the one row `/dev/sda1` and samples with `sda` and `sda1`, which both start the device
path, one evaluation reports 5 read operations per second and the other 50. -/
theorem disk_records_depend_on_map_order :
    (parseDiskMetrics (fun _ => 0) RangeOrder.stored dfTwoRows "" "" "" "").map
        (fun d => d.Device) = ["/dev/sda1", "/dev/sdb1"] ∧
      (parseDiskMetrics (fun _ => 0) RangeOrder.backwards dfTwoRows "" "" "" "").map
        (fun d => d.Device) = ["/dev/sdb1", "/dev/sda1"] ∧
      (parseDiskMetrics (fun _ => 0) RangeOrder.stored dfPartition ""
          diskstatsDiskAndPartitionFirst diskstatsDiskAndPartitionSecond "").map
        (fun d => (d.Device, d.ReadOpsPS)) = [("/dev/sda1", 5)] ∧
      (parseDiskMetrics (fun _ => 0) RangeOrder.backwards dfPartition ""
          diskstatsDiskAndPartitionFirst diskstatsDiskAndPartitionSecond "").map
        (fun d => (d.Device, d.ReadOpsPS)) = [("/dev/sda1", 50)] := by
  decide

/-- Claim C18, amended. For every input in which no `df` row is joined to more than one
diskstats device, two evaluations of `parseDiskMetrics` on the same five texts, whatever
the orders in which they visit the maps, return the same disk records with the same field
values, up to the order of the list: one list is a rearrangement of the other. -/
theorem disk_records_same_up_to_order (pf : FloatParser) (ord1 ord2 : RangeOrder)
    (df dfInodes iostat1 iostat2 ioErrors : String)
    (hjoin : JoinedAtMostOnce pf df dfInodes iostat1 iostat2) :
    List.Perm (parseDiskMetrics pf ord1 df dfInodes iostat1 iostat2 ioErrors)
      (parseDiskMetrics pf ord2 df dfInodes iostat1 iostat2 ioErrors) := by
  unfold parseDiskMetrics
  simp only []
  have hk := parseInodeRows_KeysNodup pf dfInodes _ (parseDfRows_KeysNodup pf df)
  rw [joinIOStats_eq _ _ _ _ hk, joinIOStats_eq _ _ _ _ hk]
  have heq : (parseInodeRows pf dfInodes (parseDfRows pf df)).map
      (fun x => (x.1, (ord1.visit _ (parseIOStats iostat2)).foldl
        (joinStep (parseIOStats iostat1)) x.2)) =
      (parseInodeRows pf dfInodes (parseDfRows pf df)).map
      (fun x => (x.1, (ord2.visit _ (parseIOStats iostat2)).foldl
        (joinStep (parseIOStats iostat1)) x.2)) := by
    apply List.map_congr_left
    intro x hx
    rw [foldl_joinStep_order _ _ ord1 ord2 x.2 (hjoin x hx)]
  rw [heq]
  exact ((ord1.visit_perm _ _).map _).trans ((ord2.visit_perm _ _).map _).symm

/-- The amended claim C18 at a `df` output with two rows and samples with the one device
`sda`, visited as stored and backwards. -/
theorem disk_records_same_up_to_order_witness :
    List.Perm
      (parseDiskMetrics (fun _ => 0) RangeOrder.stored dfTwoRows "" diskstatsFirst
        diskstatsSecond "")
      (parseDiskMetrics (fun _ => 0) RangeOrder.backwards dfTwoRows "" diskstatsFirst
        diskstatsSecond "") :=
  disk_records_same_up_to_order (fun _ => 0) RangeOrder.stored RangeOrder.backwards dfTwoRows
    "" diskstatsFirst diskstatsSecond "" (by unfold JoinedAtMostOnce; decide)

theorem RangeOrder.visit_nil (ord : RangeOrder) (α : Type) : ord.visit α [] = [] :=
  (ord.visit_perm α []).eq_nil

theorem parseDiskMetrics_empty (pf : FloatParser) (ord : RangeOrder) :
    parseDiskMetrics pf ord "" "" "" "" "" = [] := by
  have h1 : parseInodeRows pf "" (parseDfRows pf "") = [] := rfl
  have h2 : parseIOStats "" = [] := by decide
  unfold parseDiskMetrics joinIOStats
  simp only [h1, h2, RangeOrder.visit_nil, List.foldl_nil, List.map_nil]

theorem parseNetworkMetrics_empty (ord : RangeOrder) :
    parseNetworkMetrics ord "" "" "" "" "" = {} := by
  have h2 : parseNetDev "" = [] := by decide
  unfold parseNetworkMetrics joinNetDev
  simp only [h2, RangeOrder.visit_nil, List.foldl_nil]
  decide

/-- Claim C19 fails on the code: on empty input texts no parser fails and the CPU, memory,
disk and network parsers return the zero/default record (pressure `none`, no disk record,
no interface), but `parseSystemMetrics` returns `ProcessCount = -1` and
`ThreadCount = -1` (the header line is subtracted from a count of 0), its other numeric
fields being 0, the time offset whatever `strconv.ParseFloat` returns for the empty text,
and NTP not synced. -/
theorem empty_input_gives_negative_process_count (pf : FloatParser) (ord : RangeOrder) :
    parseCPUMetrics pf "" "" "" "" = {} ∧
      parseMemoryMetrics "" "" = { Pressure := "none" } ∧
      parseDiskMetrics pf ord "" "" "" "" "" = [] ∧
      parseNetworkMetrics ord "" "" "" "" "" = {} ∧
      parseSystemMetrics pf "" "" "" "" "" "" =
        { FileHandlesAllocated := 0, FileHandlesMax := 0, FileHandlesPercent := 0,
          ProcessCount := -1, ThreadCount := -1, TimeOffset := pf [], NTPSynced := false,
          KernelParams := [] } :=
  ⟨rfl, by decide, parseDiskMetrics_empty pf ord, parseNetworkMetrics_empty ord, rfl⟩

theorem parseTCPStats_eq (tcpStats : String) :
    parseTCPStats tcpStats = (tcpLines tcpStats).foldl tcpStep {} := rfl

theorem bucket_ite (c : Prop) [Decidable c] (a b : TCPStats) (label : String) :
    (if c then a else b).bucket label = if c then a.bucket label else b.bucket label := by
  split_ifs <;> rfl

theorem tcpStep_bucket (stats : TCPStats) (line : List Char) (label : String)
    (hl : label ∈ tcpLabels) :
    (tcpStep stats line).bucket label =
      if 2 ≤ (Fields line).length ∧ String.mk ((Fields line).getD 1 []) = label then
        Atoi ((Fields line).getD 0 [])
      else stats.bucket label := by
  unfold tcpStep
  simp only []
  by_cases h2 : 2 ≤ (Fields line).length
  · rw [if_pos h2]
    generalize String.mk ((Fields line).getD 1 []) = state
    generalize Atoi ((Fields line).getD 0 []) = count
    simp only [h2, true_and]
    simp only [tcpLabels, List.mem_cons, List.mem_singleton, List.not_mem_nil, or_false] at hl
    by_cases hs : state = label
    · rw [if_pos hs]
      subst hs
      rcases hl with h | h | h | h | h | h | h | h | h | h <;> subst h <;> rfl
    · rw [if_neg hs]
      rcases hl with h | h | h | h | h | h | h | h | h | h <;> subst h <;>
        simp only [bucket_ite, hs, if_false] <;>
        simp only [TCPStats.bucket, String.reduceEq, if_true, if_false, ite_self]
  · rw [if_neg h2, if_neg (fun h => h2 h.1)]

theorem tcpStep_rest (stats : TCPStats) (line : List Char) :
    (tcpStep stats line).Retransmits = stats.Retransmits ∧
      (tcpStep stats line).RetransmitRate = stats.RetransmitRate := by
  unfold tcpStep
  simp only [apply_ite TCPStats.Retransmits, apply_ite TCPStats.RetransmitRate, ite_self,
    and_self]

theorem foldl_tcpStep_rest (lines : List (List Char)) (stats : TCPStats) :
    (lines.foldl tcpStep stats).Retransmits = stats.Retransmits ∧
      (lines.foldl tcpStep stats).RetransmitRate = stats.RetransmitRate := by
  induction lines generalizing stats with
  | nil => exact ⟨rfl, rfl⟩
  | cons x xs ih =>
    rw [List.foldl_cons]
    exact ⟨(ih _).1.trans (tcpStep_rest stats x).1, (ih _).2.trans (tcpStep_rest stats x).2⟩

theorem foldl_tcpStep_bucket (label : String) (hl : label ∈ tcpLabels)
    (lines : List (List Char)) (stats : TCPStats) :
    (lines.foldl tcpStep stats).bucket label =
      match (labelRows label lines).getLast? with
      | some parts => Atoi (parts.getD 0 [])
      | none => stats.bucket label := by
  induction lines generalizing stats with
  | nil => rfl
  | cons x xs ih =>
    rw [List.foldl_cons, ih]
    have hstep := tcpStep_bucket stats x label hl
    unfold labelRows at *
    rw [List.map_cons]
    by_cases hp : 2 ≤ (Fields x).length ∧ String.mk ((Fields x).getD 1 []) = label
    · rw [if_pos hp] at hstep
      rw [List.filter_cons_of_pos (by simpa using hp)]
      cases hrest : List.filter (fun parts =>
          decide (2 ≤ parts.length) && decide (String.mk (parts.getD 1 []) = label))
          (List.map Fields xs) with
      | nil => simpa using hstep
      | cons b l =>
        rw [List.getLast?_cons_cons, List.getLast?_eq_getLast (b :: l) (List.cons_ne_nil b l)]
    · rw [if_neg hp] at hstep
      rw [List.filter_cons_of_neg (by simpa using hp), hstep]

/-- Claim C20. For every text and every recognised label: when exactly one line of the
text has at least two fields and that label as second field, the bucket of the label is
the number read from the first field of that line; when no line has, the bucket is 0;
lines with another label or fewer than two fields change no bucket, since every bucket
depends only on the lines of its label, and the two retransmit fields stay 0. A line made
of blanks, a decimal count below `2 ^ 63`, one blank and a label without blanks has the
two fields count and label, and the number read from the count is the count. On
`100 ESTAB / 50 TIME-WAIT / 10 SYN-SENT / 5 LISTEN` the result is Established = 100,
TimeWait = 50, SynSent = 10, Listen = 5 and 0 elsewhere, and the text of the test gives
in addition CloseWait = 2. -/
theorem tcp_stats_buckets_of_labelled_lines :
    (∀ (tcpStats label : String), label ∈ tcpLabels →
      (∀ parts, labelRows label (tcpLines tcpStats) = [parts] →
        (parseTCPStats tcpStats).bucket label = Atoi (parts.getD 0 [])) ∧
      (labelRows label (tcpLines tcpStats) = [] → (parseTCPStats tcpStats).bucket label = 0)) ∧
    (∀ tcpStats : String, (parseTCPStats tcpStats).Retransmits = 0 ∧
      (parseTCPStats tcpStats).RetransmitRate = 0) ∧
    (∀ (pad count : Nat) (label : List Char), count < 2 ^ 63 → label ≠ [] →
      (∀ c ∈ label, isSpace c = false) →
      Fields (List.replicate pad ' ' ++ ((Nat.repr count).data ++ ' ' :: label)) =
          [(Nat.repr count).data, label] ∧
        Atoi (Nat.repr count).data = count) ∧
    parseTCPStats "100 ESTAB\n50 TIME-WAIT\n10 SYN-SENT\n5 LISTEN" =
      { Established := 100, TimeWait := 50, SynSent := 10, Listen := 5 } ∧
    parseTCPStats testTCPStats =
      { Established := 100, TimeWait := 50, SynSent := 10, Listen := 5, CloseWait := 2 } := by
  refine ⟨?_, ?_, ?_, by decide, by decide⟩
  · intro tcpStats label hl
    have h := foldl_tcpStep_bucket label hl (tcpLines tcpStats) {}
    rw [← parseTCPStats_eq] at h
    constructor
    · intro parts hrows
      rw [h, hrows]
      rfl
    · intro hrows
      rw [h, hrows]
      simp only [tcpLabels, List.mem_cons, List.mem_singleton, List.not_mem_nil, or_false] at hl
      rcases hl with h | h | h | h | h | h | h | h | h | h <;> subst h <;> rfl
  · intro tcpStats
    rw [parseTCPStats_eq]
    exact foldl_tcpStep_rest _ _
  · intro pad count label hcount hne hlabel
    constructor
    · unfold Fields
      rw [splitOnP_spaces]
      have h2 : ∀ c ∈ (Nat.repr count).data, ¬ isSpace c = true := by
        intro c hc
        rw [isDigit_not_space c (toDigits_all_digits count c hc)]; simp
      rw [List.splitOnP_first isSpace _ h2 ' ' (by decide)]
      rw [List.filter_cons_of_pos (by simpa using toDigits_ne_nil count)]
      have h3 : ∀ c ∈ label, ¬ isSpace c = true := by
        intro c hc
        rw [hlabel c hc]; simp
      rw [List.splitOnP_eq_single isSpace label h3]
      rw [List.filter_cons_of_pos (by simpa using hne)]
      rfl
    · unfold Atoi
      rw [ParseInt_repr]
      have : (count : Int) < 2 ^ 63 := by exact_mod_cast hcount
      omega

/-! ## Parsers: interfaces by name, records by mount point, CPU line -/

theorem mapGet?_isSome_iff {V : Type} (m : GoMap V) (k : List Char) :
    (mapGet? m k).isSome = true ↔ k ∈ m.map Prod.fst := by
  induction m with
  | nil => simp [mapGet?]
  | cons e rest ih =>
    obtain ⟨a, b⟩ := e
    unfold mapGet?
    by_cases h : a = k
    · rw [if_pos h]
      subst h
      exact ⟨fun _ => List.mem_cons_self _ _, fun _ => rfl⟩
    · rw [if_neg h, ih]
      simp only [List.map_cons, List.mem_cons]
      constructor
      · exact Or.inr
      · rintro (h1 | h1)
        · exact absurd h1.symm h
        · exact h1

theorem mem_mapSet_keys {V : Type} (m : GoMap V) (k k' : List Char) (v : V) :
    k' ∈ (mapSet m k v).map Prod.fst ↔ k' = k ∨ k' ∈ m.map Prod.fst := by
  rw [mapSet_keys]
  split_ifs with h
  · constructor
    · exact Or.inr
    · rintro (h1 | h1)
      · rw [h1]; exact h
      · exact h1
  · rw [List.mem_append, List.mem_singleton]
    exact Or.comm

theorem parseNetDev_keys_from (lines : List (List Char)) (i : Nat) (s : GoMap NetDevStats)
    (k : List Char) :
    k ∈ (rangeFold
      (fun (stats : GoMap NetDevStats) i line =>
        if i ≤ 1 then stats
        else
          let parts := Fields line
          if 17 ≤ parts.length then
            mapSet stats (TrimSuffix (parts.getD 0 []) [':'])
              { RxBytes := ParseInt (parts.getD 1 []),
                RxPackets := ParseInt (parts.getD 2 []),
                RxErrors := ParseInt (parts.getD 3 []),
                RxDropped := ParseInt (parts.getD 4 []),
                TxBytes := ParseInt (parts.getD 9 []),
                TxPackets := ParseInt (parts.getD 10 []),
                TxErrors := ParseInt (parts.getD 11 []),
                TxDropped := ParseInt (parts.getD 12 []) }
          else stats)
      i lines s).map Prod.fst ↔
    k ∈ s.map Prod.fst ∨
      k ∈ ((((lines.drop (2 - i)).map Fields).filter
        fun parts => decide (17 ≤ parts.length)).map
          fun parts => TrimSuffix (parts.getD 0 []) [':']) := by
  induction lines generalizing i s with
  | nil =>
    unfold rangeFold
    simp only [List.drop_nil, List.map_nil, List.filter_nil, List.not_mem_nil, or_false]
  | cons x xs ih =>
    unfold rangeFold
    rw [ih]
    by_cases hi : i ≤ 1
    · rw [if_pos hi]
      have e : 2 - i = (2 - (i + 1)) + 1 := by omega
      rw [e, List.drop_succ_cons]
    · rw [if_neg hi]
      have e1 : 2 - (i + 1) = 0 := by omega
      have e2 : 2 - i = 0 := by omega
      rw [e1, e2, List.drop_zero, List.drop_zero, List.map_cons]
      simp only []
      by_cases h17 : 17 ≤ (Fields x).length
      · rw [if_pos h17, List.filter_cons_of_pos (by simpa using h17), List.map_cons,
          List.mem_cons, mem_mapSet_keys]
        tauto
      · rw [if_neg h17, List.filter_cons_of_neg (by simpa using h17)]

theorem parseNetDev_keys (netdev : String) (k : List Char) :
    k ∈ (parseNetDev netdev).map Prod.fst ↔ k ∈ netDevNames netdev := by
  unfold parseNetDev netDevNames
  rw [parseNetDev_keys_from]
  simp only [List.map_nil, List.not_mem_nil, false_or, Nat.sub_zero]

theorem joinNetDev_names (netdev1Map : GoMap NetDevStats) (l : List (List Char × NetDevStats))
    (metrics : NetworkMetrics) :
    ((l.foldl
        (fun metrics entry =>
          if entry.1 = "lo".data then metrics
          else
            match mapGet? netdev1Map entry.1 with
            | some stats1 =>
              let iface := makeInterface entry.1 stats1 entry.2
              { metrics with
                Interfaces := metrics.Interfaces ++ [iface],
                PacketErrors :=
                  wrapInt64 (metrics.PacketErrors + wrapInt64 (iface.RxErrors + iface.TxErrors)),
                PacketDrops :=
                  wrapInt64 (metrics.PacketDrops + wrapInt64 (iface.RxDropped + iface.TxDropped)) }
            | none => metrics)
        metrics).Interfaces.map fun iface => iface.Name) =
      (metrics.Interfaces.map fun iface => iface.Name) ++
        ((l.map Prod.fst).filter fun k =>
          decide (k ≠ "lo".data) && (mapGet? netdev1Map k).isSome).map String.mk := by
  induction l generalizing metrics with
  | nil => simp only [List.foldl_nil, List.map_nil, List.filter_nil, List.append_nil]
  | cons e l ih =>
    rw [List.foldl_cons, ih, List.map_cons]
    by_cases hlo : e.1 = "lo".data
    · rw [if_pos hlo, List.filter_cons_of_neg (by simp [hlo])]
    · rw [if_neg hlo]
      cases hget : mapGet? netdev1Map e.1 with
      | none =>
        rw [List.filter_cons_of_neg (by simp [hget])]
      | some s1 =>
        rw [List.filter_cons_of_pos (by simp [hlo, hget])]
        simp only [List.map_append, List.map_cons, List.map_nil, List.append_assoc,
          List.singleton_append, (makeInterface_fields e.1 s1 e.2).1]

/-- Claim C21. For every pair of `/proc/net/dev` samples, the interface records returned by
`parseNetworkMetrics` have pairwise distinct names, and a name is the name of a record
exactly when it is not `lo` and is the name of a well-formed row (at least 17 fields,
after the two header lines) of the first sample and of the second sample. On samples with
`lo` and `eth0` in both, `eth1` well-formed only in the first and `eth2` only in the
second, the only record is that of `eth0`. -/
theorem network_interfaces_joined_by_name (ord : RangeOrder)
    (netdev1 netdev2 tcpStats netstat localIP : String) :
    ((parseNetworkMetrics ord netdev1 netdev2 tcpStats netstat localIP).Interfaces.map
        fun iface => iface.Name).Nodup ∧
      (∀ name : List Char,
        String.mk name ∈
            (parseNetworkMetrics ord netdev1 netdev2 tcpStats netstat localIP).Interfaces.map
              (fun iface => iface.Name) ↔
          name ≠ "lo".data ∧ name ∈ netDevNames netdev1 ∧ name ∈ netDevNames netdev2) ∧
      (∀ iface ∈ (parseNetworkMetrics ord netdev1 netdev2 tcpStats netstat localIP).Interfaces,
        ∃ name, iface.Name = String.mk name) ∧
      (parseNetworkMetrics RangeOrder.stored netdevThreeFirst netdevThreeSecond "" ""
        "").Interfaces.map (fun iface => iface.Name) = ["eth0"] ∧
      (parseNetworkMetrics RangeOrder.backwards netdevThreeFirst netdevThreeSecond "" ""
        "").Interfaces.map (fun iface => iface.Name) = ["eth0"] := by
  have hnames : (parseNetworkMetrics ord netdev1 netdev2 tcpStats netstat localIP).Interfaces.map
      (fun iface => iface.Name) =
      (((ord.visit _ (parseNetDev netdev2)).map Prod.fst).filter fun k =>
        decide (k ≠ "lo".data) && (mapGet? (parseNetDev netdev1) k).isSome).map String.mk := by
    exact joinNetDev_names (parseNetDev netdev1) (ord.visit _ (parseNetDev netdev2))
      { Interfaces := [] }
  have hperm : List.Perm ((ord.visit _ (parseNetDev netdev2)).map Prod.fst)
      ((parseNetDev netdev2).map Prod.fst) := (ord.visit_perm _ _).map _
  have hinj : Function.Injective String.mk := fun a b h => by injection h
  refine ⟨?_, ?_, ?_, by decide, by decide⟩
  · rw [hnames]
    exact List.Nodup.map hinj
      (List.Nodup.filter _ (hperm.nodup_iff.mpr (parseNetDev_KeysNodup netdev2)))
  · intro name
    rw [hnames, List.mem_map_of_injective hinj, List.mem_filter, hperm.mem_iff,
      parseNetDev_keys, Bool.and_eq_true, decide_eq_true_eq, mapGet?_isSome_iff,
      parseNetDev_keys]
    tauto
  · intro iface hiface
    obtain ⟨name, _, _, _, _, _, h⟩ := mem_parseNetworkMetrics ord netdev1 netdev2 tcpStats
      netstat localIP iface hiface
    exact ⟨name, by rw [h, (makeInterface_fields _ _ _).1]⟩

theorem parseDfRows_keys_from (pf : FloatParser) (lines : List (List Char)) (i : Nat)
    (s : GoMap DiskMetrics) (k : List Char) :
    k ∈ (rangeFold
      (fun (dfMap : GoMap DiskMetrics) i line =>
        if i = 0 then dfMap
        else
          let parts := Fields line
          if 6 ≤ parts.length then
            let disk : DiskMetrics :=
              { Device := String.mk (parts.getD 0 []),
                MountPoint := String.mk (parts.getD 5 []),
                FsType := String.mk (parts.getD 1 []) }
            let totalStr := TrimSuffix (parts.getD 1 []) ['G']
            let usedStr := TrimSuffix (parts.getD 2 []) ['G']
            let freeStr := TrimSuffix (parts.getD 3 []) ['G']
            let disk := { disk with TotalGB := pf totalStr, UsedGB := pf usedStr, FreeGB := pf freeStr }
            let usePercentStr := TrimSuffix (parts.getD 4 []) ['%']
            let disk := { disk with UsagePercent := pf usePercentStr }
            mapSet dfMap (parts.getD 5 []) disk
          else dfMap)
      i lines s).map Prod.fst ↔
    k ∈ s.map Prod.fst ∨
      k ∈ ((((lines.drop (1 - i)).map Fields).filter
        fun parts => decide (6 ≤ parts.length)).map fun parts => parts.getD 5 []) := by
  induction lines generalizing i s with
  | nil =>
    unfold rangeFold
    simp only [List.drop_nil, List.map_nil, List.filter_nil, List.not_mem_nil, or_false]
  | cons x xs ih =>
    unfold rangeFold
    rw [ih]
    by_cases hi : i = 0
    · rw [if_pos hi, hi]
      rfl
    · rw [if_neg hi]
      have e1 : 1 - (i + 1) = 0 := by omega
      have e2 : 1 - i = 0 := by omega
      rw [e1, e2, List.drop_zero, List.drop_zero, List.map_cons]
      simp only []
      by_cases h6 : 6 ≤ (Fields x).length
      · rw [if_pos h6, List.filter_cons_of_pos (by simpa using h6), List.map_cons,
          List.mem_cons, mem_mapSet_keys]
        tauto
      · rw [if_neg h6, List.filter_cons_of_neg (by simpa using h6)]

theorem parseDfRows_keys (pf : FloatParser) (df : String) (k : List Char) :
    k ∈ (parseDfRows pf df).map Prod.fst ↔ k ∈ dfMounts df := by
  unfold parseDfRows dfMounts dfRows
  rw [parseDfRows_keys_from]
  simp only [List.map_nil, List.not_mem_nil, false_or, Nat.sub_zero]

theorem parseDfRows_entries (pf : FloatParser) (df : String) :
    ∀ e ∈ parseDfRows pf df, e.2.MountPoint = String.mk e.1 ∧ InodesFrom pf none e.2 := by
  unfold parseDfRows
  apply rangeFold_invariant
    (fun m : GoMap DiskMetrics => ∀ e ∈ m, e.2.MountPoint = String.mk e.1 ∧ InodesFrom pf none e.2)
  · intro s i line hs
    simp only []
    split_ifs
    · exact hs
    · intro e he
      rcases mem_mapSet _ _ _ _ he with h | h
      · rw [h]
        exact ⟨rfl, rfl, rfl, rfl, rfl⟩
      · exact hs e h
    · exact hs
  · intro e he
    cases he

theorem inodeBody_eq (pf : FloatParser) (m : GoMap DiskMetrics) (hm : KeysNodup m)
    (parts : List (List Char)) :
    (if 6 ≤ parts.length then
      let mountPoint := parts.getD 5 []
      match mapGet? m mountPoint with
      | some disk =>
        let disk :=
          { disk with
            InodesTotal := ParseInt (parts.getD 1 []),
            InodesUsed := ParseInt (parts.getD 2 []),
            InodesFree := ParseInt (parts.getD 3 []) }
        let inodePercentStr := TrimSuffix (parts.getD 4 []) ['%']
        let disk := { disk with InodesPercent := pf inodePercentStr }
        mapSet m mountPoint disk
      | none => m
    else m) = m.map (fun x => (x.1, inodeStep pf x.1 x.2 parts)) := by
  by_cases h6 : 6 ≤ parts.length
  · rw [if_pos h6]
    simp only []
    cases hget : mapGet? m (parts.getD 5 []) with
    | none =>
      simp only []
      symm
      apply map_eq_self
      intro x hx
      have hne : ¬ (6 ≤ parts.length ∧ parts.getD 5 [] = x.1) := by
        rintro ⟨_, hk⟩
        have := mapGet?_of_mem m hm x.1 x.2 hx
        rw [← hk, hget] at this
        cases this
      unfold inodeStep
      rw [if_neg hne]
    | some disk =>
      simp only []
      have hmem := mem_of_mapGet? m _ _ hget
      rw [mapSet_eq_map m _ _ (List.mem_map.mpr ⟨_, hmem, rfl⟩) hm]
      apply List.map_congr_left
      intro x hx
      unfold inodeStep
      by_cases hk : x.1 = parts.getD 5 []
      · rw [if_pos hk, if_pos ⟨h6, hk.symm⟩]
        have hx2 : x = (parts.getD 5 [], disk) := entry_unique m hm x _ hx hmem hk
        rw [hx2]
      · rw [if_neg hk, if_neg (fun h => hk h.2.symm)]
  · rw [if_neg h6]
    symm
    apply map_eq_self
    intro x _
    unfold inodeStep
    rw [if_neg (fun h => h6 h.1)]

theorem parseInodeRows_from (pf : FloatParser) (lines : List (List Char)) (i : Nat)
    (m : GoMap DiskMetrics) (hm : KeysNodup m) :
    rangeFold
      (fun (dfMap : GoMap DiskMetrics) i line =>
        if i = 0 then dfMap
        else
          let parts := Fields line
          if 6 ≤ parts.length then
            let mountPoint := parts.getD 5 []
            match mapGet? dfMap mountPoint with
            | some disk =>
              let disk :=
                { disk with
                  InodesTotal := ParseInt (parts.getD 1 []),
                  InodesUsed := ParseInt (parts.getD 2 []),
                  InodesFree := ParseInt (parts.getD 3 []) }
              let inodePercentStr := TrimSuffix (parts.getD 4 []) ['%']
              let disk := { disk with InodesPercent := pf inodePercentStr }
              mapSet dfMap mountPoint disk
            | none => dfMap
          else dfMap)
      i lines m =
    m.map (fun x => (x.1, ((lines.drop (1 - i)).map Fields).foldl (inodeStep pf x.1) x.2)) := by
  induction lines generalizing i m with
  | nil =>
    unfold rangeFold
    simp only [List.drop_nil, List.map_nil, List.foldl_nil]
    exact (map_eq_self _ m (fun _ _ => rfl)).symm
  | cons x xs ih =>
    unfold rangeFold
    by_cases hi : i = 0
    · rw [if_pos hi, ih _ _ hm, hi]
      rfl
    · rw [if_neg hi]
      have e1 : 1 - (i + 1) = 0 := by omega
      have e2 : 1 - i = 0 := by omega
      have hb := inodeBody_eq pf m hm (Fields x)
      refine Eq.trans (congrArg (rangeFold _ (i + 1) xs) hb) ?_
      rw [ih _ _ (KeysNodup_map m (fun y => (y.1, inodeStep pf y.1 y.2 (Fields x)))
        (fun _ => rfl) hm), List.map_map, e1, e2]
      rfl

theorem parseInodeRows_eq (pf : FloatParser) (dfInodes : String) (m : GoMap DiskMetrics)
    (hm : KeysNodup m) :
    parseInodeRows pf dfInodes m =
      m.map (fun x => (x.1, (dfRows dfInodes).foldl (inodeStep pf x.1) x.2)) := by
  unfold parseInodeRows dfRows
  exact parseInodeRows_from pf _ 0 m hm

theorem foldl_inodeStep (pf : FloatParser) (mount : List Char)
    (rows : List (List (List Char))) (disk : DiskMetrics) :
    (rows.foldl (inodeStep pf mount) disk).MountPoint = disk.MountPoint ∧
      (rows.foldl (inodeStep pf mount) disk).Device = disk.Device ∧
      ((rows.filter fun parts =>
          decide (6 ≤ parts.length) && decide (parts.getD 5 [] = mount)).getLast? = none →
        rows.foldl (inodeStep pf mount) disk = disk) ∧
      ∀ parts, (rows.filter fun parts =>
          decide (6 ≤ parts.length) && decide (parts.getD 5 [] = mount)).getLast? = some parts →
        InodesFrom pf (some parts) (rows.foldl (inodeStep pf mount) disk) := by
  induction rows using List.reverseRecOn with
  | nil =>
    refine ⟨rfl, rfl, fun _ => rfl, ?_⟩
    intro parts h
    cases h
  | append_singleton rows row ih =>
    rw [List.foldl_append, List.foldl_cons, List.foldl_nil, List.filter_append]
    by_cases hrow : 6 ≤ row.length ∧ row.getD 5 [] = mount
    · have hstep : ∀ d, inodeStep pf mount d row =
          { d with
            InodesTotal := ParseInt (row.getD 1 []),
            InodesUsed := ParseInt (row.getD 2 []),
            InodesFree := ParseInt (row.getD 3 []),
            InodesPercent := pf (TrimSuffix (row.getD 4 []) ['%']) } := by
        intro d
        unfold inodeStep
        rw [if_pos hrow]
      rw [hstep, List.filter_cons_of_pos (by simpa using hrow), List.filter_nil,
        List.getLast?_append, List.getLast?_singleton]
      refine ⟨ih.1, ih.2.1, ?_, ?_⟩
      · intro h
        cases h
      · intro parts h
        have h' : some row = some parts := h
        injection h' with h'
        rw [← h']
        exact ⟨rfl, rfl, rfl, rfl⟩
    · have hstep : ∀ d, inodeStep pf mount d row = d := by
        intro d
        unfold inodeStep
        rw [if_neg hrow]
      rw [hstep, List.filter_cons_of_neg (by simpa using hrow), List.filter_nil,
        List.append_nil]
      exact ih

theorem applyIOStats_kept (s1 s2 : IOStats) (d : DiskMetrics) :
    (applyIOStats s1 s2 d).MountPoint = d.MountPoint ∧
      (applyIOStats s1 s2 d).InodesTotal = d.InodesTotal ∧
      (applyIOStats s1 s2 d).InodesUsed = d.InodesUsed ∧
      (applyIOStats s1 s2 d).InodesFree = d.InodesFree ∧
      (applyIOStats s1 s2 d).InodesPercent = d.InodesPercent ∧
      (applyIOStats s1 s2 d).IOErrors = d.IOErrors := by
  unfold applyIOStats
  simp only []
  split_ifs <;> exact ⟨rfl, rfl, rfl, rfl, rfl, rfl⟩

theorem foldl_joinStep_kept (io1 : GoMap IOStats) (l : List (List Char × IOStats))
    (d : DiskMetrics) :
    (l.foldl (joinStep io1) d).MountPoint = d.MountPoint ∧
      (l.foldl (joinStep io1) d).InodesTotal = d.InodesTotal ∧
      (l.foldl (joinStep io1) d).InodesUsed = d.InodesUsed ∧
      (l.foldl (joinStep io1) d).InodesFree = d.InodesFree ∧
      (l.foldl (joinStep io1) d).InodesPercent = d.InodesPercent ∧
      (l.foldl (joinStep io1) d).IOErrors = d.IOErrors := by
  induction l generalizing d with
  | nil => exact ⟨rfl, rfl, rfl, rfl, rfl, rfl⟩
  | cons e l ih =>
    rw [List.foldl_cons]
    have hstep : (joinStep io1 d e).MountPoint = d.MountPoint ∧
        (joinStep io1 d e).InodesTotal = d.InodesTotal ∧
        (joinStep io1 d e).InodesUsed = d.InodesUsed ∧
        (joinStep io1 d e).InodesFree = d.InodesFree ∧
        (joinStep io1 d e).InodesPercent = d.InodesPercent ∧
        (joinStep io1 d e).IOErrors = d.IOErrors := by
      unfold joinStep
      split
      · split_ifs
        · exact applyIOStats_kept _ _ _
        · exact ⟨rfl, rfl, rfl, rfl, rfl, rfl⟩
      · exact ⟨rfl, rfl, rfl, rfl, rfl, rfl⟩
    have := ih (joinStep io1 d e)
    exact ⟨this.1.trans hstep.1, this.2.1.trans hstep.2.1, this.2.2.1.trans hstep.2.2.1,
      this.2.2.2.1.trans hstep.2.2.2.1, this.2.2.2.2.1.trans hstep.2.2.2.2.1,
      this.2.2.2.2.2.trans hstep.2.2.2.2.2⟩

theorem parseDiskMetrics_perm (pf : FloatParser) (ord : RangeOrder)
    (df dfInodes iostat1 iostat2 ioErrors : String) :
    List.Perm (parseDiskMetrics pf ord df dfInodes iostat1 iostat2 ioErrors)
      ((parseDfRows pf df).map fun x =>
        (ord.visit _ (parseIOStats iostat2)).foldl (joinStep (parseIOStats iostat1))
          ((dfRows dfInodes).foldl (inodeStep pf x.1) x.2)) := by
  unfold parseDiskMetrics
  simp only []
  have hk := parseDfRows_KeysNodup pf df
  rw [joinIOStats_eq _ _ _ _ (parseInodeRows_KeysNodup pf dfInodes _ hk),
    parseInodeRows_eq pf dfInodes _ hk, List.map_map]
  refine ((ord.visit_perm _ _).map _).trans ?_
  rw [List.map_map]
  exact List.Perm.refl _

theorem InodesFrom_congr (pf : FloatParser) (row : Option (List (List Char)))
    (a b : DiskMetrics) (h1 : a.InodesTotal = b.InodesTotal) (h2 : a.InodesUsed = b.InodesUsed)
    (h3 : a.InodesFree = b.InodesFree) (h4 : a.InodesPercent = b.InodesPercent)
    (h : InodesFrom pf row b) : InodesFrom pf row a := by
  unfold InodesFrom at *
  rw [h1, h2, h3, h4]
  exact h

/-- Claim C22. For every `df` and `df -i` output (and any diskstats samples), the records
returned by `parseDiskMetrics` have pairwise distinct mount points, and a mount point is
that of a record exactly when it is the 6th column of a `df` row after the header line
with at least 6 columns: rows with fewer columns and rows of `df -i` create no record. The
inode fields of the record of a mount point are read from the `df -i` row after the header
line with at least 6 columns and that mount point (the last one, should there be several),
and are 0 when there is no such row. -/
theorem disk_records_by_mount_point (pf : FloatParser) (ord : RangeOrder)
    (df dfInodes iostat1 iostat2 ioErrors : String) :
    ((parseDiskMetrics pf ord df dfInodes iostat1 iostat2 ioErrors).map
        fun disk => disk.MountPoint).Nodup ∧
      (∀ mount : List Char,
        String.mk mount ∈ (parseDiskMetrics pf ord df dfInodes iostat1 iostat2 ioErrors).map
            (fun disk => disk.MountPoint) ↔
          mount ∈ dfMounts df) ∧
      (∀ disk ∈ parseDiskMetrics pf ord df dfInodes iostat1 iostat2 ioErrors,
        ∃ mount, disk.MountPoint = String.mk mount ∧ mount ∈ dfMounts df ∧
          InodesFrom pf (inodeRows dfInodes mount).getLast? disk) ∧
      (parseDiskMetrics (fun _ => 0) RangeOrder.stored dfMountsSample dfInodesSample "" ""
          "").map (fun disk => (disk.MountPoint, disk.Device, disk.InodesTotal)) =
        [("/", "/dev/sdd1", 1000), ("/data", "/dev/sdb1", 0)] := by
  have hperm := parseDiskMetrics_perm pf ord df dfInodes iostat1 iostat2 ioErrors
  have hinj : Function.Injective String.mk := fun a b h => by injection h
  have hmounts : List.Perm
      ((parseDiskMetrics pf ord df dfInodes iostat1 iostat2 ioErrors).map
        fun disk => disk.MountPoint)
      (((parseDfRows pf df).map Prod.fst).map String.mk) := by
    refine (hperm.map _).trans ?_
    rw [List.map_map, List.map_map]
    refine List.Perm.of_eq (List.map_congr_left ?_)
    intro x hx
    simp only [Function.comp]
    rw [(foldl_joinStep_kept _ _ _).1, (foldl_inodeStep pf x.1 _ x.2).1,
      (parseDfRows_entries pf df x hx).1]
  refine ⟨?_, ?_, ?_, by decide⟩
  · exact hmounts.nodup_iff.mpr (List.Nodup.map hinj (parseDfRows_KeysNodup pf df))
  · intro mount
    rw [hmounts.mem_iff, List.mem_map_of_injective hinj, parseDfRows_keys]
  · intro disk hdisk
    obtain ⟨x, hx, rfl⟩ := List.mem_map.mp (hperm.subset hdisk)
    have hent := parseDfRows_entries pf df x hx
    have hfold := foldl_inodeStep pf x.1 (dfRows dfInodes) x.2
    have hkept := foldl_joinStep_kept (parseIOStats iostat1)
      (ord.visit _ (parseIOStats iostat2)) ((dfRows dfInodes).foldl (inodeStep pf x.1) x.2)
    refine ⟨x.1, ?_, ?_, ?_⟩
    · rw [hkept.1, hfold.1, hent.1]
    · exact (parseDfRows_keys pf df x.1).mp (List.mem_map_of_mem _ hx)
    · apply InodesFrom_congr pf _ _ _ hkept.2.1 hkept.2.2.1 hkept.2.2.2.1 hkept.2.2.2.2.1
      unfold inodeRows
      cases hlast : ((dfRows dfInodes).filter fun parts =>
          decide (6 ≤ parts.length) && decide (parts.getD 5 [] = x.1)).getLast? with
      | none =>
        rw [hfold.2.2.1 hlast]
        exact hent.2
      | some parts => exact hfold.2.2.2 parts hlast

/-- Claim C23 fails on the code for the user percentage: on the documented `top` line the
first comma-separated part is `%Cpu(s):  5.0 us`, whose first field is `%Cpu(s):`, so
`UserPercent` is what `strconv.ParseFloat` returns for the text `%Cpu(s):` and not for
`5.0`. The other fields are read from the numbers of their parts: system from `2.1`, idle
from `92.5`, iowait from `0.3`, steal from `0.0`, usage is 100 minus idle, and the core
count is 8, the load read from `2.5`, the run queue 3 and the blocked tasks 1. -/
theorem cpu_user_percent_read_from_label (pf : FloatParser) :
    (parseCPUMetrics pf "8" "2.5 2.0 1.5 1/100 12345" testCpuUsage testVmstat).UserPercent =
        pf "%Cpu(s):".data ∧
      parseCPUMetrics pf "8" "2.5 2.0 1.5 1/100 12345" testCpuUsage testVmstat =
        { CoreCount := 8, Load1 := pf "2.5".data, Load5 := pf "2.0".data,
          Load15 := pf "1.5".data, UsagePercent := 100 - pf "92.5".data,
          UserPercent := pf "%Cpu(s):".data, SystemPercent := pf "2.1".data,
          IdlePercent := pf "92.5".data, IowaitPercent := pf "0.3".data,
          StealPercent := pf "0.0".data, ContextSwitches := 12345678, Interrupts := 9876543,
          RunQueue := 3, BlockedTasks := 1 } :=
  ⟨rfl, rfl⟩

/-! ## Cluster parsers -/

namespace K8s

theorem foldl_parseNodeCondition_Ready (l : List corev1.NodeCondition) (nm : NodeMetrics) :
    (l.foldl parseNodeCondition nm).Ready =
      (nm.Ready || l.any fun c => decide (c.Type_ = "Ready" ∧ c.Status = "True")) := by
  induction l generalizing nm with
  | nil => simp
  | cons c l ih =>
    rw [List.foldl_cons, ih, List.any_cons]
    unfold parseNodeCondition
    simp only []
    by_cases h : c.Type_ = "Ready" ∧ c.Status = "True"
    · rw [if_pos h, decide_eq_true h]
      simp
    · rw [if_neg h, decide_eq_false h]
      simp

theorem parseNodeMetrics_Ready (node : corev1.Node) (metrics : Option metricsv1beta1.Usage)
    (podCount : Int) :
    (parseNodeMetrics node metrics podCount).Ready =
      node.Conditions.any fun c => decide (c.Type_ = "Ready" ∧ c.Status = "True") := by
  have htaints : ∀ (l : List corev1.Taint) (nm : NodeMetrics),
      (l.foldl
        (fun (nm : NodeMetrics) (taint : corev1.Taint) =>
          { nm with
            Taints := nm.Taints ++ [taint.Key ++ "=" ++ taint.Value ++ ":" ++ taint.Effect] })
        nm).Ready = nm.Ready := by
    intro l
    induction l with
    | nil => intro nm; rfl
    | cons t l ih => intro nm; rw [List.foldl_cons, ih]
  unfold parseNodeMetrics
  simp only []
  cases metrics with
  | none =>
    simp only []
    split_ifs <;> simp only [htaints, foldl_parseNodeCondition_Ready, Bool.false_or]
  | some usage =>
    simp only []
    split_ifs <;> simp only [htaints, foldl_parseNodeCondition_Ready, Bool.false_or]

/-- Claim C24. For every node object (and any node metrics and pod count), the record
returned by `parseNodeMetrics` has `Ready` true exactly when the condition list of the node
contains a condition of type `Ready` whose status is `True`; a node with no Ready
condition, or whose Ready conditions all have status `False` or `Unknown`, has `Ready`
false. -/
theorem node_ready_iff_ready_condition (node : corev1.Node)
    (metrics : Option metricsv1beta1.Usage) (podCount : Int) :
    ((parseNodeMetrics node metrics podCount).Ready = true ↔
        ∃ c ∈ node.Conditions, c.Type_ = "Ready" ∧ c.Status = "True") ∧
      ((∀ c ∈ node.Conditions, c.Type_ = "Ready" → c.Status = "False" ∨ c.Status = "Unknown") →
        (parseNodeMetrics node metrics podCount).Ready = false) ∧
      (parseNodeMetrics nodeReadyUnknown none 0).Ready = false ∧
      (parseNodeMetrics nodeReadyTrue none 0).Ready = true := by
  have hiff : (parseNodeMetrics node metrics podCount).Ready = true ↔
      ∃ c ∈ node.Conditions, c.Type_ = "Ready" ∧ c.Status = "True" := by
    rw [parseNodeMetrics_Ready, List.any_eq_true]
    constructor
    · rintro ⟨c, hc, h⟩
      exact ⟨c, hc, of_decide_eq_true h⟩
    · rintro ⟨c, hc, h⟩
      exact ⟨c, hc, decide_eq_true h⟩
  refine ⟨hiff, ?_, by decide, by decide⟩
  intro hall
  cases hr : (parseNodeMetrics node metrics podCount).Ready with
  | false => rfl
  | true =>
    obtain ⟨c, hc, h1, h2⟩ := hiff.mp hr
    rcases hall c hc h1 with h | h <;> rw [h2] at h <;> exact absurd h (by decide)

theorem foldl_parseContainerStatus (l : List corev1.ContainerStatus) (st : Int × PodMetrics) :
    (l.foldl parseContainerStatus st).1 =
        l.foldl (fun n cs => wrapInt64 (n + cs.RestartCount)) st.1 ∧
      (l.foldl parseContainerStatus st).2 =
        { st.2 with Ready := st.2.Ready || l.any fun cs => cs.Ready } := by
  induction l generalizing st with
  | nil => simp
  | cons cs l ih =>
    rw [List.foldl_cons, List.foldl_cons, List.any_cons, (ih _).1, (ih _).2]
    unfold parseContainerStatus
    simp only []
    cases hr : cs.Ready with
    | true => simp
    | false => simp

theorem parsePodMetrics_Ready (pod : corev1.Pod) (metrics : Option (List metricsv1beta1.Usage)) :
    (parsePodMetrics pod metrics).Ready = (pod.ContainerStatuses.any fun cs => cs.Ready) ∧
      (parsePodMetrics pod metrics).RestartCount =
        pod.ContainerStatuses.foldl (fun n cs => wrapInt64 (n + cs.RestartCount)) 0 := by
  have hres : ∀ (l : List corev1.Container) (pm : PodMetrics),
      (l.foldl parseContainerResources pm).Ready = pm.Ready ∧
        (l.foldl parseContainerResources pm).RestartCount = pm.RestartCount := by
    intro l
    induction l with
    | nil => intro pm; exact ⟨rfl, rfl⟩
    | cons c l ih =>
      intro pm
      rw [List.foldl_cons, (ih _).1, (ih _).2]
      unfold parseContainerResources
      cases c.Requests <;> cases c.Limits <;> exact ⟨rfl, rfl⟩
  have huse : ∀ (l : List metricsv1beta1.Usage) (pm : PodMetrics),
      (l.foldl
        (fun (pm : PodMetrics) (usage : metricsv1beta1.Usage) =>
          { pm with CPUUsage := usage.Cpu.String_, MemoryUsage := usage.Memory.String_ })
        pm).Ready = pm.Ready ∧
      (l.foldl
        (fun (pm : PodMetrics) (usage : metricsv1beta1.Usage) =>
          { pm with CPUUsage := usage.Cpu.String_, MemoryUsage := usage.Memory.String_ })
        pm).RestartCount = pm.RestartCount := by
    intro l
    induction l with
    | nil => intro pm; exact ⟨rfl, rfl⟩
    | cons c l ih => intro pm; rw [List.foldl_cons, (ih _).1, (ih _).2]; exact ⟨rfl, rfl⟩
  have hcond : ∀ (l : List corev1.PodCondition) (pm : PodMetrics),
      (l.foldl
        (fun (pm : PodMetrics) (condition : corev1.PodCondition) =>
          { pm with
            Conditions := pm.Conditions ++ [{
              Type_ := condition.Type_,
              Status := condition.Status,
              Reason := condition.Reason,
              Message := condition.Message }] })
        pm).Ready = pm.Ready ∧
      (l.foldl
        (fun (pm : PodMetrics) (condition : corev1.PodCondition) =>
          { pm with
            Conditions := pm.Conditions ++ [{
              Type_ := condition.Type_,
              Status := condition.Status,
              Reason := condition.Reason,
              Message := condition.Message }] })
        pm).RestartCount = pm.RestartCount := by
    intro l
    induction l with
    | nil => intro pm; exact ⟨rfl, rfl⟩
    | cons c l ih => intro pm; rw [List.foldl_cons, (ih _).1, (ih _).2]; exact ⟨rfl, rfl⟩
  unfold parsePodMetrics
  simp only []
  cases pod.SinceCreation <;> cases metrics <;>
    simp only [(hcond _ _).1, (hcond _ _).2, (huse _ _).1, (huse _ _).2, (hres _ _).1,
      (hres _ _).2, (foldl_parseContainerStatus _ _).1, (foldl_parseContainerStatus _ _).2,
      Bool.false_or, and_self]

theorem foldl_restart_sum (l : List corev1.ContainerStatus) (acc : Int)
    (hl : ∀ cs ∈ l, -(2 ^ 31) ≤ cs.RestartCount ∧ cs.RestartCount < 2 ^ 31)
    (h1 : -(2 ^ 63) ≤ acc - l.length * 2 ^ 31) (h2 : acc + l.length * 2 ^ 31 < 2 ^ 63) :
    l.foldl (fun n cs => wrapInt64 (n + cs.RestartCount)) acc =
      acc + (l.map fun cs => cs.RestartCount).sum := by
  induction l generalizing acc with
  | nil => simp
  | cons cs l ih =>
    have hcs := hl cs (List.mem_cons_self _ _)
    rw [List.length_cons] at h1 h2
    push_cast at h1 h2
    rw [List.foldl_cons, wrapInt64_of_range (by omega) (by omega),
      ih _ (fun c hc => hl c (List.mem_cons_of_mem _ hc)) (by omega) (by omega),
      List.map_cons, List.sum_cons]
    ring

/-- Claim C25 fails on the code for readiness: `parsePodMetrics` sets `Ready` exactly when
some container status of the pod is ready, and never reads the pod conditions for it. A pod
whose Ready condition is `False`, with one container ready out of two, is reported ready; a
pod whose Ready condition is `True`, with no container status, is reported not ready. The
restart count is the 64-bit running sum of the restart counters of the container statuses:
their sum when each is a 32-bit number and there are fewer than `2 ^ 31` of them. -/
theorem pod_ready_from_container_statuses (pod : corev1.Pod)
    (metrics : Option (List metricsv1beta1.Usage)) :
    ((parsePodMetrics pod metrics).Ready = true ↔
        ∃ cs ∈ pod.ContainerStatuses, cs.Ready = true) ∧
      ((∀ cs ∈ pod.ContainerStatuses, -(2 ^ 31) ≤ cs.RestartCount ∧ cs.RestartCount < 2 ^ 31) →
        pod.ContainerStatuses.length < 2 ^ 31 →
        (parsePodMetrics pod metrics).RestartCount =
          (pod.ContainerStatuses.map fun cs => cs.RestartCount).sum) ∧
      ((parsePodMetrics podOneContainerReady none).Ready = true ∧
        ¬ ∃ c ∈ podOneContainerReady.Conditions, c.Type_ = "Ready" ∧ c.Status = "True") ∧
      ((parsePodMetrics podReadyCondition none).Ready = false ∧
        ∃ c ∈ podReadyCondition.Conditions, c.Type_ = "Ready" ∧ c.Status = "True") ∧
      (parsePodMetrics podOneContainerReady none).RestartCount = 7 := by
  refine ⟨?_, ?_, ⟨by decide, by decide⟩, ⟨by decide, by decide⟩, by decide⟩
  · rw [(parsePodMetrics_Ready pod metrics).1, List.any_eq_true]
  · intro hl hlen
    have hlen' : (pod.ContainerStatuses.length : Int) < 2 ^ 31 := by exact_mod_cast hlen
    rw [(parsePodMetrics_Ready pod metrics).2,
      foldl_restart_sum _ 0 hl (by omega) (by omega), zero_add]

end K8s

/-! ## Helpers -/

/-- Claim C26. For every host, user, password and port, `ValidateConfig` returns an error
exactly when the host is empty, or the user is empty, or the port is not in the range
1..65535; two calls that differ only in the password return the same result; every row of
the table of `TestValidateConfig` gives the expected outcome. -/
theorem validate_config_error_iff (host user password : String) (port : Int) :
    (isError (ValidateConfig host user password port) = true ↔
        host = "" ∨ user = "" ∨ ¬ (1 ≤ port ∧ port ≤ 65535)) ∧
      (∀ other : String,
        ValidateConfig host user other port = ValidateConfig host user password port) ∧
      ∀ t ∈ validateConfigTests,
        isError (ValidateConfig t.1 t.2.1 t.2.2.1 t.2.2.2.1) = t.2.2.2.2 := by
  refine ⟨?_, fun _ => rfl, by decide⟩
  unfold ValidateConfig
  by_cases h1 : host = ""
  · rw [if_pos h1]
    exact ⟨fun _ => Or.inl h1, fun _ => rfl⟩
  · rw [if_neg h1]
    by_cases h2 : user = ""
    · rw [if_pos h2]
      exact ⟨fun _ => Or.inr (Or.inl h2), fun _ => rfl⟩
    · rw [if_neg h2]
      by_cases h3 : port ≤ 0 ∨ port > 65535
      · rw [if_pos h3]
        exact ⟨fun _ => Or.inr (Or.inr (by omega)), fun _ => rfl⟩
      · rw [if_neg h3]
        constructor
        · intro h
          cases h
        · rintro (h | h | h)
          · exact absurd h h1
          · exact absurd h h2
          · exact absurd (by omega) h

/-- Claim C27 as stated fails: for a `maxLen` of 0, 1 or 2 and a longer string the slice
bound `maxLen - 3` is negative and `TruncateString` fails instead of returning a string. -/
theorem truncate_fails_below_three :
    TruncateString (asciiBytes "toolong") 2 = .error "slice bounds out of range" ∧
      TruncateString (asciiBytes "a") 0 = .error "slice bounds out of range" :=
  ⟨rfl, rfl⟩

/-- Claim C27, amended. For every string `s` and every `maxLen` of at least 3 (an `int`),
`TruncateString` does not fail, returns `s` unchanged when `len(s) <= maxLen`, and
otherwise returns a string of length exactly `maxLen`, made of the first `maxLen - 3` bytes
of `s` followed by `...`. -/
theorem truncate_string_from_three (s : GoBytes) (maxLen : Int) (h3 : 3 ≤ maxLen)
    (hmax : maxLen < 2 ^ 63) :
    ((s.length : Int) ≤ maxLen → TruncateString s maxLen = .ok s) ∧
      (maxLen < (s.length : Int) →
        ∃ r, TruncateString s maxLen = .ok r ∧ (r.length : Int) = maxLen ∧
          r = s.take (maxLen - 3).toNat ++ asciiBytes "...") := by
  unfold TruncateString
  constructor
  · intro h
    rw [if_pos h]
  · intro h
    rw [if_neg (by omega)]
    have hw : wrapInt64 (maxLen - 3) = maxLen - 3 := wrapInt64_of_range (by omega) (by omega)
    simp only [hw]
    rw [if_neg (by omega)]
    refine ⟨_, rfl, ?_, rfl⟩
    rw [List.length_append, List.length_take]
    have h4 : (asciiBytes "...").length = 3 := rfl
    rw [h4, min_eq_left (by omega)]
    omega

/-- The amended claim C27 at the rows of `TestTruncateString`. -/
theorem truncate_string_from_three_witness :
    TruncateString (asciiBytes "short") 10 = .ok (asciiBytes "short") ∧
      TruncateString (asciiBytes "exact") 5 = .ok (asciiBytes "exact") ∧
      (∃ r, TruncateString (asciiBytes "this is a long string") 10 = .ok r ∧
        (r.length : Int) = 10 ∧ r = asciiBytes "this is...") ∧
      ∃ r, TruncateString (asciiBytes "toolong") 5 = .ok r ∧ (r.length : Int) = 5 ∧
        r = asciiBytes "to..." :=
  ⟨(truncate_string_from_three (asciiBytes "short") 10 (by decide) (by decide)).1 (by decide),
    (truncate_string_from_three (asciiBytes "exact") 5 (by decide) (by decide)).1 (by decide),
    (truncate_string_from_three (asciiBytes "this is a long string") 10 (by decide)
      (by decide)).2 (by decide),
    (truncate_string_from_three (asciiBytes "toolong") 5 (by decide) (by decide)).2 (by decide)⟩

/-! ## Disk I/O fields and rules that never fire -/

theorem parseDfRows_io_zero (pf : FloatParser) (df : String) :
    ∀ e ∈ parseDfRows pf df, IOZero e.2 ∧ e.2.IOErrors = 0 := by
  unfold parseDfRows
  apply rangeFold_invariant
    (fun m : GoMap DiskMetrics => ∀ e ∈ m, IOZero e.2 ∧ e.2.IOErrors = 0)
  · intro s i line hs
    simp only []
    split_ifs
    · exact hs
    · intro e he
      rcases mem_mapSet _ _ _ _ he with h | h
      · rw [h]
        exact ⟨⟨rfl, rfl, rfl, rfl, rfl, rfl⟩, rfl⟩
      · exact hs e h
    · exact hs
  · intro e he
    cases he

theorem foldl_inodeStep_io (pf : FloatParser) (mount : List Char)
    (rows : List (List (List Char))) (disk : DiskMetrics) :
    (IOZero disk → IOZero (rows.foldl (inodeStep pf mount) disk)) ∧
      (rows.foldl (inodeStep pf mount) disk).IOErrors = disk.IOErrors := by
  induction rows generalizing disk with
  | nil => exact ⟨id, rfl⟩
  | cons row rows ih =>
    rw [List.foldl_cons]
    have hstep : (IOZero disk → IOZero (inodeStep pf mount disk row)) ∧
        (inodeStep pf mount disk row).IOErrors = disk.IOErrors := by
      unfold inodeStep
      split_ifs
      · exact ⟨id, rfl⟩
      · exact ⟨id, rfl⟩
    exact ⟨fun h => (ih _).1 (hstep.1 h), (ih _).2.trans hstep.2⟩

theorem mem_parseDiskMetrics_row (pf : FloatParser) (ord : RangeOrder)
    (df dfInodes iostat1 iostat2 ioErrors : String) (disk : DiskMetrics)
    (h : disk ∈ parseDiskMetrics pf ord df dfInodes iostat1 iostat2 ioErrors) :
    ∃ d0 : DiskMetrics, IOZero d0 ∧ d0.IOErrors = 0 ∧
      disk = (ord.visit _ (parseIOStats iostat2)).foldl (joinStep (parseIOStats iostat1)) d0 := by
  obtain ⟨x, hx, rfl⟩ := List.mem_map.mp
    ((parseDiskMetrics_perm pf ord df dfInodes iostat1 iostat2 ioErrors).subset h)
  have h0 := parseDfRows_io_zero pf df x hx
  have h1 := foldl_inodeStep_io pf x.1 (dfRows dfInodes) x.2
  exact ⟨_, h1.1 h0.1, h1.2.trans h0.2, rfl⟩

theorem joins_iff (iostat1 iostat2 : String) (path : String) (e : List Char × IOStats)
    (he : e ∈ parseIOStats iostat2) :
    joins (parseIOStats iostat1) path e = true ↔ ∃ s1, Joined iostat1 iostat2 path e.1 s1 e.2 := by
  unfold joins Joined
  have h2 := mapGet?_of_mem _ (parseIOStats_KeysNodup iostat2) e.1 e.2 he
  rw [Bool.and_eq_true, Option.isSome_iff_exists]
  constructor
  · rintro ⟨⟨s1, h1⟩, hp⟩
    exact ⟨s1, h1, h2, hp⟩
  · rintro ⟨s1, h1, _, hp⟩
    exact ⟨⟨s1, h1⟩, hp⟩

theorem wrapInt64_sub_nonneg {a b : Int} (ha : -(2 ^ 63) ≤ a ∧ a < 2 ^ 63)
    (hb : -(2 ^ 63) ≤ b ∧ b < 2 ^ 63) (ha0 : 0 ≤ a) (hb0 : 0 ≤ b) :
    wrapInt64 (b - a) = b - a :=
  wrapInt64_of_range (by omega) (by omega)

/-- The per-second fields of a record in terms of the maps of `parseIOStats`: the
differences of a joined key when there is one, and zero I/O fields when there is none. -/
theorem io_fields_of_joined_maps (pf : FloatParser) (ord : RangeOrder)
    (df dfInodes iostat1 iostat2 ioErrors : String) :
    (∀ disk ∈ parseDiskMetrics pf ord df dfInodes iostat1 iostat2 ioErrors,
      (∃ dev s1 s2, Joined iostat1 iostat2 disk.Device dev s1 s2) →
      ∃ dev s1 s2, Joined iostat1 iostat2 disk.Device dev s1 s2 ∧ RatesFrom s1 s2 disk ∧
        (0 ≤ s1.ReadOps → 0 ≤ s2.ReadOps → disk.ReadOpsPS = s2.ReadOps - s1.ReadOps) ∧
        (0 ≤ s1.WriteOps → 0 ≤ s2.WriteOps → disk.WriteOpsPS = s2.WriteOps - s1.WriteOps) ∧
        (0 ≤ s1.ReadBytes → 0 ≤ s2.ReadBytes →
          disk.ReadBytesPS = s2.ReadBytes - s1.ReadBytes) ∧
        (0 ≤ s1.WriteBytes → 0 ≤ s2.WriteBytes →
          disk.WriteBytesPS = s2.WriteBytes - s1.WriteBytes)) ∧
      (∀ disk ∈ parseDiskMetrics pf ord df dfInodes iostat1 iostat2 ioErrors,
        (¬ ∃ dev s1 s2, Joined iostat1 iostat2 disk.Device dev s1 s2) → IOZero disk) ∧
      (parseDiskMetrics (fun _ => 0) RangeOrder.stored dfTwoRows "" diskstatsFirst
          diskstatsSecond "").map (fun disk => (disk.Device, disk.ReadOpsPS)) =
        [("/dev/sda1", -30), ("/dev/sdb1", 0)] := by
  refine ⟨?_, ?_, by decide⟩
  · intro disk hdisk hj
    obtain ⟨d0, _, _, hd⟩ := mem_parseDiskMetrics_row pf ord df dfInodes iostat1 iostat2 ioErrors
      disk hdisk
    have hdev : disk.Device = d0.Device := by rw [hd, foldl_joinStep_Device]
    obtain ⟨dev, s1, s2, h1, h2, h3⟩ := hj
    have hmem : (dev, s2) ∈ ord.visit _ (parseIOStats iostat2) :=
      (ord.visit_perm _ _).symm.subset (mem_of_mapGet? _ _ _ h2)
    obtain ⟨e2, he2, t1, h4, h5, h6⟩ :=
      foldl_joinStep_rates (parseIOStats iostat1) (ord.visit _ (parseIOStats iostat2)) d0
        ⟨(dev, s2), hmem, s1, h1, by rw [← hdev]; exact h3⟩
    rw [← hd] at h6
    have he2' : e2 ∈ parseIOStats iostat2 := (ord.visit_perm _ _).subset he2
    have hg2 := mapGet?_of_mem _ (parseIOStats_KeysNodup iostat2) e2.1 e2.2 he2'
    have hr2 := parseIOStats_InRange iostat2 e2 he2'
    have hr1 := parseIOStats_InRange iostat1 (e2.1, t1) (mem_of_mapGet? _ _ _ h4)
    refine ⟨e2.1, t1, e2.2, ⟨h4, hg2, by rw [hdev]; exact h5⟩, h6, ?_, ?_, ?_, ?_⟩
    · intro ha hb; rw [h6.1]; exact wrapInt64_sub_nonneg hr1.1 hr2.1 ha hb
    · intro ha hb; rw [h6.2.1]; exact wrapInt64_sub_nonneg hr1.2.1 hr2.2.1 ha hb
    · intro ha hb; rw [h6.2.2.1]; exact wrapInt64_sub_nonneg hr1.2.2.1 hr2.2.2.1 ha hb
    · intro ha hb; rw [h6.2.2.2]; exact wrapInt64_sub_nonneg hr1.2.2.2.1 hr2.2.2.2.1 ha hb
  · intro disk hdisk hnot
    obtain ⟨d0, hzero, _, hd⟩ := mem_parseDiskMetrics_row pf ord df dfInodes iostat1 iostat2
      ioErrors disk hdisk
    have hdev : disk.Device = d0.Device := by rw [hd, foldl_joinStep_Device]
    have hfilter : (ord.visit _ (parseIOStats iostat2)).filter
        (joins (parseIOStats iostat1) d0.Device) = [] := by
      rw [List.filter_eq_nil_iff]
      intro e he hj
      have he' : e ∈ parseIOStats iostat2 := (ord.visit_perm _ _).subset he
      obtain ⟨s1, hjoin⟩ := (joins_iff iostat1 iostat2 d0.Device e he').mp hj
      exact hnot ⟨e.1, s1, e.2, by rw [hdev]; exact hjoin⟩
    rw [hd, foldl_joinStep_filter _ d0.Device _ d0 rfl, hfilter]
    exact hzero

theorem mem_ite_append {α : Type} {c : Prop} [Decidable c] {l : List α} {x i : α}
    (h : i ∈ (if c then l ++ [x] else l)) : i ∈ l ∨ i = x := by
  split_ifs at h
  · rcases List.mem_append.mp h with h | h
    · exact Or.inl h
    · exact Or.inr (List.mem_singleton.mp h)
  · exact Or.inl h

theorem mem_ite_keep {α : Type} {c : Prop} [Decidable c] {l : List α} {x i : α}
    (h : i ∈ l) : i ∈ (if c then l ++ [x] else l) := by
  split_ifs
  · exact List.mem_append_left _ h
  · exact h

theorem analyzeCPUMemory_live (report : ServerReport) :
    ∀ i ∈ analyzeCPUMemory report [], i.NotFromDeadRule := by
  intro i hi
  unfold analyzeCPUMemory at hi
  simp only [] at hi
  unfold Issue.NotFromDeadRule ioErrorSuggestion retransmitSuggestion
  rcases mem_ite_append hi with hi | rfl
  · rcases mem_ite_append hi with hi | rfl
    · rcases mem_ite_append hi with hi | rfl
      · rcases mem_ite_append hi with hi | rfl
        · rcases mem_ite_append hi with hi | rfl
          · rcases mem_ite_append hi with hi | rfl
            · cases hi
            · exact ⟨by dsimp only; decide, by dsimp only; decide⟩
          · exact ⟨by dsimp only; decide, by dsimp only; decide⟩
        · exact ⟨by dsimp only; decide, by dsimp only; decide⟩
      · exact ⟨by dsimp only; decide, by dsimp only; decide⟩
    · exact ⟨by dsimp only; decide, by dsimp only; decide⟩
  · exact ⟨by dsimp only; decide, by dsimp only; decide⟩

theorem analyzeDisk_live (disk : DiskMetrics) (h0 : disk.IOErrors = 0) :
    ∀ i ∈ analyzeDisk [] disk, i.NotFromDeadRule := by
  intro i hi
  unfold analyzeDisk at hi
  simp only [] at hi
  rw [if_neg (by rw [h0]; decide)] at hi
  unfold Issue.NotFromDeadRule ioErrorSuggestion retransmitSuggestion
  rcases mem_ite_append hi with hi | rfl
  · rcases mem_ite_append hi with hi | rfl
    · rcases mem_ite_append hi with hi | rfl
      · cases hi
      · exact ⟨by dsimp only; decide, by dsimp only; decide⟩
    · exact ⟨by dsimp only; decide, by dsimp only; decide⟩
  · exact ⟨by dsimp only; decide, by dsimp only; decide⟩

theorem analyzeInterface_live (iface : NetworkInterface) :
    ∀ i ∈ analyzeInterface [] iface, i.NotFromDeadRule := by
  intro i hi
  unfold analyzeInterface at hi
  unfold Issue.NotFromDeadRule ioErrorSuggestion retransmitSuggestion
  rcases mem_ite_append hi with hi | rfl
  · cases hi
  · exact ⟨by dsimp only; decide, by dsimp only; decide⟩

theorem analyzeTCPSystem_live (report : ServerReport)
    (h0 : report.Network.TCPConnections.RetransmitRate = 0) :
    ∀ i ∈ analyzeTCPSystem report [], i.NotFromDeadRule := by
  intro i hi
  have hneg : ¬ report.Network.TCPConnections.RetransmitRate > 5 / 100 := by
    rw [h0]; norm_num
  unfold analyzeTCPSystem at hi
  simp only [] at hi
  rw [if_neg hneg] at hi
  unfold Issue.NotFromDeadRule ioErrorSuggestion retransmitSuggestion
  rcases mem_ite_append hi with hi | rfl
  · rcases mem_ite_append hi with hi | rfl
    · rcases mem_ite_append hi with hi | rfl
      · cases hi
      · exact ⟨by dsimp only; decide, by dsimp only; decide⟩
    · exact ⟨by dsimp only; decide, by dsimp only; decide⟩
  · exact ⟨by dsimp only; decide, by dsimp only; decide⟩

theorem parseNetworkMetrics_RetransmitRate (ord : RangeOrder)
    (netdev1 netdev2 tcpStats netstat localIP : String) :
    (parseNetworkMetrics ord netdev1 netdev2 tcpStats netstat localIP).TCPConnections.RetransmitRate
      = 0 := by
  have hr : ∀ tcp : TCPStats, (parseRetransmits netstat tcp).RetransmitRate = tcp.RetransmitRate := by
    intro tcp
    unfold parseRetransmits
    by_cases h1 : Contains netstat.data "TcpExt".data = true
    · rw [if_pos h1]
      simp only []
      by_cases h2 : 2 ≤ (Split netstat.data '\n').length
      · rw [if_pos h2]
        apply rangeFold_invariant (fun s : TCPStats => s.RetransmitRate = tcp.RetransmitRate)
        · intro s i key hs
          split_ifs
          · exact hs
          · exact hs
          · exact hs
        · rfl
      · rw [if_neg h2]
    · rw [if_neg h1]
  unfold parseNetworkMetrics
  simp only []
  rw [hr, parseTCPStats_eq]
  exact (foldl_tcpStep_rest _ _).2

/-- Claim C30. For all raw input texts, every disk record returned by `parseDiskMetrics`
has `IOErrors = 0` and the record returned by `parseNetworkMetrics` has a retransmit rate
of 0. Consequently, on a report whose disk and network records come from these parsers,
every issue in the list after `analyzeIssues` was there before or is not the issue of the
I/O error rule nor that of the retransmit rule, which are the issues with the suggestions
`ioErrorSuggestion` and `retransmitSuggestion`: a record with `IOErrors > 0`, or a
retransmit rate above 5%, would raise one. -/
theorem io_errors_and_retransmit_rate_stay_zero (pf : FloatParser) (ord : RangeOrder)
    (df dfInodes iostat1 iostat2 ioErrors netdev1 netdev2 tcpStats netstat localIP : String) :
    (∀ disk ∈ parseDiskMetrics pf ord df dfInodes iostat1 iostat2 ioErrors,
      disk.IOErrors = 0) ∧
      (parseNetworkMetrics ord netdev1 netdev2 tcpStats netstat
        localIP).TCPConnections.RetransmitRate = 0 ∧
      (∀ report : ServerReport,
        report.Disk = parseDiskMetrics pf ord df dfInodes iostat1 iostat2 ioErrors →
        report.Network = parseNetworkMetrics ord netdev1 netdev2 tcpStats netstat localIP →
        ∀ i ∈ (analyzeIssues report).Issues, i ∈ report.Issues ∨ i.NotFromDeadRule) ∧
      (∀ disk : DiskMetrics, disk.IOErrors > 0 →
        ∃ i ∈ analyzeDisk [] disk, i.Level = "critical" ∧ i.Category = "disk" ∧
          i.Suggestion = ioErrorSuggestion) ∧
      ∀ report : ServerReport, report.Network.TCPConnections.RetransmitRate > 5 / 100 →
        ∃ i ∈ analyzeTCPSystem report [], i.Level = "warning" ∧ i.Category = "network" ∧
          i.Suggestion = retransmitSuggestion := by
  have hio : ∀ disk ∈ parseDiskMetrics pf ord df dfInodes iostat1 iostat2 ioErrors,
      disk.IOErrors = 0 := by
    intro disk hdisk
    obtain ⟨d0, _, h0, hd⟩ := mem_parseDiskMetrics_row pf ord df dfInodes iostat1 iostat2
      ioErrors disk hdisk
    rw [hd, (foldl_joinStep_kept _ _ _).2.2.2.2.2, h0]
  have hrate := parseNetworkMetrics_RetransmitRate ord netdev1 netdev2 tcpStats netstat localIP
  refine ⟨hio, hrate, ?_, ?_, ?_⟩
  · intro report hdisk hnet i hi
    rw [analyzeIssues_blocks] at hi
    simp only [List.mem_append] at hi
    rcases hi with (((hi | hi) | hi) | hi) | hi
    · exact Or.inl hi
    · exact Or.inr (analyzeCPUMemory_live report i hi)
    · obtain ⟨d, hd, hid⟩ := List.mem_flatMap.mp hi
      exact Or.inr (analyzeDisk_live d (hio d (by rw [← hdisk]; exact hd)) i hid)
    · obtain ⟨d, _, hid⟩ := List.mem_flatMap.mp hi
      exact Or.inr (analyzeInterface_live d i hid)
    · exact Or.inr (analyzeTCPSystem_live report (by rw [hnet]; exact hrate) i hi)
  · intro disk hpos
    unfold analyzeDisk
    simp only []
    rw [if_pos hpos]
    exact ⟨_, List.mem_append_right _ (List.mem_singleton_self _), rfl, rfl, rfl⟩
  · intro report hpos
    unfold analyzeTCPSystem
    simp only []
    rw [if_pos hpos]
    exact ⟨_, mem_ite_keep (mem_ite_keep (mem_ite_keep
      (List.mem_append_right _ (List.mem_singleton_self _)))), rfl, rfl, rfl⟩

/-! ## Devices kept from the diskstats samples; combined run -/

theorem foldl_parseIOStats_get (lines : List (List Char)) (dev : List Char) :
    mapGet?
      (lines.foldl
        (fun (stats : GoMap IOStats) line =>
          let parts := Fields line
          if 14 ≤ parts.length then
            let device := parts.getD 2 []
            if Contains device "loop".data || 10 < byteLen device then stats
            else
              mapSet stats device
                { ReadOps := ParseInt (parts.getD 3 []),
                  ReadBytes := wrapInt64 (ParseInt (parts.getD 5 []) * 512),
                  WriteOps := ParseInt (parts.getD 7 []),
                  WriteBytes := wrapInt64 (ParseInt (parts.getD 9 []) * 512),
                  IOTime := ParseInt (parts.getD 12 []) }
          else stats)
        []) dev =
      (((lines.map Fields).filter (keptRow dev)).getLast?).map statsOfRow := by
  induction lines using List.reverseRecOn with
  | nil => rfl
  | append_singleton lines line ih =>
    rw [List.foldl_append, List.foldl_cons, List.foldl_nil, List.map_append, List.filter_append,
      List.map_cons, List.map_nil]
    simp only []
    by_cases h14 : 14 ≤ (Fields line).length
    · rw [if_pos h14]
      by_cases hbad : (Contains ((Fields line).getD 2 []) "loop".data ||
          decide (10 < byteLen ((Fields line).getD 2 []))) = true
      · rw [if_pos hbad, ih]
        have hrow : ¬ (keptRow dev (Fields line) = true) := by
          intro h
          unfold keptRow at h
          simp only [Bool.and_eq_true, decide_eq_true_eq, Bool.not_eq_true'] at h
          rw [← h.1.2, hbad] at h
          exact absurd h.2 (by decide)
        rw [List.filter_cons_of_neg hrow, List.filter_nil, List.append_nil]
      · rw [if_neg hbad, mapGet?_mapSet]
        by_cases hdev : (Fields line).getD 2 [] = dev
        · rw [if_pos hdev]
          have hrow : keptRow dev (Fields line) = true := by
            unfold keptRow
            rw [← hdev]
            simp only [Bool.and_eq_true, decide_eq_true_eq, Bool.not_eq_true']
            exact ⟨⟨h14, trivial⟩, by simpa using hbad⟩
          rw [List.filter_cons_of_pos hrow, List.filter_nil, List.getLast?_append,
            List.getLast?_singleton]
          rfl
        · rw [if_neg hdev, ih]
          have hrow : ¬ (keptRow dev (Fields line) = true) := by
            intro h
            unfold keptRow at h
            simp only [Bool.and_eq_true, decide_eq_true_eq] at h
            exact hdev h.1.2
          rw [List.filter_cons_of_neg hrow, List.filter_nil, List.append_nil]
    · rw [if_neg h14, ih]
      have hrow : ¬ (keptRow dev (Fields line) = true) := by
        intro h
        unfold keptRow at h
        simp only [Bool.and_eq_true, decide_eq_true_eq] at h
        exact h14 h.1.1
      rw [List.filter_cons_of_neg hrow, List.filter_nil, List.append_nil]

theorem parseIOStats_get (diskstats : String) (dev : List Char) :
    mapGet? (parseIOStats diskstats) dev = deviceStats diskstats dev :=
  foldl_parseIOStats_get _ dev

theorem KeptJoined_iff (iostat1 iostat2 : String) (path : String) (dev : List Char)
    (s1 s2 : IOStats) :
    KeptJoined iostat1 iostat2 path dev s1 s2 ↔
      (mapGet? (parseIOStats iostat1) dev = some s1 ∧
        mapGet? (parseIOStats iostat2) dev = some s2 ∧
        HasPrefix path.data ("/dev/".data ++ dev) = true) := by
  unfold KeptJoined
  rw [parseIOStats_get, parseIOStats_get]

theorem deviceStats_dropped (diskstats : String) (dev : List Char)
    (h : Contains dev "loop".data = true ∨ 10 < byteLen dev) : deviceStats diskstats dev = none := by
  unfold deviceStats keptDeviceRows
  have hnil : ((Split (TrimSpace diskstats.data) '\n').map Fields).filter (keptRow dev) = [] := by
    rw [List.filter_eq_nil_iff]
    intro parts _ hp
    unfold keptRow at hp
    simp only [Bool.and_eq_true, Bool.not_eq_true', Bool.or_eq_false_iff,
      decide_eq_false_iff_not] at hp
    rcases h with h | h
    · rw [h] at hp
      exact absurd hp.2.1 (by decide)
    · exact hp.2.2 h
  rw [hnil]
  rfl

theorem KeptJoined_iff_Joined (iostat1 iostat2 : String) (path : String) (dev : List Char)
    (s1 s2 : IOStats) :
    KeptJoined iostat1 iostat2 path dev s1 s2 ↔ Joined iostat1 iostat2 path dev s1 s2 :=
  KeptJoined_iff iostat1 iostat2 path dev s1 s2

/-- Claim C1, amended. For every `df` output and every pair of `/proc/diskstats` samples,
a record returned by `parseDiskMetrics` that is joined to a device, that is whose device
path starts with `/dev/` followed by the name of a device that `parseIOStats` keeps from
both samples (a row of at least 14 fields, a name without `loop` and of at most 10 bytes),
has its four per-second fields equal to the 64-bit differences, second sample minus first,
of the counters of one such device. The difference is not clamped: when a non-negative
counter of that device is lower in the second sample, the field is that negative
difference and not 0. -/
theorem disk_rates_are_sample_differences (pf : FloatParser) (ord : RangeOrder)
    (df dfInodes iostat1 iostat2 ioErrors : String) (disk : DiskMetrics)
    (hd : disk ∈ parseDiskMetrics pf ord df dfInodes iostat1 iostat2 ioErrors)
    (hj : ∃ dev s1 s2, KeptJoined iostat1 iostat2 disk.Device dev s1 s2) :
    ∃ dev s1 s2, KeptJoined iostat1 iostat2 disk.Device dev s1 s2 ∧
      disk.ReadOpsPS = wrapInt64 (s2.ReadOps - s1.ReadOps) ∧
      disk.WriteOpsPS = wrapInt64 (s2.WriteOps - s1.WriteOps) ∧
      disk.ReadBytesPS = wrapInt64 (s2.ReadBytes - s1.ReadBytes) ∧
      disk.WriteBytesPS = wrapInt64 (s2.WriteBytes - s1.WriteBytes) ∧
      (0 ≤ s2.ReadOps → s2.ReadOps < s1.ReadOps →
        disk.ReadOpsPS = s2.ReadOps - s1.ReadOps ∧ disk.ReadOpsPS < 0) ∧
      (0 ≤ s2.WriteOps → s2.WriteOps < s1.WriteOps →
        disk.WriteOpsPS = s2.WriteOps - s1.WriteOps ∧ disk.WriteOpsPS < 0) ∧
      (0 ≤ s2.ReadBytes → s2.ReadBytes < s1.ReadBytes →
        disk.ReadBytesPS = s2.ReadBytes - s1.ReadBytes ∧ disk.ReadBytesPS < 0) ∧
      (0 ≤ s2.WriteBytes → s2.WriteBytes < s1.WriteBytes →
        disk.WriteBytesPS = s2.WriteBytes - s1.WriteBytes ∧ disk.WriteBytesPS < 0) := by
  obtain ⟨dev, s1, s2, hk⟩ := hj
  obtain ⟨dev', t1, t2, h1, h2, h3, hrest⟩ :=
    rates_of_joined_maps pf ord df dfInodes iostat1 iostat2 ioErrors disk hd
      ⟨dev, s1, s2, (KeptJoined_iff _ _ _ _ _ _).mp hk⟩
  exact ⟨dev', t1, t2, (KeptJoined_iff _ _ _ _ _ _).mpr ⟨h1, h2, h3⟩, hrest⟩

/-- The amended claim C1 at the samples of the counterexample: the record of `/dev/sda` is
joined to the device `sda`, kept from both samples, and its `ReadOpsPS` is the difference
of the two read-ops counters. -/
theorem disk_rates_are_sample_differences_witness :
    ∃ dev s1 s2, KeptJoined diskstatsFirst diskstatsSecond "/dev/sda" dev s1 s2 ∧
      (-30 : Int) = wrapInt64 (s2.ReadOps - s1.ReadOps) := by
  obtain ⟨dev, s1, s2, h1, h2, _⟩ :=
    disk_rates_are_sample_differences (fun _ => 0) RangeOrder.stored dfSample ""
      diskstatsFirst diskstatsSecond ""
      { Device := "/dev/sda", MountPoint := "/", FsType := "100G", ReadOpsPS := -30 }
      (by decide)
      ⟨"sda".data, { ReadOps := 100 }, { ReadOps := 70 }, by decide, by decide, by decide⟩
  exact ⟨dev, s1, s2, h1, h2⟩

/-- Claim C28 as stated fails: the device `loop0` has a row in both diskstats samples, with
100 and then 170 completed reads, and the device path `/dev/loop0` of the `df` row starts
with `/dev/` followed by its name, yet the record keeps `ReadOpsPS = 0` and not 70:
`parseIOStats` drops every device whose name contains `loop`. -/
theorem loop_device_keeps_zero_io_fields :
    ((Fields diskstatsLoopFirst.data).getD 2 [] = "loop0".data ∧
        ParseInt ((Fields diskstatsLoopFirst.data).getD 3 []) = 100) ∧
      ((Fields diskstatsLoopSecond.data).getD 2 [] = "loop0".data ∧
        ParseInt ((Fields diskstatsLoopSecond.data).getD 3 []) = 170) ∧
      HasPrefix "/dev/loop0".data ("/dev/".data ++ "loop0".data) = true ∧
      (parseDiskMetrics (fun _ => 0) RangeOrder.stored dfLoop "" diskstatsLoopFirst
          diskstatsLoopSecond "").map (fun disk => (disk.Device, disk.ReadOpsPS)) =
        [("/dev/loop0", 0)] := by
  decide

/-- Claim C28, amended. For every record returned by `parseDiskMetrics`, with device path
`P`: when some diskstats device that `parseIOStats` keeps from both samples (a row of at
least 14 fields, a name without `loop` and of at most 10 bytes) is such that `P` starts
with `/dev/` followed by its name, the four per-second fields of the record are the 64-bit
differences, second sample minus first, of the counters of one such device, which are the
plain differences when the counters are not negative; when no kept device is so matched,
`ReadBytesPS`, `WriteBytesPS`, `ReadOpsPS`, `WriteOpsPS`, `IOUtilPercent` and `AvgAwaitMs`
are 0. A device whose name contains `loop` or has more than 10 bytes is never kept. On two
rows `/dev/sda1` and `/dev/sdb1` and samples of `sda` with 100 and then 70 reads, the first
record has the difference -30 and the second 0. -/
theorem disk_io_fields_of_joined_device (pf : FloatParser) (ord : RangeOrder)
    (df dfInodes iostat1 iostat2 ioErrors : String) :
    (∀ disk ∈ parseDiskMetrics pf ord df dfInodes iostat1 iostat2 ioErrors,
      (∃ dev s1 s2, KeptJoined iostat1 iostat2 disk.Device dev s1 s2) →
      ∃ dev s1 s2, KeptJoined iostat1 iostat2 disk.Device dev s1 s2 ∧ RatesFrom s1 s2 disk ∧
        (0 ≤ s1.ReadOps → 0 ≤ s2.ReadOps → disk.ReadOpsPS = s2.ReadOps - s1.ReadOps) ∧
        (0 ≤ s1.WriteOps → 0 ≤ s2.WriteOps → disk.WriteOpsPS = s2.WriteOps - s1.WriteOps) ∧
        (0 ≤ s1.ReadBytes → 0 ≤ s2.ReadBytes →
          disk.ReadBytesPS = s2.ReadBytes - s1.ReadBytes) ∧
        (0 ≤ s1.WriteBytes → 0 ≤ s2.WriteBytes →
          disk.WriteBytesPS = s2.WriteBytes - s1.WriteBytes)) ∧
      (∀ disk ∈ parseDiskMetrics pf ord df dfInodes iostat1 iostat2 ioErrors,
        (¬ ∃ dev s1 s2, KeptJoined iostat1 iostat2 disk.Device dev s1 s2) → IOZero disk) ∧
      (∀ (diskstats : String) (dev : List Char),
        Contains dev "loop".data = true ∨ 10 < byteLen dev →
          deviceStats diskstats dev = none) ∧
      (parseDiskMetrics (fun _ => 0) RangeOrder.stored dfTwoRows "" diskstatsFirst
          diskstatsSecond "").map (fun disk => (disk.Device, disk.ReadOpsPS)) =
        [("/dev/sda1", -30), ("/dev/sdb1", 0)] := by
  have h := io_fields_of_joined_maps pf ord df dfInodes iostat1 iostat2 ioErrors
  simp only [← KeptJoined_iff_Joined] at h
  exact ⟨h.1, h.2.1, deviceStats_dropped, h.2.2⟩

/-- Claim C16, amended. In the combined run, the `TotalIssues` that `BuildInspectionSummary`
computes is the number of issues of the first server report returned by the fan-out (0
when it returns none) plus the number of issues of the cluster report (0 when there is
none); the server reports after the first do not enter it. -/
theorem combined_summary_counts_first_report_and_cluster (k8sResult : Option K8sReport)
    (completion : RangeOrder) (attempt : String → HostOutcome) (hosts : List String)
    (hlen : firstReportIssues (inspectServersParallel completion attempt hosts) +
      clusterReportIssues k8sResult < 2 ^ 63) :
    (runAllInspection k8sResult completion attempt hosts).Summary.TotalIssues =
      (firstReportIssues (inspectServersParallel completion attempt hosts) : Int) +
        (clusterReportIssues k8sResult : Int) := by
  obtain ⟨full, hfull, hk, hs⟩ := runAllInspection_allIssues k8sResult completion attempt hosts
  have hall : (allIssues full).length =
      firstReportIssues (inspectServersParallel completion attempt hosts) +
        clusterReportIssues k8sResult := by
    unfold allIssues firstReportIssues clusterReportIssues
    rw [hk, hs, List.length_append]
    cases (inspectServersParallel completion attempt hosts).head? <;> cases k8sResult <;> rfl
  have hfields := BuildInspectionSummary_fields full (by rw [hall]; exact hlen)
  rw [hfull, hfields.1.1, hall]
  push_cast
  rfl

/-- The amended claim C16 at a run of two hosts with one issue each and a cluster report
with two issues: the total is 1 + 2. -/
theorem combined_summary_counts_first_report_and_cluster_witness :
    (runAllInspection (some clusterTwoIssues) RangeOrder.stored twoHostsOneIssueEach
      ["10.0.0.1", "10.0.0.2"]).Summary.TotalIssues = 3 :=
  combined_summary_counts_first_report_and_cluster (some clusterTwoIssues) RangeOrder.stored
    twoHostsOneIssueEach ["10.0.0.1", "10.0.0.2"] (by decide)

end InspectionTool
